import Mathlib

/-! Verification of acsnb-sensor-tiva.

A shallow embedding of `acsnb-sensor-tiva.c`: the SPI command decoder
(`slaveTaskCommand`), the device drivers for the AD7746, HDC1080 and PCA9536,
and the per-channel state machine (`taskI2Ccommon`), followed by theorems about
them.

Conventions of the embedding.

* Bytes (`uint8_t`) are natural numbers; a well-formed byte is below 256.
* `uint32_t` counters are natural numbers reduced modulo `2 ^ 32` where the
  source does arithmetic on them.
* `float` and `double` values are rational numbers.  An operation of the
  capacitance filter is the exact operation followed by the rounding of its
  type: the operands are promoted to `double` as in C, so every operation
  rounds to binary64 (`toDouble`), and a store to a `float` rounds to binary32
  (`toFloat`); round to nearest, ties to even.
* The global variables of the program are the fields of `Sys`.  The six
  variables `switchcmd0` .. `switchcmd5` (and likewise `switchNew`, `intflag`)
  are six fields, as in the source; the arrays `adGetAllCaps`, `filter` and
  `spiMessageOut.msg.sensor` are functions on `Fin MAX_SENSORS`.
* The I2C bus is an oracle (`Hal`): the n-th call of `I2C_transfer` gets the
  n-th reply.  Every transfer (I2C or SPI), semaphore operation and write to
  the telemetry frame is appended to the trace `Sys.log`.
* `Task_sleep`, `System_printf` and the GPIO calls have no effect on the
  modelled state and are left out.
-/

namespace Acsnb

/-! ## Constants -/

/-- Firmware revision, byte 0. -/
def FIRMWARE_REV_0 : Nat := 0
/-- Firmware revision, byte 1. -/
def FIRMWARE_REV_1 : Nat := 0
/-- Firmware revision, byte 2. -/
def FIRMWARE_REV_2 : Nat := 2

/-- Number of sensor channels. -/
abbrev MAX_SENSORS : Nat := 6

/-- Completion timeout (the build without DEBUG_INTERRUPT). -/
def MAX_SENSOR_TIMEOUT_MS : Nat := 1000
/-- Backoff before a new init attempt (the build without DEBUG_INTERRUPT). -/
def MAX_FAILED_INIT_WAIT_MS : Nat := 1000
/-- Sleep of the task between two passes of the state machine. -/
def MIN_TASK_SLEEP_MS : Nat := 1
/-- Minimum period between two HDC1080 reads. -/
def MIN_TEMP_READ_PERIOD_MS : Nat := 1000
/-- Smoothing coefficient of the capacitance filter, 0.99333. -/
def FILTER_COEFF : ℚ := 99333 / 100000

/-- First signature byte of an outbound message. -/
def SIGNATURE0 : Nat := 0xA5
/-- Second signature byte of an outbound message. -/
def SIGNATURE1 : Nat := 0x5A

/-- I2C address of the HDC1080. -/
def HDC1080_ADDR : Nat := 0x40
/-- HDC1080 temperature register. -/
def HDC1080_TMP_REG : Nat := 0x00
/-- HDC1080 configuration register. -/
def HDC1080_CFG_REG : Nat := 0x02
/-- HDC1080 mode: temperature and humidity in sequence. -/
def HDC1080_CFG_MODE_T_AND_H : Nat := 0b0001000000000000
/-- HDC1080 trigger of both conversions. -/
def HDC1080_TRIGGER_BOTH : Nat := 0x00

/-- I2C address of the AD7746. -/
def AD7746_ADDR : Nat := 0x48
/-- AD7746 read pointer used by readAD7746. -/
def AD7746_READ : Nat := 0x01
/-- AD7746 capacitance setup register. -/
def AD7746_CAP_SETUP_REG : Nat := 0x07
/-- AD7746 voltage/temperature setup register. -/
def AD7746_VT_SETUP_REG : Nat := 0x08
/-- AD7746 voltage/temperature setup: internal temperature sensor. -/
def AD7746_VT_SETUP_INT_TEMP : Nat := 0b10000001
/-- AD7746 excitation setup register. -/
def AD7746_EXC_SETUP_REG : Nat := 0x09
/-- AD7746 excitation setup value. -/
def AD7746_EXC_SET_A : Nat := 0b01001011
/-- AD7746 configuration register (conversion time and start). -/
def AD7746_CFG_REG : Nat := 0x0A
/-- AD7746 capacitance offset calibration register, high byte. -/
def AD7746_CAP_OFFSET_H : Nat := 0x0D

/-- I2C address of the PCA9536. -/
def PCA9536_ADDR : Nat := 0x41
/-- PCA9536 output port register. -/
def PCA9536_OUT_PORT_REG : Nat := 0x01
/-- PCA9536 output pattern: idle. -/
def PCA9536_OUT_PORT_RESET : Nat := 0x00
/-- PCA9536 output pattern: new ACS. -/
def PCA9536_OUT_PORT_NEW_ACS : Nat := 0x05
/-- PCA9536 output pattern: old ACS. -/
def PCA9536_OUT_PORT_OLD_ACS : Nat := 0x0A
/-- PCA9536 configuration register. -/
def PCA9536_CONFIG_REG : Nat := 0x03
/-- PCA9536 configuration: all pins are outputs. -/
def PCA9536_CONFIG_ALL_OUTPUT : Nat := 0x00

/-- Number of capacitance reads at which a temperature conversion is
triggered. -/
def AD7746_CAP_VS_TEMP_TRIGGER_INTERVAL : Nat := 10

/-! ## Enumerations -/

/-- Temperature conversion time selections of the AD7746. -/
inductive adTemperatureConversionTime where
  | adtct20msSingle
  | adtct32msSingle
  | adtct62msSingle
  | adtct122msSingle
  deriving DecidableEq, Repr

/-- Register value of a temperature conversion time. -/
def adTemperatureConversionTime.toNat : adTemperatureConversionTime → Nat
  | .adtct20msSingle => 0b00000010
  | .adtct32msSingle => 0b01000010
  | .adtct62msSingle => 0b10000010
  | .adtct122msSingle => 0b11000010

/-- Temperature conversion time used by triggerAD7746temperature. -/
def DEFAULT_TEMPERATURE_CONVERSION_TIME : adTemperatureConversionTime :=
  .adtct32msSingle

/-- Capacitance conversion time selections of the AD7746. -/
inductive adConversionTime where
  | adct11msCont
  | adct11msSingle
  | adct38msCont
  | adct38msSingle
  | adct109msSingle
  deriving DecidableEq, Repr

/-- Register value of a capacitance conversion time. -/
def adConversionTime.toNat : adConversionTime → Nat
  | .adct11msCont => 0x01
  | .adct11msSingle => 0x02
  | .adct38msCont => 0x19
  | .adct38msSingle => 0x1A
  | .adct109msSingle => 0x3A

/-- Fast conversion time, selected over SPI. -/
def FAST_CONVERSION_TIME : adConversionTime := .adct38msSingle
/-- Default (slow) conversion time. -/
def DEFAULT_CONVERSION_TIME : adConversionTime := .adct109msSingle

/-- Single / differential capacitance selection. -/
inductive adCapSelect where
  | adcsC2D1
  | adcsC1D0
  | adcsC2D0
  deriving DecidableEq, Repr

/-- Register value of a capacitance selection. -/
def adCapSelect.toNat : adCapSelect → Nat
  | .adcsC2D1 => 0xE0
  | .adcsC1D0 => 0x80
  | .adcsC2D0 => 0xC0

/-- Capacitance selection used when only the differential value is wanted. -/
def DEFAULT_CAPACITOR_SELECT : adCapSelect := .adcsC2D1

/-- Relay positions of the PCA9536. -/
inductive swRelayPositions where
  | swOldACS
  | swNewACS
  deriving DecidableEq, Repr

/-- States of the channel state machine. -/
inductive taskState where
  | tsPOR
  | tsInit
  | tsInitFailed
  | tsInitFailedWait
  | tsStart
  | tsRunning
  | tsRunFailed
  | tsRunFailedWait
  deriving DecidableEq, Repr

/-! ## Messages -/

/-- One element of `spiMessageOut.msg.sensor`: the 19 bytes of a channel. -/
structure sensorMsg where
  humidityHigh : Nat
  humidityLow : Nat
  diffCapHigh : Nat
  diffCapMid : Nat
  diffCapLow : Nat
  c1High : Nat
  c1Mid : Nat
  c1Low : Nat
  c2High : Nat
  c2Mid : Nat
  c2Low : Nat
  filtCapHigh : Nat
  filtCapMid : Nat
  filtCapLow : Nat
  tempHigh : Nat
  tempLow : Nat
  chiptempHigh : Nat
  chiptempMid : Nat
  chiptempLow : Nat
  deriving DecidableEq, Repr

/-- The 19 bytes of a channel in the order of the packed struct. -/
def sensorMsg.bytes (b : sensorMsg) : List Nat :=
  [b.humidityHigh, b.humidityLow,
   b.diffCapHigh, b.diffCapMid, b.diffCapLow,
   b.c1High, b.c1Mid, b.c1Low,
   b.c2High, b.c2Mid, b.c2Low,
   b.filtCapHigh, b.filtCapMid, b.filtCapLow,
   b.tempHigh, b.tempLow,
   b.chiptempHigh, b.chiptempMid, b.chiptempLow]

/-- The outbound message `spiMessageOut.msg`. -/
structure spiMessageOut_t where
  signature0 : Nat
  signature1 : Nat
  version0 : Nat
  version1 : Nat
  version2 : Nat
  sensor : Fin MAX_SENSORS → sensorMsg

/-- The five header bytes of the outbound message. -/
def spiMessageOut_t.header (m : spiMessageOut_t) : List Nat :=
  [m.signature0, m.signature1, m.version0, m.version1, m.version2]

/-- The view `spiMessageOut.buf` of the packed union: header, then the six
channels. -/
def spiMessageOut_t.buf (m : spiMessageOut_t) : List Nat :=
  m.header ++ (m.sensor 0).bytes ++ (m.sensor 1).bytes ++ (m.sensor 2).bytes
    ++ (m.sensor 3).bytes ++ (m.sensor 4).bytes ++ (m.sensor 5).bytes

/-- The inbound message: four command bytes, then the rest of the buffer. -/
structure spiMessageIn_t where
  cmd0 : Nat
  cmd1 : Nat
  cmd2 : Nat
  cmd3 : Nat
  rest : List Nat
  deriving DecidableEq, Repr

/-- Capacitance filter state of one channel. -/
structure capFilter_t where
  c : ℚ
  cprev : ℚ
  deriving DecidableEq

/-! ## Bus, trace and global state -/

/-- The fields of an I2C transaction that reach the bus: the slave address,
the first `writeCount` bytes of the write buffer, and the read count. -/
structure I2C_Transaction where
  slaveAddress : Nat
  writeBuf : List Nat
  readCount : Nat
  deriving DecidableEq, Repr

/-- Observable actions of a task. -/
inductive Event where
  | i2c (t : I2C_Transaction) (ok : Bool)
  | semPend
  | semPost
  | frameWrite
  | spiTransfer
  deriving DecidableEq, Repr

/-- Reply of the bus to one transfer: success, and the bytes read. -/
structure I2CReply where
  ok : Bool
  data : List Nat
  deriving DecidableEq, Repr

/-- The hardware under the program: the reply to the n-th I2C transfer and
whether `I2C_open` returns a handle. -/
structure Hal where
  i2cReply : Nat → I2CReply
  i2cOpenOk : Bool

/-- The global variables of the program, and the trace. -/
structure Sys where
  adAllSensorConversionTime : adConversionTime
  adGetAllCaps : Fin MAX_SENSORS → Bool
  spiMessageOut : spiMessageOut_t
  spiMessageIn : spiMessageIn_t
  filter : Fin MAX_SENSORS → capFilter_t
  switchcmd0 : Bool
  switchcmd1 : Bool
  switchcmd2 : Bool
  switchcmd3 : Bool
  switchcmd4 : Bool
  switchcmd5 : Bool
  switchNew0 : swRelayPositions
  switchNew1 : swRelayPositions
  switchNew2 : swRelayPositions
  switchNew3 : swRelayPositions
  switchNew4 : swRelayPositions
  switchNew5 : swRelayPositions
  intflag0 : Bool
  intflag1 : Bool
  intflag2 : Bool
  intflag3 : Bool
  intflag4 : Bool
  intflag5 : Bool
  xfers : Nat
  log : List Event

/-- The all-zero channel block. -/
def sensorMsg.zero : sensorMsg :=
  ⟨0, 0, 0, 0, 0, 0, 0, 0, 0, 0, 0, 0, 0, 0, 0, 0, 0, 0, 0⟩

/-- The globals as `main` leaves them before the scheduler starts: static
initialisers, and both SPI buffers and `adGetAllCaps` zeroed. -/
def Sys.boot : Sys where
  adAllSensorConversionTime := DEFAULT_CONVERSION_TIME
  adGetAllCaps := fun _ => false
  spiMessageOut := ⟨0, 0, 0, 0, 0, fun _ => sensorMsg.zero⟩
  spiMessageIn := ⟨0, 0, 0, 0, List.replicate 115 0⟩
  filter := fun _ => ⟨0, 0⟩
  switchcmd0 := false
  switchcmd1 := false
  switchcmd2 := false
  switchcmd3 := false
  switchcmd4 := false
  switchcmd5 := false
  switchNew0 := .swNewACS
  switchNew1 := .swNewACS
  switchNew2 := .swNewACS
  switchNew3 := .swNewACS
  switchNew4 := .swNewACS
  switchNew5 := .swNewACS
  intflag0 := false
  intflag1 := false
  intflag2 := false
  intflag3 := false
  intflag4 := false
  intflag5 := false
  xfers := 0
  log := []

/-- The effect of an SPI transfer on the inbound buffer: the master's four
command bytes are now in `spiMessageIn`. -/
def Sys.receive (s : Sys) (c0 c1 c2 c3 : Nat) : Sys :=
  { s with spiMessageIn := { s.spiMessageIn with cmd0 := c0, cmd1 := c1, cmd2 := c2, cmd3 := c3 } }

/-! ## Command decoding -/

/-- The store `adGetAllCaps[i] = v`.  The array has `MAX_SENSORS` elements; a
store at an index outside it has no defined result (`none`). -/
def storeAdGetAllCaps (s : Sys) (i : Nat) (v : Bool) : Option Sys :=
  if h : i < MAX_SENSORS then
    some { s with adGetAllCaps := Function.update s.adGetAllCaps ⟨i, h⟩ v }
  else
    none

/-- The command decoder `slaveTaskCommand`, on the command in `spiMessageIn`. -/
def slaveTaskCommand (s : Sys) : Option Sys :=
  let m := s.spiMessageIn
  let switchAllToOld := m.cmd0 == 1 && m.cmd1 == 1 && m.cmd2 == 0
  let switchToNew := m.cmd0 == 1 && m.cmd1 == 1 && m.cmd2 == 1
  let useFastConvTime := m.cmd0 == 1 && m.cmd1 == 0 && m.cmd2 == 1 && m.cmd3 == 1
  let useSlowConvTime := m.cmd0 == 1 && m.cmd1 == 0 && m.cmd2 == 1 && m.cmd3 == 0
  let getDiffOnly := m.cmd0 == 1 && m.cmd1 == 2
  let getAllCaps := m.cmd0 == 1 && m.cmd1 == 3
  let diffDevice := if m.cmd2 > MAX_SENSORS then 0 else m.cmd2
  if switchToNew then
    let switchAllToNew := m.cmd3 == 0
    some { s with
      switchcmd0 := true
      switchcmd1 := true
      switchcmd2 := true
      switchcmd3 := true
      switchcmd4 := true
      switchcmd5 := true
      switchNew0 := if switchAllToNew || (m.cmd3 &&& 0b00000001 != 0) then .swNewACS else .swOldACS
      switchNew1 := if switchAllToNew || (m.cmd3 &&& 0b00000010 != 0) then .swNewACS else .swOldACS
      switchNew2 := if switchAllToNew || (m.cmd3 &&& 0b00000100 != 0) then .swNewACS else .swOldACS
      switchNew3 := if switchAllToNew || (m.cmd3 &&& 0b00001000 != 0) then .swNewACS else .swOldACS
      switchNew4 := if switchAllToNew || (m.cmd3 &&& 0b00010000 != 0) then .swNewACS else .swOldACS
      switchNew5 := if switchAllToNew || (m.cmd3 &&& 0b00100000 != 0) then .swNewACS else .swOldACS }
  else if switchAllToOld then
    some { s with
      switchcmd0 := true
      switchcmd1 := true
      switchcmd2 := true
      switchcmd3 := true
      switchcmd4 := true
      switchcmd5 := true
      switchNew0 := .swOldACS
      switchNew1 := .swOldACS
      switchNew2 := .swOldACS
      switchNew3 := .swOldACS
      switchNew4 := .swOldACS
      switchNew5 := .swOldACS }
  else if useFastConvTime then
    some { s with adAllSensorConversionTime := FAST_CONVERSION_TIME }
  else if useSlowConvTime then
    some { s with adAllSensorConversionTime := DEFAULT_CONVERSION_TIME }
  else if getDiffOnly then
    storeAdGetAllCaps s diffDevice false
  else if getAllCaps then
    storeAdGetAllCaps s diffDevice true
  else
    some s

/-! ## Primitives: bus transfer, semaphore, frame stores -/

/-- What a call of `I2C_transfer` gives back: success, the read buffer, and
the globals after the call. -/
structure Xfer where
  ok : Bool
  rxBuffer : Nat → Nat
  sys : Sys

/-- One blocking bus transfer: the reply comes from the hardware, the transfer
is counted and recorded in the trace. -/
def I2C_transfer (hal : Hal) (s : Sys) (t : I2C_Transaction) : Xfer :=
  let r := hal.i2cReply s.xfers
  { ok := r.ok
    rxBuffer := fun k => r.data.getD k 0
    sys := { s with xfers := s.xfers + 1, log := s.log ++ [Event.i2c t r.ok] } }

/-- Acquire of the semaphore that guards `spiMessageOut`. -/
def Semaphore_pend (s : Sys) : Sys :=
  { s with log := s.log ++ [Event.semPend] }

/-- Release of the semaphore that guards `spiMessageOut`. -/
def Semaphore_post (s : Sys) : Sys :=
  { s with log := s.log ++ [Event.semPost] }

/-- A group of stores to fields of `spiMessageOut.msg.sensor[d]`. -/
def Sys.storeSensor (s : Sys) (d : Fin MAX_SENSORS) (f : sensorMsg → sensorMsg) : Sys :=
  { s with
    spiMessageOut := { s.spiMessageOut with
      sensor := Function.update s.spiMessageOut.sensor d (f (s.spiMessageOut.sensor d)) }
    log := s.log ++ [Event.frameWrite] }

/-- The five stores of signature and firmware revision to the header of
`spiMessageOut`. -/
def Sys.storeHeader (s : Sys) : Sys :=
  { s with
    spiMessageOut := { s.spiMessageOut with
      signature0 := SIGNATURE0
      signature1 := SIGNATURE1
      version0 := FIRMWARE_REV_0
      version1 := FIRMWARE_REV_1
      version2 := FIRMWARE_REV_2 }
    log := s.log ++ [Event.frameWrite] }

/-- The variable `*p.intflag` of channel `d`. -/
def Sys.intflag (s : Sys) (d : Fin MAX_SENSORS) : Bool :=
  match d.val with
  | 0 => s.intflag0
  | 1 => s.intflag1
  | 2 => s.intflag2
  | 3 => s.intflag3
  | 4 => s.intflag4
  | _ => s.intflag5

/-- The store `*p.intflag = v` of channel `d`. -/
def Sys.setIntflag (s : Sys) (d : Fin MAX_SENSORS) (v : Bool) : Sys :=
  match d.val with
  | 0 => { s with intflag0 := v }
  | 1 => { s with intflag1 := v }
  | 2 => { s with intflag2 := v }
  | 3 => { s with intflag3 := v }
  | 4 => { s with intflag4 := v }
  | _ => { s with intflag5 := v }

/-- The variable `*p.switchcmd` of channel `d`. -/
def Sys.switchcmd (s : Sys) (d : Fin MAX_SENSORS) : Bool :=
  match d.val with
  | 0 => s.switchcmd0
  | 1 => s.switchcmd1
  | 2 => s.switchcmd2
  | 3 => s.switchcmd3
  | 4 => s.switchcmd4
  | _ => s.switchcmd5

/-- The store `*p.switchcmd = v` of channel `d`. -/
def Sys.setSwitchcmd (s : Sys) (d : Fin MAX_SENSORS) (v : Bool) : Sys :=
  match d.val with
  | 0 => { s with switchcmd0 := v }
  | 1 => { s with switchcmd1 := v }
  | 2 => { s with switchcmd2 := v }
  | 3 => { s with switchcmd3 := v }
  | 4 => { s with switchcmd4 := v }
  | _ => { s with switchcmd5 := v }

/-- The variable `*p.switchnew` of channel `d`. -/
def Sys.switchNew (s : Sys) (d : Fin MAX_SENSORS) : swRelayPositions :=
  match d.val with
  | 0 => s.switchNew0
  | 1 => s.switchNew1
  | 2 => s.switchNew2
  | 3 => s.switchNew3
  | 4 => s.switchNew4
  | _ => s.switchNew5

/-- The interrupt callback `sensNcvtDoneItr` of channel `d`. -/
def sensCvtDoneItr (s : Sys) (d : Fin MAX_SENSORS) : Sys :=
  s.setIntflag d true

/-! ## Device drivers -/

/-- Return value (0 or -1) of a driver function, and the globals after it. -/
structure Ret where
  val : Int
  sys : Sys

/-- Driver `setupAD7746`: five transfers, the first failure returns -1. -/
def setupAD7746 (hal : Hal) (s : Sys) : Ret :=
  let x1 := I2C_transfer hal s ⟨AD7746_ADDR, [AD7746_CAP_SETUP_REG, adCapSelect.adcsC2D1.toNat], 0⟩
  if !x1.ok then ⟨-1, x1.sys⟩ else
  let x2 := I2C_transfer hal x1.sys ⟨AD7746_ADDR, [AD7746_VT_SETUP_REG, AD7746_VT_SETUP_INT_TEMP], 0⟩
  if !x2.ok then ⟨-1, x2.sys⟩ else
  let x3 := I2C_transfer hal x2.sys ⟨AD7746_ADDR, [AD7746_EXC_SETUP_REG, AD7746_EXC_SET_A], 0⟩
  if !x3.ok then ⟨-1, x3.sys⟩ else
  let x4 := I2C_transfer hal x3.sys
    ⟨AD7746_ADDR, [AD7746_CFG_REG, x3.sys.adAllSensorConversionTime.toNat], 0⟩
  if !x4.ok then ⟨-1, x4.sys⟩ else
  let x5 := I2C_transfer hal x4.sys ⟨AD7746_ADDR, [AD7746_CAP_OFFSET_H], 4⟩
  if !x5.ok then ⟨-1, x5.sys⟩ else
  ⟨0, x5.sys⟩

/-- Driver `triggerAD7746capacitance`: select the capacitor, then write the
conversion time, which starts the conversion. -/
def triggerAD7746capacitance (hal : Hal) (s : Sys) (convTim : adConversionTime)
    (cap : adCapSelect) : Ret :=
  let x1 := I2C_transfer hal s ⟨AD7746_ADDR, [AD7746_CAP_SETUP_REG, cap.toNat], 0⟩
  if !x1.ok then ⟨-1, x1.sys⟩ else
  let x2 := I2C_transfer hal x1.sys ⟨AD7746_ADDR, [AD7746_CFG_REG, convTim.toNat], 0⟩
  if !x2.ok then ⟨-1, x2.sys⟩ else
  ⟨0, x2.sys⟩

/-- Driver `triggerAD7746temperature`: write the temperature conversion time,
which starts the conversion. -/
def triggerAD7746temperature (hal : Hal) (s : Sys) : Ret :=
  let x1 := I2C_transfer hal s
    ⟨AD7746_ADDR, [AD7746_CFG_REG, DEFAULT_TEMPERATURE_CONVERSION_TIME.toNat], 0⟩
  if !x1.ok then ⟨-1, x1.sys⟩ else
  ⟨0, x1.sys⟩

/-! ## Binary floating point -/

/-- The power of two `2 ^ q` for an integer exponent. -/
def pow2 (q : ℤ) : ℚ :=
  if 0 ≤ q then ((2 ^ q.toNat : ℕ) : ℚ) else 1 / ((2 ^ (-q).toNat : ℕ) : ℚ)

/-- Rounding to the nearest integer, a tie going to the even one. -/
def roundHalfEven (m : ℚ) : ℤ :=
  let f := Rat.floor m
  let r := m - f
  if r < 1 / 2 then f else if 1 / 2 < r then f + 1 else if f % 2 = 0 then f else f + 1

/-- Loop of `ilog2`: halve `n` until it is at most 1, counting the steps. -/
def ilog2Aux : Nat → Nat → Nat → Nat
  | 0, _, acc => acc
  | fuel + 1, n, acc => if n ≤ 1 then acc else ilog2Aux fuel (n / 2) (acc + 1)

/-- The position of the highest set bit of `n` (0 for `n ≤ 1`). -/
def ilog2 (n : Nat) : Nat := ilog2Aux n n 0

/-- The exponent of a positive rational: the `e` with `2 ^ e ≤ a < 2 ^ (e + 1)`. -/
def floorLog2 (a : ℚ) : ℤ :=
  let d : ℤ := (ilog2 a.num.natAbs : ℤ) - (ilog2 a.den : ℤ)
  if pow2 d ≤ a then d else d - 1

/-- The exponent of the unit in the last place of `x` in a binary format with
`prec` bits of precision and least normal exponent `emin`. -/
def quantum (prec : Nat) (emin : ℤ) (x : ℚ) : ℤ :=
  max (floorLog2 |x|) emin - ((prec : ℤ) - 1)

/-- The value of `x` in a binary floating-point format with `prec` bits of
precision and least normal exponent `emin`: round to nearest, ties to even,
with gradual underflow. Overflow to infinity is left out: the format is taken
without a largest exponent. -/
def roundBinary (prec : Nat) (emin : ℤ) (x : ℚ) : ℚ :=
  (roundHalfEven (x / pow2 (quantum prec emin x)) : ℚ) * pow2 (quantum prec emin x)

/-- The value of a `double` (IEEE binary64) expression with exact value `x`. -/
def toDouble (x : ℚ) : ℚ := roundBinary 53 (-1022) x

/-- The value of `x` stored in a `float` (IEEE binary32). -/
def toFloat (x : ℚ) : ℚ := roundBinary 24 (-126) x

/-- The conversion `(uint32_t) c` of a float, for c in the range of the type:
truncation; reduced modulo `2 ^ 32` outside of it. -/
def toUint32 (c : ℚ) : Nat :=
  (Rat.floor c).toNat % 2 ^ 32

/-- Driver `readAD7746`: read six bytes; store the capacitance in the fields
of the mode `cap` (the differential value also goes through the filter), and
the chip temperature. -/
def readAD7746 (hal : Hal) (s : Sys) (cap : adCapSelect) (device : Fin MAX_SENSORS) : Ret :=
  let x := I2C_transfer hal s ⟨AD7746_ADDR, [AD7746_READ], 6⟩
  if !x.ok then ⟨-1, x.sys⟩ else
  let rx := x.rxBuffer
  let s1 := Semaphore_pend x.sys
  let s2 : Sys :=
    match cap with
    | .adcsC2D1 =>
      let sa := s1.storeSensor device fun b =>
        { b with diffCapHigh := rx 0, diffCapMid := rx 1, diffCapLow := rx 2 }
      let cr : ℚ := toFloat (((rx 0 <<< 16) + (rx 1 <<< 8) + rx 2 : Nat) : ℚ)
      let c : ℚ := toFloat (toDouble (-toDouble (4096 / 1000)
        + toDouble (toDouble (cr * toDouble (8192 / 1000)) / ((1 <<< 24 : Nat) : ℚ))))
      let fc : ℚ := toFloat (toDouble (toDouble (toDouble FILTER_COEFF * (sa.filter device).cprev)
        + toDouble (toDouble (1 - toDouble FILTER_COEFF) * c)))
      let sb : Sys := { sa with filter := Function.update sa.filter device ⟨fc, fc⟩ }
      let c2 : ℚ := toFloat (toDouble (toDouble (toDouble (fc + toDouble (4096 / 1000))
        * ((1 <<< 24 : Nat) : ℚ)) / toDouble (8192 / 1000)))
      let ci : Nat := toUint32 c2
      sb.storeSensor device fun b =>
        { b with
          filtCapHigh := (ci >>> 16) &&& 0xFF
          filtCapMid := (ci >>> 8) &&& 0xFF
          filtCapLow := ci &&& 0xFF }
    | .adcsC1D0 =>
      s1.storeSensor device fun b =>
        { b with c1High := rx 0, c1Mid := rx 1, c1Low := rx 2 }
    | .adcsC2D0 =>
      s1.storeSensor device fun b =>
        { b with c2High := rx 0, c2Mid := rx 1, c2Low := rx 2 }
  let s3 := s2.storeSensor device fun b =>
    { b with chiptempHigh := rx 3, chiptempMid := rx 4, chiptempLow := rx 5 }
  ⟨0, Semaphore_post s3⟩

/-- Driver `setupHDC1080`: write the mode register, then trigger. The flag
`reportfail` only selects whether a failure is printed. -/
def setupHDC1080 (hal : Hal) (s : Sys) (_reportfail : Bool) : Ret :=
  let x1 := I2C_transfer hal s
    ⟨HDC1080_ADDR, [HDC1080_CFG_REG, (HDC1080_CFG_MODE_T_AND_H >>> 8) &&& 0xFF,
      HDC1080_CFG_MODE_T_AND_H &&& 0xFF], 0⟩
  if !x1.ok then ⟨-1, x1.sys⟩ else
  let x2 := I2C_transfer hal x1.sys ⟨HDC1080_ADDR, [HDC1080_TRIGGER_BOTH], 0⟩
  if !x2.ok then ⟨-1, x2.sys⟩ else
  ⟨0, x2.sys⟩

/-- Driver `readHDC1080`: read four bytes (write count 0), store them, then
trigger the next conversion. -/
def readHDC1080 (hal : Hal) (s : Sys) (device : Fin MAX_SENSORS) : Ret :=
  let x1 := I2C_transfer hal s ⟨HDC1080_ADDR, [], 4⟩
  if !x1.ok then ⟨-1, x1.sys⟩ else
  let rx := x1.rxBuffer
  let s1 := Semaphore_pend x1.sys
  let s2 := s1.storeSensor device fun b =>
    { b with tempHigh := rx 0, tempLow := rx 1, humidityHigh := rx 2, humidityLow := rx 3 }
  let s3 := Semaphore_post s2
  let x2 := I2C_transfer hal s3 ⟨HDC1080_ADDR, [HDC1080_TRIGGER_BOTH], 0⟩
  if !x2.ok then ⟨-1, x2.sys⟩ else
  ⟨0, x2.sys⟩

/-- Driver `setupPCA9536`: reset, all outputs, pulse to new ACS, reset. -/
def setupPCA9536 (hal : Hal) (s : Sys) : Ret :=
  let x1 := I2C_transfer hal s ⟨PCA9536_ADDR, [PCA9536_OUT_PORT_REG, PCA9536_OUT_PORT_RESET], 0⟩
  if !x1.ok then ⟨-1, x1.sys⟩ else
  let x2 := I2C_transfer hal x1.sys ⟨PCA9536_ADDR, [PCA9536_CONFIG_REG, PCA9536_CONFIG_ALL_OUTPUT], 0⟩
  if !x2.ok then ⟨-1, x2.sys⟩ else
  let x3 := I2C_transfer hal x2.sys ⟨PCA9536_ADDR, [PCA9536_OUT_PORT_REG, PCA9536_OUT_PORT_NEW_ACS], 0⟩
  if !x3.ok then ⟨-1, x3.sys⟩ else
  let x4 := I2C_transfer hal x3.sys ⟨PCA9536_ADDR, [PCA9536_OUT_PORT_REG, PCA9536_OUT_PORT_RESET], 0⟩
  if !x4.ok then ⟨-1, x4.sys⟩ else
  ⟨0, x4.sys⟩

/-- Driver `switchPCA9536`: pulse to the pattern of `pos`, then reset. -/
def switchPCA9536 (hal : Hal) (s : Sys) (pos : swRelayPositions) : Ret :=
  let pattern := if pos == .swNewACS then PCA9536_OUT_PORT_NEW_ACS else PCA9536_OUT_PORT_OLD_ACS
  let x1 := I2C_transfer hal s ⟨PCA9536_ADDR, [PCA9536_OUT_PORT_REG, pattern], 0⟩
  if !x1.ok then ⟨-1, x1.sys⟩ else
  let x2 := I2C_transfer hal x1.sys ⟨PCA9536_ADDR, [PCA9536_OUT_PORT_REG, PCA9536_OUT_PORT_RESET], 0⟩
  if !x2.ok then ⟨-1, x2.sys⟩ else
  ⟨0, x2.sys⟩

/-! ## Channel state machine -/

/-- The modelled fields of `taskParams`, the local state of a channel task.
The bus handle is represented by `Hal.i2cOpenOk`. -/
structure taskParams where
  device : Fin MAX_SENSORS
  cap : adCapSelect
  cap_prev : adCapSelect
  state : taskState
  wait : Nat
  inttime : Nat
  capreads : Nat
  hdc1080initialized : Bool
  temptime : Nat
  deriving DecidableEq, Repr

/-- The task entry `taskI2C0` .. `taskI2C5` of channel `d`: it sets `device`,
`inttime` and `state`; the other fields of the local `p` keep whatever the
stack held (`u`). -/
def taskI2C (d : Fin MAX_SENSORS) (u : taskParams) : taskParams :=
  { u with device := d, inttime := 0, state := .tsPOR }

/-- Case tsInit of `taskI2Ccommon`. -/
def caseInit (hal : Hal) (p : taskParams) (s : Sys) : taskParams × Sys :=
  let r1 := setupPCA9536 hal s
  if r1.val == -1 then ({ p with state := .tsInitFailed }, r1.sys) else
  let r2 := setupAD7746 hal r1.sys
  if r2.val == -1 then ({ p with state := .tsInitFailed }, r2.sys) else
  let r3 := setupHDC1080 hal r2.sys true
  let p1 := { p with hdc1080initialized := !(r3.val == -1) }
  ({ p1 with state := .tsStart }, r3.sys)

/-- Cases tsInitFailedWait and tsRunFailedWait of `taskI2Ccommon`: run the
timer down, and go back to tsInit at zero. -/
def caseWait (p : taskParams) : taskParams :=
  let p1 := if p.wait < MIN_TASK_SLEEP_MS then { p with wait := 0 }
            else { p with wait := p.wait - MIN_TASK_SLEEP_MS }
  if p1.wait == 0 then { p1 with state := .tsInit } else p1

/-- Case tsStart of `taskI2Ccommon`. The result of the trigger is discarded. -/
def caseStart (hal : Hal) (p : taskParams) (s : Sys) : taskParams × Sys :=
  let p1 := { p with cap := DEFAULT_CAPACITOR_SELECT }
  let p2 := { p1 with cap_prev := p1.cap }
  let r := triggerAD7746capacitance hal s s.adAllSensorConversionTime p2.cap
  let p3 := { p2 with temptime := 0, inttime := 0, state := .tsRunning }
  (p3, r.sys.setIntflag p.device true)

/-- Case tsRunning, the relay command: clear the flag and switch the relay;
the result of the switch is discarded. -/
def runningRelay (hal : Hal) (p : taskParams) (s : Sys) : Sys :=
  if s.switchcmd p.device == true then
    let s1 := s.setSwitchcmd p.device false
    (switchPCA9536 hal s1 (s1.switchNew p.device)).sys
  else s

/-- Case tsRunning, the advance of the capacitance selector: `p.cap_prev`
takes `p.cap`, and `p.cap` is forced to differential or moves round the three
values. -/
def runningNextCap (p : taskParams) (s : Sys) : taskParams :=
  let p1 := { p with cap_prev := p.cap }
  if !s.adGetAllCaps p1.device then
    { p1 with cap := DEFAULT_CAPACITOR_SELECT }
  else
    match p1.cap with
    | .adcsC2D1 => { p1 with cap := .adcsC1D0 }
    | .adcsC1D0 => { p1 with cap := .adcsC2D0 }
    | .adcsC2D0 => { p1 with cap := .adcsC2D1 }

/-- Case tsRunning, the periodic humidity / temperature read. -/
def runningHumidity (hal : Hal) (p : taskParams) (s : Sys) : taskParams × Sys :=
  if p.temptime > MIN_TEMP_READ_PERIOD_MS then
    let p1 := { p with temptime := 0 }
    if !p1.hdc1080initialized then
      let r := setupHDC1080 hal s false
      if r.val == 0 then ({ p1 with hdc1080initialized := true }, r.sys) else (p1, r.sys)
    else
      let r := readHDC1080 hal s p1.device
      if r.val == -1 then
        let p2 := { p1 with hdc1080initialized := false }
        let s1 := Semaphore_pend r.sys
        let s2 := s1.storeSensor p2.device fun b =>
          { b with tempHigh := 0, tempLow := 0, humidityHigh := 0, humidityLow := 0 }
        (p2, Semaphore_post s2)
      else (p1, r.sys)
  else (p, s)

/-- Case tsRunning, the trigger of the next conversion: `p.capreads++` is
compared, before the increment, with the interval. -/
def runningTrigger (hal : Hal) (p : taskParams) (s : Sys) : taskParams × Sys :=
  let old := p.capreads
  let p1 := { p with capreads := (p.capreads + 1) % 2 ^ 32 }
  if old == AD7746_CAP_VS_TEMP_TRIGGER_INTERVAL then
    let r := triggerAD7746temperature hal s
    if r.val == -1 then ({ p1 with state := .tsRunFailed, capreads := 0 }, r.sys)
    else (p1, r.sys)
  else
    let r := triggerAD7746capacitance hal s s.adAllSensorConversionTime p1.cap
    if r.val == -1 then ({ p1 with state := .tsRunFailed }, r.sys)
    else (p1, r.sys)

/-- Case tsRunning, the handling of a completed conversion (the body of the
test of `*p.intflag`). -/
def runningCompletion (hal : Hal) (p : taskParams) (s : Sys) : taskParams × Sys :=
  let p1 := { p with inttime := 0 }
  let p2 := runningNextCap p1 s
  let s1 := s.setIntflag p2.device false
  let r := readAD7746 hal s1 p2.cap_prev p2.device
  let p3 := if r.val == -1 then { p2 with state := .tsRunFailed } else p2
  let h := runningHumidity hal p3 r.sys
  let t := runningTrigger hal h.1 h.2
  ({ t.1 with inttime := (t.1.inttime + 3) % 2 ^ 32, temptime := (t.1.temptime + 3) % 2 ^ 32 }, t.2)

/-- Case tsRunning of `taskI2Ccommon`. -/
def caseRunning (hal : Hal) (p : taskParams) (s : Sys) : taskParams × Sys :=
  let s1 := runningRelay hal p s
  if p.inttime > MAX_SENSOR_TIMEOUT_MS then
    ({ p with inttime := 0, state := .tsRunFailed }, s1)
  else if s1.intflag p.device == true then
    runningCompletion hal p s1
  else (p, s1)

/-- Case tsRunFailed of `taskI2Ccommon`: under the semaphore, store the header
and the zeroes, then arm the wait. -/
def caseRunFailed (p : taskParams) (s : Sys) : taskParams × Sys :=
  let s1 := Semaphore_pend s
  let s2 := s1.storeHeader
  let s3 := s2.storeSensor p.device fun b =>
    { b with
      diffCapHigh := 0
      diffCapMid := 0
      diffCapLow := 0
      c1High := 0
      c1Mid := 0
      c1Low := 0
      c2High := 0
      c2Mid := 0
      c2Low := 0
      tempHigh := 0
      tempLow := 0
      humidityHigh := 0
      humidityLow := 0
      chiptempHigh := 0
      chiptempMid := 0
      chiptempLow := 0 }
  let s4 := Semaphore_post s3
  ({ p with wait := MAX_FAILED_INIT_WAIT_MS, state := .tsRunFailedWait }, s4)

/-- The switch on `p.state` in the loop of `taskI2Ccommon`; `none` is
`System_abort`. Case tsPOR falls through into case tsInit. -/
def taskSwitch (hal : Hal) (p : taskParams) (s : Sys) : Option (taskParams × Sys) :=
  match p.state with
  | .tsPOR =>
    if !hal.i2cOpenOk then none
    else some (caseInit hal { p with state := .tsInit } s.storeHeader)
  | .tsInit => some (caseInit hal p s)
  | .tsInitFailed =>
    some ({ p with wait := MAX_FAILED_INIT_WAIT_MS, state := .tsInitFailedWait }, s)
  | .tsInitFailedWait => some (caseWait p, s)
  | .tsStart => some (caseStart hal p s)
  | .tsRunning => some (caseRunning hal p s)
  | .tsRunFailed => some (caseRunFailed p s)
  | .tsRunFailedWait => some (caseWait p, s)

/-- One pass of the infinite loop of `taskI2Ccommon`: the switch, then the
sleep of one tick, which is added to both timers. -/
def taskI2Cpass (hal : Hal) (p : taskParams) (s : Sys) : Option (taskParams × Sys) :=
  (taskSwitch hal p s).map fun r =>
    ({ r.1 with
        inttime := (r.1.inttime + MIN_TASK_SLEEP_MS) % 2 ^ 32
        temptime := (r.1.temptime + MIN_TASK_SLEEP_MS) % 2 ^ 32 }, r.2)

/-- A pass of `taskI2Ccommon` that finds a conversion completed: the
interrupt callback of the channel has run since the previous pass. -/
def completionPass (hal : Hal) (ps : taskParams × Sys) : Option (taskParams × Sys) :=
  taskI2Cpass hal ps.1 (sensCvtDoneItr ps.2 ps.1.device)

/-- The first `n` passes of `taskI2Ccommon`, each one finding a conversion
completed. -/
def completionPasses (hal : Hal) : Nat → taskParams × Sys → Option (taskParams × Sys)
  | 0, ps => some ps
  | n + 1, ps => (completionPass hal ps).bind (completionPasses hal n)

/-- The first `n` passes of the infinite loop of `taskI2Ccommon`, with no
interrupt arriving in between. -/
def taskI2Ccommon (hal : Hal) : Nat → taskParams × Sys → Option (taskParams × Sys)
  | 0, ps => some ps
  | n + 1, ps => (taskI2Cpass hal ps.1 ps.2).bind (taskI2Ccommon hal n)

/-! ## Observations on a trace -/

/-- The conversions started on the AD7746 in a trace, oldest first: every
write of the configuration register starts one; it is a temperature conversion
(`true`) when the value written is the temperature conversion time, and a
capacitance conversion (`false`) otherwise. -/
def conversionsStarted : List Event → List Bool
  | [] => []
  | Event.i2c t _ :: es =>
    if t.slaveAddress = AD7746_ADDR ∧ t.writeBuf.head? = some AD7746_CFG_REG then
      decide (t.writeBuf = [AD7746_CFG_REG, DEFAULT_TEMPERATURE_CONVERSION_TIME.toNat])
        :: conversionsStarted es
    else conversionsStarted es
  | _ :: es => conversionsStarted es

/-- The values written to the capacitance setup register of the AD7746 in a
trace, oldest first: the capacitance modes that were selected for conversion. -/
def capSelectsWritten : List Event → List Nat
  | [] => []
  | Event.i2c t _ :: es =>
    if t.slaveAddress = AD7746_ADDR ∧ t.writeBuf.head? = some AD7746_CAP_SETUP_REG then
      t.writeBuf.tail ++ capSelectsWritten es
    else capSelectsWritten es
  | _ :: es => capSelectsWritten es

/-- A bus on which every transfer succeeds and every read returns `data`. -/
def Hal.allOk (data : List Nat) : Hal :=
  { i2cReply := fun _ => ⟨true, data⟩, i2cOpenOk := true }

/-- A bus on which every transfer succeeds and returns `data`, except the
transfer number `k`, which fails. -/
def Hal.failAt (k : Nat) (data : List Nat) : Hal :=
  { i2cReply := fun n => ⟨n != k, data⟩, i2cOpenOk := true }

/-- The advance of the capacitance selector as the specification words it:
differential only keeps Differential; the full set cycles Differential,
C1-single, C2-single, Differential. -/
def specAdvance (fullSet : Bool) (mode : adCapSelect) : adCapSelect :=
  if fullSet then
    match mode with
    | .adcsC2D1 => .adcsC1D0
    | .adcsC1D0 => .adcsC2D0
    | .adcsC2D0 => .adcsC2D1
  else .adcsC2D1

/-- A content of the stack frame of a channel task before `taskI2C` fills in
its three fields. -/
def stackZero : taskParams :=
  ⟨0, .adcsC2D1, .adcsC2D1, .tsPOR, 0, 0, 0, false, 0⟩

/-! ## Parts of the drivers, named -/

/-- The conversion of a raw 24-bit reading to a capacitance in `readAD7746`:
`cr = (float) raw; c = -4.096 + (cr * 8.192 / (1 << 24))`, evaluated in
`double` and stored in the `float` `c`. -/
def rawToCap (raw : Nat) : ℚ :=
  let cr : ℚ := toFloat (raw : ℚ)
  toFloat (toDouble (-toDouble (4096 / 1000)
    + toDouble (toDouble (cr * toDouble (8192 / 1000)) / ((1 <<< 24 : Nat) : ℚ))))

/-- The filter update in `readAD7746`:
`(FILTER_COEFF * cprev) + ((1.0 - FILTER_COEFF) * c)`, evaluated in `double`
and stored in the `float` `filter[device].c`. -/
def filterUpdate (cprev c : ℚ) : ℚ :=
  toFloat (toDouble (toDouble (toDouble FILTER_COEFF * cprev)
    + toDouble (toDouble (1 - toDouble FILTER_COEFF) * c)))

/-- The reverse conversion in `readAD7746`, from a capacitance back to a raw
value: `c = (filter[device].c + 4.096) * (1 << 24) / 8.192`, evaluated in
`double` and stored in the `float` `c`, then `ci = (uint32_t) c`. -/
def capToRaw (c : ℚ) : Nat :=
  toUint32 (toFloat (toDouble (toDouble (toDouble (c + toDouble (4096 / 1000))
    * ((1 <<< 24 : Nat) : ℚ)) / toDouble (8192 / 1000))))

/-- The decoding of a raw value as the specification words it, in exact
arithmetic: `-4.096 + r * 8.192 / 2^24`. -/
def specDecode (r : ℚ) : ℚ := -4096 / 1000 + r * (8192 / 1000) / 2 ^ 24

/-- The filter update as the specification words it, in exact arithmetic:
`a * previous + (1 - a) * v` with `a = FILTER_COEFF`. -/
def specFilter (prev v : ℚ) : ℚ := FILTER_COEFF * prev + (1 - FILTER_COEFF) * v

/-- The encoding of a capacitance as the specification words it, in exact
arithmetic: `floor((v + 4.096) * 2^24 / 8.192)`. -/
def specEncode (v : ℚ) : ℤ := ⌊(v + 4096 / 1000) * 2 ^ 24 / (8192 / 1000)⌋

/-- The raw value `(rxBuffer[0] << 16) + (rxBuffer[1] << 8) + rxBuffer[2]` that
`readAD7746` builds from the first three bytes of a reply. -/
def rawOfReply (data : List Nat) : Nat :=
  (data.getD 0 0 <<< 16) + (data.getD 1 0 <<< 8) + data.getD 2 0

/-- The bus transactions of a trace, oldest first. -/
def transfersOf : List Event → List I2C_Transaction
  | [] => []
  | Event.i2c t _ :: es => t :: transfersOf es
  | _ :: es => transfersOf es

/-- The view `spiMessageIn.buf` of the inbound union: the four command bytes,
then the rest of the buffer. -/
def spiMessageIn_t.buf (m : spiMessageIn_t) : List Nat :=
  [m.cmd0, m.cmd1, m.cmd2, m.cmd3] ++ m.rest

/-! ## Transport task -/

/-- One call of `SPI_transfer` in the slave task: the master clocks the bytes
of `spiMessageOut.buf` out and the bytes `rx` into `spiMessageIn`. The result
is the frame that was transmitted and the globals after the transfer. -/
def SPI_transfer (rx : spiMessageIn_t) (s : Sys) : List Nat × Sys :=
  (s.spiMessageOut.buf, { s with spiMessageIn := rx, log := s.log ++ [Event.spiTransfer] })

/-- The command handling of `slaveTaskFxn`, the body of the test of `cmd0`:
acquire, `slaveTaskCommand`, `spiMessageIn.cmd0 = 0`, release. -/
def slaveCommandHandling (s : Sys) : Option Sys :=
  (slaveTaskCommand (Semaphore_pend s)).map fun s1 =>
    Semaphore_post { s1 with spiMessageIn := { s1.spiMessageIn with cmd0 := 0 } }

/-- One pass of the infinite loop of `slaveTaskFxn`: the transfer, then the
command handling when the first byte received is not 0. -/
def slaveTaskFxn (rx : spiMessageIn_t) (s : Sys) : Option (List Nat × Sys) :=
  let x := SPI_transfer rx s
  if x.2.spiMessageIn.cmd0 != 0 then
    (slaveCommandHandling x.2).map fun s1 => (x.1, s1)
  else some x

/-! ## Disciplines on traces and schedules -/

/-- Lock balance of the trace of one task. `held` says whether the task holds
the semaphore before the trace; the result says whether it holds it after, and
is `none` when the trace acquires while holding, releases while not holding, or
issues a bus transfer (I2C or SPI) while holding. -/
def lockBalance : Bool → List Event → Option Bool
  | held, [] => some held
  | held, Event.semPend :: es => if held then none else lockBalance true es
  | held, Event.semPost :: es => if held then lockBalance false es else none
  | held, Event.i2c _ _ :: es => if held then none else lockBalance false es
  | held, Event.spiTransfer :: es => if held then none else lockBalance false es
  | held, Event.frameWrite :: es => lockBalance held es

/-- Lock discipline of the trace of one task: every write of the telemetry
frame, and every SPI transfer (which reads the frame for transmission), happens
while the task holds the semaphore. -/
def frameGuarded : Bool → List Event → Bool
  | _, [] => true
  | _, Event.semPend :: es => frameGuarded true es
  | _, Event.semPost :: es => frameGuarded false es
  | held, Event.frameWrite :: es => held && frameGuarded held es
  | held, Event.spiTransfer :: es => held && frameGuarded held es
  | held, Event.i2c _ _ :: es => frameGuarded held es

/-- Number of the transport task in a schedule; the channel tasks are 0..5. -/
def transportTask : Nat := MAX_SENSORS

/-- A schedule of the seven tasks: their actions in the order in which they
happen, each with the number of its task. -/
abbrev Schedule := List (Nat × Event)

/-- The trace of task `t` in a schedule. -/
def Schedule.traceOf (t : Nat) (sch : Schedule) : List Event :=
  (sch.filter fun a => a.1 == t).map fun a => a.2

/-- The semaphore in a schedule: an acquire happens only while no task holds
the semaphore, a release only by the task that holds it. -/
def Schedule.admissible : Option Nat → Schedule → Bool
  | _, [] => true
  | holder, (t, Event.semPend) :: es => holder.isNone && Schedule.admissible (some t) es
  | holder, (t, Event.semPost) :: es => (holder == some t) && Schedule.admissible none es
  | holder, _ :: es => Schedule.admissible holder es

/-- Consistent snapshots in a schedule: no SPI transfer happens while a
channel task holds the semaphore, that is, part-way through an update of the
frame. -/
def Schedule.snapshotsClean : Option Nat → Schedule → Bool
  | _, [] => true
  | _, (t, Event.semPend) :: es => Schedule.snapshotsClean (some t) es
  | _, (_, Event.semPost) :: es => Schedule.snapshotsClean none es
  | holder, (_, Event.spiTransfer) :: es =>
    (holder.isNone || holder == some transportTask) && Schedule.snapshotsClean holder es
  | holder, _ :: es => Schedule.snapshotsClean holder es

/-- The transition graph of the channel state machine as the specification
draws it, one step at a time; power-on reset goes through Init within its
step. -/
def documentedEdge : taskState → taskState → Bool
  | .tsPOR, .tsStart => true
  | .tsPOR, .tsInitFailed => true
  | .tsInit, .tsStart => true
  | .tsInit, .tsInitFailed => true
  | .tsInitFailed, .tsInitFailedWait => true
  | .tsInitFailedWait, .tsInitFailedWait => true
  | .tsInitFailedWait, .tsInit => true
  | .tsStart, .tsRunning => true
  | .tsRunning, .tsRunning => true
  | .tsRunning, .tsRunFailed => true
  | .tsRunFailed, .tsRunFailedWait => true
  | .tsRunFailedWait, .tsRunFailedWait => true
  | .tsRunFailedWait, .tsInit => true
  | _, _ => false

/-- The trace of `s1` continues the trace of `s` by events that are lock
balanced: the continuation starts and ends with the semaphore not held. -/
def LockBalanced (s s1 : Sys) : Prop :=
  ∃ ev, s1.log = s.log ++ ev ∧ lockBalance false ev = some false

/-- Range invariant of the filters: on every channel the current and the
previous value are the same number, a binary32 value in [-4.096, 4.096). -/
def filterInRange (s : Sys) : Prop :=
  ∀ d, (s.filter d).c = (s.filter d).cprev ∧ toFloat (s.filter d).cprev = (s.filter d).cprev ∧
    -4096 / 1000 ≤ (s.filter d).cprev ∧ (s.filter d).cprev < 4096 / 1000

/-! ## Lemmas: what the drivers leave unchanged -/

theorem setIntflag_adGetAllCaps (s : Sys) (d : Fin MAX_SENSORS) (v : Bool) :
    (s.setIntflag d v).adGetAllCaps = s.adGetAllCaps := by
  unfold Sys.setIntflag; split <;> rfl

theorem setSwitchcmd_adGetAllCaps (s : Sys) (d : Fin MAX_SENSORS) (v : Bool) :
    (s.setSwitchcmd d v).adGetAllCaps = s.adGetAllCaps := by
  unfold Sys.setSwitchcmd; split <;> rfl

theorem setSwitchcmd_intflag (s : Sys) (d e : Fin MAX_SENSORS) (v : Bool) :
    (s.setSwitchcmd d v).intflag e = s.intflag e := by
  unfold Sys.setSwitchcmd; split <;> rfl

theorem intflag_setIntflag (s : Sys) (d : Fin MAX_SENSORS) (v : Bool) :
    (s.setIntflag d v).intflag d = v := by
  unfold Sys.setIntflag Sys.intflag; split <;> simp_all

theorem switchPCA9536_adGetAllCaps (hal : Hal) (s : Sys) (pos : swRelayPositions) :
    (switchPCA9536 hal s pos).sys.adGetAllCaps = s.adGetAllCaps := by
  simp only [switchPCA9536]; split_ifs <;> rfl

theorem switchPCA9536_intflag (hal : Hal) (s : Sys) (pos : swRelayPositions)
    (d : Fin MAX_SENSORS) :
    (switchPCA9536 hal s pos).sys.intflag d = s.intflag d := by
  simp only [switchPCA9536]; split_ifs <;> rfl

theorem runningRelay_adGetAllCaps (hal : Hal) (p : taskParams) (s : Sys) :
    (runningRelay hal p s).adGetAllCaps = s.adGetAllCaps := by
  simp only [runningRelay]; split_ifs
  · rw [switchPCA9536_adGetAllCaps, setSwitchcmd_adGetAllCaps]
  · rfl

theorem runningRelay_intflag (hal : Hal) (p : taskParams) (s : Sys) (d : Fin MAX_SENSORS) :
    (runningRelay hal p s).intflag d = s.intflag d := by
  simp only [runningRelay]; split_ifs
  · rw [switchPCA9536_intflag, setSwitchcmd_intflag]
  · rfl

theorem readAD7746_adGetAllCaps (hal : Hal) (s : Sys) (cap : adCapSelect)
    (d : Fin MAX_SENSORS) :
    (readAD7746 hal s cap d).sys.adGetAllCaps = s.adGetAllCaps := by
  simp only [readAD7746]; split_ifs
  · rfl
  · cases cap <;> rfl

theorem setupHDC1080_adGetAllCaps (hal : Hal) (s : Sys) (b : Bool) :
    (setupHDC1080 hal s b).sys.adGetAllCaps = s.adGetAllCaps := by
  simp only [setupHDC1080]; split_ifs <;> rfl

theorem readHDC1080_adGetAllCaps (hal : Hal) (s : Sys) (d : Fin MAX_SENSORS) :
    (readHDC1080 hal s d).sys.adGetAllCaps = s.adGetAllCaps := by
  simp only [readHDC1080]; split_ifs <;> rfl

theorem triggerAD7746temperature_adGetAllCaps (hal : Hal) (s : Sys) :
    (triggerAD7746temperature hal s).sys.adGetAllCaps = s.adGetAllCaps := by
  simp only [triggerAD7746temperature]; split_ifs <;> rfl

theorem triggerAD7746capacitance_adGetAllCaps (hal : Hal) (s : Sys) (c : adConversionTime)
    (cap : adCapSelect) :
    (triggerAD7746capacitance hal s c cap).sys.adGetAllCaps = s.adGetAllCaps := by
  simp only [triggerAD7746capacitance]; split_ifs <;> rfl

theorem runningHumidity_sys (hal : Hal) (p : taskParams) (s : Sys) :
    (runningHumidity hal p s).2.adGetAllCaps = s.adGetAllCaps := by
  simp only [runningHumidity]; split_ifs
  · exact setupHDC1080_adGetAllCaps hal s false
  · exact setupHDC1080_adGetAllCaps hal s false
  · exact readHDC1080_adGetAllCaps hal s _
  · exact readHDC1080_adGetAllCaps hal s _
  · rfl

theorem runningHumidity_params (hal : Hal) (p : taskParams) (s : Sys) :
    (runningHumidity hal p s).1.cap = p.cap ∧
    (runningHumidity hal p s).1.cap_prev = p.cap_prev ∧
    (runningHumidity hal p s).1.device = p.device ∧
    (runningHumidity hal p s).1.state = p.state ∧
    (runningHumidity hal p s).1.inttime = p.inttime ∧
    (runningHumidity hal p s).1.capreads = p.capreads := by
  simp only [runningHumidity]; split_ifs <;> exact ⟨rfl, rfl, rfl, rfl, rfl, rfl⟩

theorem runningTrigger_sys (hal : Hal) (p : taskParams) (s : Sys) :
    (runningTrigger hal p s).2.adGetAllCaps = s.adGetAllCaps := by
  simp only [runningTrigger]; split_ifs
  · exact triggerAD7746temperature_adGetAllCaps hal s
  · exact triggerAD7746temperature_adGetAllCaps hal s
  · exact triggerAD7746capacitance_adGetAllCaps hal s _ _
  · exact triggerAD7746capacitance_adGetAllCaps hal s _ _

theorem runningTrigger_params (hal : Hal) (p : taskParams) (s : Sys) :
    (runningTrigger hal p s).1.cap = p.cap ∧
    (runningTrigger hal p s).1.cap_prev = p.cap_prev ∧
    (runningTrigger hal p s).1.device = p.device ∧
    (runningTrigger hal p s).1.inttime = p.inttime := by
  simp only [runningTrigger]; split_ifs <;> exact ⟨rfl, rfl, rfl, rfl⟩

theorem runningNextCap_params (p : taskParams) (s : Sys) :
    (runningNextCap p s).cap_prev = p.cap ∧
    (runningNextCap p s).device = p.device ∧
    (runningNextCap p s).state = p.state ∧
    (runningNextCap p s).inttime = p.inttime ∧
    (runningNextCap p s).capreads = p.capreads := by
  simp only [runningNextCap]; split_ifs
  · exact ⟨rfl, rfl, rfl, rfl, rfl⟩
  · split <;> exact ⟨rfl, rfl, rfl, rfl, rfl⟩


theorem runningCompletion_params (hal : Hal) (p : taskParams) (s : Sys) :
    (runningCompletion hal p s).1.cap_prev = p.cap ∧
    (runningCompletion hal p s).1.cap = (runningNextCap p s).cap ∧
    (runningCompletion hal p s).1.device = p.device ∧
    (runningCompletion hal p s).1.inttime = 3 ∧
    (runningCompletion hal p s).2.adGetAllCaps = s.adGetAllCaps := by
  simp only [runningCompletion]
  refine ⟨?_, ?_, ?_, ?_, ?_⟩
  · rw [(runningTrigger_params hal _ _).2.1, (runningHumidity_params hal _ _).2.1]
    split_ifs <;> exact (runningNextCap_params _ s).1
  · rw [(runningTrigger_params hal _ _).1, (runningHumidity_params hal _ _).1]
    split_ifs <;> simp only [runningNextCap] <;> split_ifs <;> first | rfl | (split <;> rfl)
  · rw [(runningTrigger_params hal _ _).2.2.1, (runningHumidity_params hal _ _).2.2.1]
    split_ifs <;> exact (runningNextCap_params _ s).2.1
  · rw [(runningTrigger_params hal _ _).2.2.2, (runningHumidity_params hal _ _).2.2.2.2.1]
    have h := (runningNextCap_params { p with inttime := 0 } s).2.2.2.1
    split_ifs <;> simp [h]
  · rw [runningTrigger_sys, runningHumidity_sys, readAD7746_adGetAllCaps,
      setIntflag_adGetAllCaps]

theorem taskI2Cpass_running (hal : Hal) (p : taskParams) (s : Sys)
    (hst : p.state = .tsRunning) (hto : p.inttime ≤ MAX_SENSOR_TIMEOUT_MS)
    (hint : s.intflag p.device = true) :
    taskI2Cpass hal p s = some
      ({ (runningCompletion hal p (runningRelay hal p s)).1 with
          inttime := ((runningCompletion hal p (runningRelay hal p s)).1.inttime
            + MIN_TASK_SLEEP_MS) % 2 ^ 32
          temptime := ((runningCompletion hal p (runningRelay hal p s)).1.temptime
            + MIN_TASK_SLEEP_MS) % 2 ^ 32 },
        (runningCompletion hal p (runningRelay hal p s)).2) := by
  simp [taskI2Cpass, taskSwitch, hst, caseRunning, Nat.not_lt.mpr hto,
    runningRelay_intflag, hint]


theorem runningNextCap_cap (p : taskParams) (s : Sys) :
    (runningNextCap p s).cap = specAdvance (s.adGetAllCaps p.device) p.cap := by
  simp only [runningNextCap, specAdvance]
  cases h : s.adGetAllCaps p.device
  · simp [DEFAULT_CAPACITOR_SELECT]
  · cases hc : p.cap <;> simp

theorem specAdvance_three (m : adCapSelect) :
    specAdvance true (specAdvance true (specAdvance true m)) = m := by
  cases m <;> rfl

theorem readAD7746_ok (hal : Hal) (hok : ∀ n, (hal.i2cReply n).ok = true) (s : Sys)
    (cap : adCapSelect) (d : Fin MAX_SENSORS) : (readAD7746 hal s cap d).val = 0 := by
  simp [readAD7746, I2C_transfer, hok]

theorem triggerAD7746temperature_ok (hal : Hal) (hok : ∀ n, (hal.i2cReply n).ok = true)
    (s : Sys) : (triggerAD7746temperature hal s).val = 0 := by
  simp [triggerAD7746temperature, I2C_transfer, hok]

theorem triggerAD7746capacitance_ok (hal : Hal) (hok : ∀ n, (hal.i2cReply n).ok = true)
    (s : Sys) (c : adConversionTime) (cap : adCapSelect) :
    (triggerAD7746capacitance hal s c cap).val = 0 := by
  simp [triggerAD7746capacitance, I2C_transfer, hok]

theorem runningTrigger_state_ok (hal : Hal) (hok : ∀ n, (hal.i2cReply n).ok = true)
    (p : taskParams) (s : Sys) : (runningTrigger hal p s).1.state = p.state := by
  simp only [runningTrigger]
  split_ifs with h1 h2 h3
  · rw [triggerAD7746temperature_ok hal hok] at h2; exact absurd h2 (by decide)
  · rfl
  · rw [triggerAD7746capacitance_ok hal hok] at h3; exact absurd h3 (by decide)
  · rfl

theorem runningCompletion_state_ok (hal : Hal) (hok : ∀ n, (hal.i2cReply n).ok = true)
    (p : taskParams) (s : Sys) : (runningCompletion hal p s).1.state = p.state := by
  simp only [runningCompletion]
  rw [runningTrigger_state_ok hal hok, (runningHumidity_params hal _ _).2.2.2.1]
  split_ifs with h
  · rw [readAD7746_ok hal hok] at h; exact absurd h (by decide)
  · exact (runningNextCap_params _ s).2.2.1

/-- One completion pass in Running on a bus without failures: the channel
stays in Running with the timer at 4, the selector has advanced, and the table
`adGetAllCaps` is as before. -/
theorem completionPass_ok (hal : Hal) (hok : ∀ n, (hal.i2cReply n).ok = true)
    (p : taskParams) (s : Sys) (hst : p.state = .tsRunning)
    (hto : p.inttime ≤ MAX_SENSOR_TIMEOUT_MS) :
    ∃ p1 s1, completionPass hal (p, s) = some (p1, s1) ∧
      p1.state = .tsRunning ∧ p1.inttime ≤ MAX_SENSOR_TIMEOUT_MS ∧
      p1.device = p.device ∧ s1.adGetAllCaps = s.adGetAllCaps ∧
      p1.cap_prev = p.cap ∧ p1.cap = specAdvance (s.adGetAllCaps p.device) p.cap := by
  have hint : (sensCvtDoneItr s p.device).intflag p.device = true :=
    intflag_setIntflag s p.device true
  have hcaps : (sensCvtDoneItr s p.device).adGetAllCaps = s.adGetAllCaps :=
    setIntflag_adGetAllCaps s p.device true
  have hpass := taskI2Cpass_running hal p (sensCvtDoneItr s p.device) hst hto hint
  have hpar := runningCompletion_params hal p
    (runningRelay hal p (sensCvtDoneItr s p.device))
  have hstate := runningCompletion_state_ok hal hok p
    (runningRelay hal p (sensCvtDoneItr s p.device))
  refine ⟨_, _, hpass, ?_, ?_, ?_, ?_, ?_, ?_⟩
  · exact hstate.trans hst
  · show (_ + MIN_TASK_SLEEP_MS) % 2 ^ 32 ≤ MAX_SENSOR_TIMEOUT_MS
    rw [hpar.2.2.2.1]; decide
  · exact hpar.2.2.1
  · rw [hpar.2.2.2.2, runningRelay_adGetAllCaps, hcaps]
  · exact hpar.1
  · show (runningCompletion hal p (runningRelay hal p (sensCvtDoneItr s p.device))).1.cap = _
    rw [hpar.2.1, runningNextCap_cap, runningRelay_adGetAllCaps, hcaps]

/-! ## Theorems: command decoding -/

/-- A mask test of the decoder, `x & (1 << i)` being nonzero, is the test of
bit `i` of `x`. -/
theorem land_two_pow_ne_zero (x i : Nat) : (x &&& 2 ^ i != 0) = x.testBit i := by
  cases h : x.testBit i
  · have hz : x &&& 2 ^ i = 0 := by
      apply Nat.eq_of_testBit_eq
      intro j
      rw [Nat.testBit_and, Nat.testBit_two_pow, Nat.zero_testBit]
      by_cases hij : i = j
      · subst hij; simp [h]
      · simp [hij]
    simp [hz]
  · have hb : (x &&& 2 ^ i).testBit i = true := by
      rw [Nat.testBit_and, Nat.testBit_two_pow_self, h]; rfl
    have hne : x &&& 2 ^ i ≠ 0 := by
      intro h0; rw [h0, Nat.zero_testBit] at hb; exact absurd hb (by decide)
    simp [hne]

/-- C2 (the code at the failing input): for every state and every fourth byte,
the commands (1,3,6,x) and (1,2,6,x) are not clamped to channel 0: the guard
compares the channel byte with MAX_SENSORS = 6 by a strict "greater than", so
6 passes it and the store goes to `adGetAllCaps[6]`, outside the six-entry
table. -/
theorem slaveTaskCommand_channel_six_out_of_table (s : Sys) (x : Nat) :
    slaveTaskCommand (s.receive 1 3 6 x) = none ∧
    slaveTaskCommand (s.receive 1 2 6 x) = none := by
  constructor <;> simp [slaveTaskCommand, Sys.receive, storeAdGetAllCaps]

/-- Channel bytes above 6 are clamped: (1,3,ch,x) and (1,2,ch,x) with
ch > 6 store to entry 0 of the table and change nothing else. -/
theorem slaveTaskCommand_clamp_above_six (s : Sys) (ch x : Nat) (h : 6 < ch) :
    slaveTaskCommand (s.receive 1 3 ch x) =
      some { s.receive 1 3 ch x with
        adGetAllCaps := Function.update s.adGetAllCaps 0 true } ∧
    slaveTaskCommand (s.receive 1 2 ch x) =
      some { s.receive 1 2 ch x with
        adGetAllCaps := Function.update s.adGetAllCaps 0 false } := by
  have h0 : ¬ ch = 0 := by omega
  have h1 : ¬ ch = 1 := by omega
  constructor <;> simp [slaveTaskCommand, Sys.receive, storeAdGetAllCaps, h, h0, h1]

/-- C3: for every fourth byte x, the command (1,1,1,x) sets the six
`switchcmd` flags and sets `switchNew` of channel i to new ACS if x = 0 or bit
i of x is 1, and to old ACS otherwise; nothing else changes. In particular
(1,1,1,0) makes all six new, and (1,1,1,0b000101) makes channels 0 and 2 new
and channels 1, 3, 4, 5 old. -/
theorem slaveTaskCommand_switch_by_mask :
    (∀ (s : Sys) (x : Nat),
      slaveTaskCommand (s.receive 1 1 1 x) = some { s.receive 1 1 1 x with
        switchcmd0 := true
        switchcmd1 := true
        switchcmd2 := true
        switchcmd3 := true
        switchcmd4 := true
        switchcmd5 := true
        switchNew0 := if x = 0 ∨ x.testBit 0 = true then .swNewACS else .swOldACS
        switchNew1 := if x = 0 ∨ x.testBit 1 = true then .swNewACS else .swOldACS
        switchNew2 := if x = 0 ∨ x.testBit 2 = true then .swNewACS else .swOldACS
        switchNew3 := if x = 0 ∨ x.testBit 3 = true then .swNewACS else .swOldACS
        switchNew4 := if x = 0 ∨ x.testBit 4 = true then .swNewACS else .swOldACS
        switchNew5 := if x = 0 ∨ x.testBit 5 = true then .swNewACS else .swOldACS }) ∧
    (∀ s : Sys,
      slaveTaskCommand (s.receive 1 1 1 0) = some { s.receive 1 1 1 0 with
        switchcmd0 := true
        switchcmd1 := true
        switchcmd2 := true
        switchcmd3 := true
        switchcmd4 := true
        switchcmd5 := true
        switchNew0 := .swNewACS
        switchNew1 := .swNewACS
        switchNew2 := .swNewACS
        switchNew3 := .swNewACS
        switchNew4 := .swNewACS
        switchNew5 := .swNewACS }) ∧
    (∀ s : Sys,
      slaveTaskCommand (s.receive 1 1 1 0b000101) = some { s.receive 1 1 1 0b000101 with
        switchcmd0 := true
        switchcmd1 := true
        switchcmd2 := true
        switchcmd3 := true
        switchcmd4 := true
        switchcmd5 := true
        switchNew0 := .swNewACS
        switchNew1 := .swOldACS
        switchNew2 := .swNewACS
        switchNew3 := .swOldACS
        switchNew4 := .swOldACS
        switchNew5 := .swOldACS }) := by
  refine ⟨?_, ?_, ?_⟩
  · intro s x
    have h0 := land_two_pow_ne_zero x 0
    have h1 := land_two_pow_ne_zero x 1
    have h2 := land_two_pow_ne_zero x 2
    have h3 := land_two_pow_ne_zero x 3
    have h4 := land_two_pow_ne_zero x 4
    have h5 := land_two_pow_ne_zero x 5
    norm_num at h0 h1 h2 h3 h4 h5
    simp [slaveTaskCommand, Sys.receive, h0, h1, h2, h3, h4, h5]
  · intro s
    simp [slaveTaskCommand, Sys.receive]
  · intro s
    simp [slaveTaskCommand, Sys.receive]
    decide

/-- C4: for every fourth byte x, the command (1,1,0,x) sets the six
`switchcmd` flags and sets the six `switchNew` to old ACS; the conversion time,
the table `adGetAllCaps` and every other variable keep their value. -/
theorem slaveTaskCommand_switch_all_old (s : Sys) (x : Nat) :
    slaveTaskCommand (s.receive 1 1 0 x) = some { s.receive 1 1 0 x with
      switchcmd0 := true
      switchcmd1 := true
      switchcmd2 := true
      switchcmd3 := true
      switchcmd4 := true
      switchcmd5 := true
      switchNew0 := .swOldACS
      switchNew1 := .swOldACS
      switchNew2 := .swOldACS
      switchNew3 := .swOldACS
      switchNew4 := .swOldACS
      switchNew5 := .swOldACS } := by
  simp [slaveTaskCommand, Sys.receive]

/-- C5: whatever the conversion time was, (1,0,1,1) sets it to the fast value,
38 ms single (0x1A), and (1,0,1,0) sets it to the default value, 109 ms single
(0x3A); the relay flags, the relay targets, the table `adGetAllCaps` and every
other variable keep their value. -/
theorem slaveTaskCommand_conversion_time (s : Sys) :
    slaveTaskCommand (s.receive 1 0 1 1) =
      some { s.receive 1 0 1 1 with adAllSensorConversionTime := .adct38msSingle } ∧
    slaveTaskCommand (s.receive 1 0 1 0) =
      some { s.receive 1 0 1 0 with adAllSensorConversionTime := .adct109msSingle } ∧
    adConversionTime.adct38msSingle.toNat = 0x1A ∧
    adConversionTime.adct109msSingle.toNat = 0x3A := by
  refine ⟨?_, ?_, rfl, rfl⟩ <;>
    simp [slaveTaskCommand, Sys.receive, FAST_CONVERSION_TIME, DEFAULT_CONVERSION_TIME]

/-- C6: for a channel byte ch in 0..5 and every fourth byte x, (1,2,ch,x)
sets entry ch of `adGetAllCaps` to false and (1,3,ch,x) sets it to true; the
five other entries, the relay flags and targets, the conversion time and every
other variable keep their value. -/
theorem slaveTaskCommand_capacitance_mode (s : Sys) (ch x : Nat) (h : ch < MAX_SENSORS) :
    slaveTaskCommand (s.receive 1 2 ch x) =
      some { s.receive 1 2 ch x with
        adGetAllCaps := Function.update s.adGetAllCaps ⟨ch, h⟩ false } ∧
    slaveTaskCommand (s.receive 1 3 ch x) =
      some { s.receive 1 3 ch x with
        adGetAllCaps := Function.update s.adGetAllCaps ⟨ch, h⟩ true } := by
  have h6 : ¬ 6 < ch := Nat.not_lt.mpr (Nat.le_of_lt h)
  constructor <;>
    simp [slaveTaskCommand, Sys.receive, storeAdGetAllCaps, h, h6]

/-- C6 at a concrete input: after boot, (1,2,3,9) leaves channel 3 on
differential only, and (1,3,3,9) puts channel 3, and no other channel, on the
full set. -/
theorem slaveTaskCommand_capacitance_mode_witness :
    (3 : Nat) < MAX_SENSORS ∧
    (slaveTaskCommand (Sys.boot.receive 1 2 3 9)).map (fun r => List.ofFn r.adGetAllCaps)
      = some [false, false, false, false, false, false] ∧
    (slaveTaskCommand (Sys.boot.receive 1 3 3 9)).map (fun r => List.ofFn r.adGetAllCaps)
      = some [false, false, false, true, false, false] := by
  have h := slaveTaskCommand_capacitance_mode Sys.boot 3 9 (by decide)
  refine ⟨by decide, ?_, ?_⟩
  · rw [h.1]; decide
  · rw [h.2]; decide

/-- C7: four command bytes that match none of the documented patterns change
nothing: the result is the state the decoder was entered with. -/
theorem slaveTaskCommand_invalid_no_change (s : Sys) (c0 c1 c2 c3 : Nat)
    (h : c0 ≠ 1 ∨ (c0 = 1 ∧ 3 < c1) ∨ (c0 = 1 ∧ c1 = 1 ∧ 1 < c2) ∨
      (c0 = 1 ∧ c1 = 0 ∧ ¬ (c2 = 1 ∧ (c3 = 0 ∨ c3 = 1)))) :
    slaveTaskCommand (s.receive c0 c1 c2 c3) = some (s.receive c0 c1 c2 c3) := by
  rcases h with h | ⟨h0, h1⟩ | ⟨h0, h1, h2⟩ | ⟨h0, h1, h2⟩
  · simp [slaveTaskCommand, Sys.receive, h]
  · have a0 : ¬ c1 = 0 := by omega
    have a1 : ¬ c1 = 1 := by omega
    have a2 : ¬ c1 = 2 := by omega
    have a3 : ¬ c1 = 3 := by omega
    simp [slaveTaskCommand, Sys.receive, h0, a0, a1, a2, a3]
  · have a0 : ¬ c2 = 0 := by omega
    have a1 : ¬ c2 = 1 := by omega
    simp [slaveTaskCommand, Sys.receive, h0, h1, a0, a1]
  · subst h0 h1
    by_cases hc : c2 = 1
    · subst hc
      have a0 : ¬ c3 = 0 := fun e => h2 ⟨rfl, Or.inl e⟩
      have a1 : ¬ c3 = 1 := fun e => h2 ⟨rfl, Or.inr e⟩
      simp [slaveTaskCommand, Sys.receive, a0, a1]
    · simp [slaveTaskCommand, Sys.receive, hc]

/-- C7 at concrete inputs: (2,1,0,0), (1,4,0,0), (1,1,2,0) and (1,0,1,2) leave
the state as it was. -/
theorem slaveTaskCommand_invalid_no_change_witness :
    slaveTaskCommand (Sys.boot.receive 2 1 0 0) = some (Sys.boot.receive 2 1 0 0) ∧
    slaveTaskCommand (Sys.boot.receive 1 4 0 0) = some (Sys.boot.receive 1 4 0 0) ∧
    slaveTaskCommand (Sys.boot.receive 1 1 2 0) = some (Sys.boot.receive 1 1 2 0) ∧
    slaveTaskCommand (Sys.boot.receive 1 0 1 2) = some (Sys.boot.receive 1 0 1 2) :=
  ⟨slaveTaskCommand_invalid_no_change Sys.boot 2 1 0 0 (Or.inl (by decide)),
   slaveTaskCommand_invalid_no_change Sys.boot 1 4 0 0 (Or.inr (Or.inl ⟨rfl, by decide⟩)),
   slaveTaskCommand_invalid_no_change Sys.boot 1 1 2 0
     (Or.inr (Or.inr (Or.inl ⟨rfl, rfl, by decide⟩))),
   slaveTaskCommand_invalid_no_change Sys.boot 1 0 1 2
     (Or.inr (Or.inr (Or.inr ⟨rfl, rfl, by decide⟩)))⟩

/-! ## Theorems: channel state machine -/

/-- C1 (the code at the failing input). The RunFailed step stores the header
A5 5A 00 00 02 and zeroes sixteen bytes of the block of its channel, but it has
no store to the three filtered-capacitance bytes: they keep the value they had.
So on channel 0, started at power-on reset on a bus whose first read returns the
raw differential bytes 80 00 00 and whose next transfer (number 14, the trigger)
fails, the channel is in RunFailed after three passes, and after the fourth
pass, the RunFailed step, bytes 11..13 of its block still hold 80 00 00. -/
theorem caseRunFailed_keeps_filtered_capacitance :
    (∀ (p : taskParams) (s : Sys),
      (caseRunFailed p s).2.spiMessageOut.header = [0xA5, 0x5A, 0x00, 0x00, 0x02] ∧
      ((caseRunFailed p s).2.spiMessageOut.sensor p.device).bytes =
        [0, 0, 0, 0, 0, 0, 0, 0, 0, 0, 0,
         (s.spiMessageOut.sensor p.device).filtCapHigh,
         (s.spiMessageOut.sensor p.device).filtCapMid,
         (s.spiMessageOut.sensor p.device).filtCapLow,
         0, 0, 0, 0, 0]) ∧
    (taskI2Ccommon (Hal.failAt 14 [0x80, 0, 0, 1, 2, 3]) 3
        (taskI2C 0 stackZero, Sys.boot)).map (fun r => r.1.state)
      = some taskState.tsRunFailed ∧
    (taskI2Ccommon (Hal.failAt 14 [0x80, 0, 0, 1, 2, 3]) 4
        (taskI2C 0 stackZero, Sys.boot)).map
        (fun r => (r.1.state, r.2.spiMessageOut.header, (r.2.spiMessageOut.sensor 0).bytes))
      = some (taskState.tsRunFailedWait, [0xA5, 0x5A, 0x00, 0x00, 0x02],
          [0, 0, 0, 0, 0, 0, 0, 0, 0, 0, 0, 0x80, 0, 0, 0, 0, 0, 0, 0]) := by
  refine ⟨?_, ?_, ?_⟩
  · intro p s
    constructor
    · rfl
    · simp [caseRunFailed, Sys.storeSensor, Sys.storeHeader, Semaphore_pend, Semaphore_post,
        sensorMsg.bytes]
  · decide!
  · decide!

/-- C8 (the code at the failing input). The counter `capreads` is set back to
0 only when the temperature trigger fails; after a temperature trigger that
succeeds it just goes on counting. So on channel 0, started at power-on reset
with the counter at 0 on a bus without failures, the two conversions started
by setup and start are followed, over 25 handled completions, by ten
capacitance conversions, one temperature conversion, and then fourteen
capacitance conversions: there is no second temperature conversion. -/
theorem temperature_trigger_happens_once :
    (∀ (hal : Hal) (p : taskParams) (s : Sys),
      (runningTrigger hal p s).1.capreads =
        if p.capreads = AD7746_CAP_VS_TEMP_TRIGGER_INTERVAL ∧ (hal.i2cReply s.xfers).ok = false
        then 0 else (p.capreads + 1) % 2 ^ 32) ∧
    ((taskI2Ccommon (Hal.allOk [0x12, 0x34, 0x56, 1, 2, 3]) 2
        (taskI2C 0 stackZero, Sys.boot)).bind
      (completionPasses (Hal.allOk [0x12, 0x34, 0x56, 1, 2, 3]) 25)).map
        (fun r => (r.1.state, r.1.capreads, conversionsStarted r.2.log))
      = some (taskState.tsRunning, 25,
          [false, false,
           false, false, false, false, false, false, false, false, false, false,
           true,
           false, false, false, false, false, false, false, false, false, false, false,
           false, false, false]) := by
  refine ⟨?_, ?_⟩
  · intro hal p s
    simp only [runningTrigger, triggerAD7746temperature, triggerAD7746capacitance,
      I2C_transfer]
    cases hok : (hal.i2cReply s.xfers).ok <;>
      by_cases h10 : p.capreads = AD7746_CAP_VS_TEMP_TRIGGER_INTERVAL <;>
      simp [hok, h10]
    split_ifs <;> rfl
  · decide!

/-- C9 (the code at the failing input). Channel 0 is put on the full set by
the command (1,3,0,0) and started at power-on reset with `capreads` at 10, on a
bus without failures whose reads return 12 34 56 01 02 03. After three passes
(init, start, first completion) the selector has advanced to C1-single, but the
conversions started are two capacitance conversions with the capacitor
selection E0 (differential) and one temperature conversion. The next
completion reads under C1-single and stores 12 34 56 in the C1 bytes of the
block, although no conversion with the selection 80 (C1-single) was started:
the selections written to the device are E0, E0 and, after the read, C0. -/
theorem reading_stored_under_unconverted_mode :
    ((slaveTaskCommand (Sys.boot.receive 1 3 0 0)).bind fun s =>
      taskI2Ccommon (Hal.allOk [0x12, 0x34, 0x56, 1, 2, 3]) 3
        (taskI2C 0 { stackZero with capreads := 10 }, s)).map
        (fun r => (r.1.state, r.1.cap_prev, r.1.cap))
      = some (taskState.tsRunning, adCapSelect.adcsC2D1, adCapSelect.adcsC1D0) ∧
    ((slaveTaskCommand (Sys.boot.receive 1 3 0 0)).bind fun s =>
      taskI2Ccommon (Hal.allOk [0x12, 0x34, 0x56, 1, 2, 3]) 3
        (taskI2C 0 { stackZero with capreads := 10 }, s)).map
        (fun r => (conversionsStarted r.2.log, capSelectsWritten r.2.log,
          (r.2.spiMessageOut.sensor 0).bytes))
      = some ([false, false, true], [0xE0, 0xE0],
          [0, 0, 0x12, 0x34, 0x56, 0, 0, 0, 0, 0, 0, 127, 68, 133, 0, 0, 1, 2, 3]) ∧
    (((slaveTaskCommand (Sys.boot.receive 1 3 0 0)).bind fun s =>
      taskI2Ccommon (Hal.allOk [0x12, 0x34, 0x56, 1, 2, 3]) 3
        (taskI2C 0 { stackZero with capreads := 10 }, s)).bind
      (completionPass (Hal.allOk [0x12, 0x34, 0x56, 1, 2, 3]))).map
        (fun r => (r.1.state, r.1.cap_prev, r.1.cap))
      = some (taskState.tsRunning, adCapSelect.adcsC1D0, adCapSelect.adcsC2D0) ∧
    (((slaveTaskCommand (Sys.boot.receive 1 3 0 0)).bind fun s =>
      taskI2Ccommon (Hal.allOk [0x12, 0x34, 0x56, 1, 2, 3]) 3
        (taskI2C 0 { stackZero with capreads := 10 }, s)).bind
      (completionPass (Hal.allOk [0x12, 0x34, 0x56, 1, 2, 3]))).map
        (fun r => (conversionsStarted r.2.log, capSelectsWritten r.2.log,
          (r.2.spiMessageOut.sensor 0).bytes))
      = some ([false, false, true, false], [0xE0, 0xE0, 0xC0],
          [0, 0, 0x12, 0x34, 0x56, 0x12, 0x34, 0x56, 0, 0, 0, 127, 68, 133, 0, 0, 1, 2, 3]) := by
  refine ⟨?_, ?_, ?_, ?_⟩ <;> decide!

/-- C10: a pass in Running that handles a completion (no timeout, flag set)
advances the selector as the specification says: the new mode is Differential
if the full-set flag of the channel is false, and the next mode of the cycle
Differential, C1-single, C2-single, Differential if it is true; the previous
mode field holds the mode from before the advance. On a bus without failures
three consecutive completions in full-set mode leave the channel in Running
with the selector back at its starting mode. -/
theorem taskI2Cpass_selector_advance (hal : Hal) (p : taskParams) (s : Sys)
    (hst : p.state = .tsRunning) (hto : p.inttime ≤ MAX_SENSOR_TIMEOUT_MS)
    (hint : s.intflag p.device = true) :
    (∃ p1 s1, taskI2Cpass hal p s = some (p1, s1) ∧
      p1.cap_prev = p.cap ∧
      p1.cap = specAdvance (s.adGetAllCaps p.device) p.cap ∧
      (s.adGetAllCaps p.device = false → p1.cap = .adcsC2D1) ∧
      (s.adGetAllCaps p.device = true →
        (p.cap = .adcsC2D1 → p1.cap = .adcsC1D0) ∧
        (p.cap = .adcsC1D0 → p1.cap = .adcsC2D0) ∧
        (p.cap = .adcsC2D0 → p1.cap = .adcsC2D1))) ∧
    ((∀ n, (hal.i2cReply n).ok = true) → s.adGetAllCaps p.device = true →
      ∃ p3 s3, completionPasses hal 3 (p, s) = some (p3, s3) ∧
        p3.state = .tsRunning ∧ p3.cap = p.cap) := by
  constructor
  · have hpass := taskI2Cpass_running hal p s hst hto hint
    have hpar := runningCompletion_params hal p (runningRelay hal p s)
    have hcap : (runningCompletion hal p (runningRelay hal p s)).1.cap
        = specAdvance (s.adGetAllCaps p.device) p.cap := by
      rw [hpar.2.1, runningNextCap_cap, runningRelay_adGetAllCaps]
    refine ⟨_, _, hpass, hpar.1, hcap, ?_, ?_⟩
    · intro hf
      show (runningCompletion hal p (runningRelay hal p s)).1.cap = _
      rw [hcap, hf]; rfl
    · intro hf
      refine ⟨?_, ?_, ?_⟩ <;> intro hc <;>
        show (runningCompletion hal p (runningRelay hal p s)).1.cap = _ <;>
        rw [hcap, hf, hc] <;> rfl
  · intro hok hfull
    obtain ⟨p1, s1, e1, st1, to1, d1, g1, _, c1⟩ := completionPass_ok hal hok p s hst hto
    obtain ⟨p2, s2, e2, st2, to2, d2, g2, _, c2⟩ := completionPass_ok hal hok p1 s1 st1 to1
    obtain ⟨p3, s3, e3, st3, _, _, _, _, c3⟩ := completionPass_ok hal hok p2 s2 st2 to2
    refine ⟨p3, s3, ?_, st3, ?_⟩
    · simp [completionPasses, e1, e2, e3]
    · rw [c3, c2, c1, g2, g1, d2, d1, hfull]
      exact specAdvance_three p.cap

/-- C10 at a concrete input: channel 0 in Running on C1-single with the
full-set flag set and a completion pending, on a bus without failures. One
pass moves the selector to C2-single with C1-single as the previous mode, and
three completions bring it back to C1-single. -/
theorem taskI2Cpass_selector_advance_witness :
    (∃ p1 s1,
      taskI2Cpass (Hal.allOk [1, 2, 3, 4, 5, 6])
        { stackZero with state := .tsRunning, cap := .adcsC1D0 }
        { Sys.boot with adGetAllCaps := fun _ => true, intflag0 := true } = some (p1, s1) ∧
      p1.cap_prev = .adcsC1D0 ∧ p1.cap = .adcsC2D0) ∧
    (∃ p3 s3,
      completionPasses (Hal.allOk [1, 2, 3, 4, 5, 6]) 3
        ({ stackZero with state := .tsRunning, cap := .adcsC1D0 },
         { Sys.boot with adGetAllCaps := fun _ => true, intflag0 := true }) = some (p3, s3) ∧
      p3.state = .tsRunning ∧ p3.cap = .adcsC1D0) := by
  have h := taskI2Cpass_selector_advance (Hal.allOk [1, 2, 3, 4, 5, 6])
    { stackZero with state := .tsRunning, cap := .adcsC1D0 }
    { Sys.boot with adGetAllCaps := fun _ => true, intflag0 := true }
    rfl (by decide) rfl
  obtain ⟨⟨p1, s1, e1, hprev, _, _, hfull⟩, h3⟩ := h
  exact ⟨⟨p1, s1, e1, hprev, (hfull rfl).2.1 rfl⟩, h3 (fun _ => rfl) rfl⟩

/-! ## Lemmas: binary floating point -/

theorem pow2_eq (q : ℤ) : pow2 q = (2 : ℚ) ^ q := by
  unfold pow2
  split_ifs with h
  · obtain ⟨n, rfl⟩ := Int.eq_ofNat_of_zero_le h
    simp
  · push_neg at h
    obtain ⟨n, hn⟩ := Int.eq_ofNat_of_zero_le (show 0 ≤ -q by omega)
    have hq : q = -(n : ℤ) := by omega
    subst hq
    simp

theorem roundHalfEven_err (m : ℚ) : |(roundHalfEven m : ℚ) - m| ≤ 1 / 2 := by
  have h0 : ((Rat.floor m : ℤ) : ℚ) ≤ m := Int.floor_le m
  have h1 : m < ((Rat.floor m : ℤ) : ℚ) + 1 := Int.lt_floor_add_one m
  unfold roundHalfEven
  simp only
  rw [abs_le]
  split_ifs with a b c
  · constructor <;> linarith
  · push_cast; constructor <;> linarith
  · constructor <;> linarith
  · push_cast; constructor <;> linarith

theorem roundHalfEven_intCast (k : ℤ) : roundHalfEven (k : ℚ) = k := by
  have hf : Rat.floor (k : ℚ) = k := by
    show ⌊(k : ℚ)⌋ = k
    exact Int.floor_intCast k
  unfold roundHalfEven
  simp only [hf, sub_self]
  norm_num

theorem ilog2Aux_spec (fuel : Nat) : ∀ n acc, n ≤ fuel → 0 < n →
    2 ^ (ilog2Aux fuel n acc - acc) ≤ n ∧ n < 2 ^ (ilog2Aux fuel n acc - acc + 1) ∧
    acc ≤ ilog2Aux fuel n acc := by
  induction fuel with
  | zero => intro n acc h h0; omega
  | succ f ih =>
    intro n acc h h0
    unfold ilog2Aux
    split_ifs with h1
    · have : n = 1 := by omega
      subst this
      simp
    · push_neg at h1
      obtain ⟨a, b, c⟩ := ih (n / 2) (acc + 1) (by omega) (by omega)
      have e : ilog2Aux f (n / 2) (acc + 1) - acc = (ilog2Aux f (n / 2) (acc + 1) - (acc + 1)) + 1 := by
        omega
      rw [e]
      generalize ilog2Aux f (n / 2) (acc + 1) - (acc + 1) = t at a b ⊢
      refine ⟨?_, ?_, by omega⟩
      · rw [pow_succ]; omega
      · rw [pow_succ] at b ⊢; omega

theorem ilog2_spec (n : Nat) (h : 0 < n) : 2 ^ ilog2 n ≤ n ∧ n < 2 ^ (ilog2 n + 1) := by
  have := ilog2Aux_spec n n 0 le_rfl h
  simpa [ilog2] using ⟨this.1, this.2.1⟩

theorem floorLog2_spec (a : ℚ) (ha : 0 < a) :
    (2 : ℚ) ^ floorLog2 a ≤ a ∧ a < (2 : ℚ) ^ (floorLog2 a + 1) := by
  have hnum : 0 < a.num := Rat.num_pos.mpr ha
  have hn : 0 < a.num.natAbs := Int.natAbs_pos.mpr (ne_of_gt hnum)
  have hd : 0 < a.den := a.den_pos
  obtain ⟨n0, n1⟩ := ilog2_spec _ hn
  obtain ⟨d0, d1⟩ := ilog2_spec _ hd
  unfold floorLog2
  simp only [pow2_eq]
  have hq : a = (a.num.natAbs : ℚ) / (a.den : ℚ) := by
    have h1 : ((a.num.natAbs : ℕ) : ℚ) = (a.num : ℚ) := by
      rw [Nat.cast_natAbs, abs_of_pos hnum]
    rw [h1]
    exact (Rat.num_div_den a).symm
  have dpos : (0 : ℚ) < (a.den : ℚ) := by exact_mod_cast hd
  have n0q : ((2 : ℚ) ^ ilog2 a.num.natAbs) ≤ (a.num.natAbs : ℚ) := by exact_mod_cast n0
  have n1q : (a.num.natAbs : ℚ) < (2 : ℚ) ^ (ilog2 a.num.natAbs + 1) := by exact_mod_cast n1
  have d0q : ((2 : ℚ) ^ ilog2 a.den) ≤ (a.den : ℚ) := by exact_mod_cast d0
  have d1q : (a.den : ℚ) < (2 : ℚ) ^ (ilog2 a.den + 1) := by exact_mod_cast d1
  generalize ilog2 a.num.natAbs = N at *
  generalize ilog2 a.den = D at *
  have two_pos : (0 : ℚ) < 2 := by norm_num
  have hlow : (2 : ℚ) ^ ((N : ℤ) - (D : ℤ) - 1) < a := by
    rw [hq, lt_div_iff₀ dpos]
    have e : (2 : ℚ) ^ ((N : ℤ) - (D : ℤ) - 1) * (2 : ℚ) ^ (D + 1) = (2 : ℚ) ^ N := by
      rw [← zpow_natCast (2 : ℚ) (D + 1), ← zpow_add₀ (by norm_num : (2 : ℚ) ≠ 0),
        ← zpow_natCast (2 : ℚ) N]
      congr 1; push_cast; ring
    calc (2 : ℚ) ^ ((N : ℤ) - (D : ℤ) - 1) * (a.den : ℚ)
        < (2 : ℚ) ^ ((N : ℤ) - (D : ℤ) - 1) * (2 : ℚ) ^ (D + 1) := by
          apply mul_lt_mul_of_pos_left d1q (zpow_pos two_pos _)
      _ = (2 : ℚ) ^ N := e
      _ ≤ _ := n0q
  have hhigh : a < (2 : ℚ) ^ ((N : ℤ) - (D : ℤ) + 1) := by
    rw [hq, div_lt_iff₀ dpos]
    have e : (2 : ℚ) ^ ((N : ℤ) - (D : ℤ) + 1) * (2 : ℚ) ^ D = (2 : ℚ) ^ (N + 1) := by
      rw [← zpow_natCast (2 : ℚ) D, ← zpow_add₀ (by norm_num : (2 : ℚ) ≠ 0),
        ← zpow_natCast (2 : ℚ) (N + 1)]
      congr 1; push_cast; ring
    calc (a.num.natAbs : ℚ) < (2 : ℚ) ^ (N + 1) := n1q
      _ = (2 : ℚ) ^ ((N : ℤ) - (D : ℤ) + 1) * (2 : ℚ) ^ D := e.symm
      _ ≤ (2 : ℚ) ^ ((N : ℤ) - (D : ℤ) + 1) * (a.den : ℚ) := by
          apply mul_le_mul_of_nonneg_left d0q (le_of_lt (zpow_pos two_pos _))
  split_ifs with h
  · exact ⟨h, hhigh⟩
  · push_neg at h
    refine ⟨le_of_lt hlow, ?_⟩
    have : (N : ℤ) - (D : ℤ) - 1 + 1 = (N : ℤ) - (D : ℤ) := by ring
    rw [this]; exact h

theorem floorLog2_le (a : ℚ) (ha : 0 < a) (E : ℤ) (h : a < (2 : ℚ) ^ (E + 1)) :
    floorLog2 a ≤ E := by
  have h1 := (floorLog2_spec a ha).1
  have h2 : (2 : ℚ) ^ floorLog2 a < (2 : ℚ) ^ (E + 1) := lt_of_le_of_lt h1 h
  have := (zpow_lt_zpow_iff_right₀ (by norm_num : (1 : ℚ) < 2)).mp h2
  omega

theorem le_floorLog2 (a : ℚ) (ha : 0 < a) (E : ℤ) (h : (2 : ℚ) ^ E ≤ a) :
    E ≤ floorLog2 a := by
  have h1 := (floorLog2_spec a ha).2
  have h2 : (2 : ℚ) ^ E < (2 : ℚ) ^ (floorLog2 a + 1) := lt_of_le_of_lt h h1
  have := (zpow_lt_zpow_iff_right₀ (by norm_num : (1 : ℚ) < 2)).mp h2
  omega


theorem pow2_pos (q : ℤ) : 0 < pow2 q := by
  rw [pow2_eq]; exact zpow_pos (by norm_num) q

theorem two_zpow_pos (q : ℤ) : (0 : ℚ) < (2 : ℚ) ^ q := zpow_pos (by norm_num) q

theorem two_zpow_add_nat (q : ℤ) (p : ℕ) :
    (2 : ℚ) ^ (q + (p : ℤ)) = (2 : ℚ) ^ p * (2 : ℚ) ^ q := by
  rw [zpow_add₀ (by norm_num : (2 : ℚ) ≠ 0), zpow_natCast, mul_comm]

theorem two_zpow_le {a b : ℤ} (h : a ≤ b) : (2 : ℚ) ^ a ≤ (2 : ℚ) ^ b :=
  zpow_le_zpow_right₀ (by norm_num) h

/-- The rounded value lies on the grid of the quantum, at the grid point
nearest to `x`. -/
theorem roundBinary_grid (p : Nat) (emin : ℤ) (x : ℚ) :
    ∃ k : ℤ, roundBinary p emin x = (k : ℚ) * (2 : ℚ) ^ quantum p emin x ∧
      |(k : ℚ) - x / (2 : ℚ) ^ quantum p emin x| ≤ 1 / 2 :=
  ⟨roundHalfEven (x / pow2 (quantum p emin x)), by simp only [roundBinary, pow2_eq],
    by rw [← pow2_eq]; exact roundHalfEven_err _⟩

theorem roundBinary_err (p : Nat) (emin : ℤ) (x : ℚ) :
    |roundBinary p emin x - x| ≤ (2 : ℚ) ^ quantum p emin x / 2 := by
  obtain ⟨k, hk, he⟩ := roundBinary_grid p emin x
  have hp := two_zpow_pos (quantum p emin x)
  rw [hk]
  have : (k : ℚ) * (2 : ℚ) ^ quantum p emin x - x
      = ((k : ℚ) - x / (2 : ℚ) ^ quantum p emin x) * (2 : ℚ) ^ quantum p emin x := by
    field_simp
  rw [this, abs_mul, abs_of_pos hp]
  calc |(k : ℚ) - x / (2 : ℚ) ^ quantum p emin x| * (2 : ℚ) ^ quantum p emin x
      ≤ 1 / 2 * (2 : ℚ) ^ quantum p emin x := mul_le_mul_of_nonneg_right he (le_of_lt hp)
    _ = (2 : ℚ) ^ quantum p emin x / 2 := by ring

theorem quantum_le (p : Nat) (emin : ℤ) (x : ℚ) (hx : x ≠ 0) (E : ℤ) (hE : emin ≤ E)
    (h : |x| < (2 : ℚ) ^ (E + 1)) : quantum p emin x ≤ E - ((p : ℤ) - 1) := by
  have := floorLog2_le |x| (abs_pos.mpr hx) E h
  unfold quantum
  have : max (floorLog2 |x|) emin ≤ E := max_le this hE
  omega

theorem quantum_ge (p : Nat) (emin : ℤ) (x : ℚ) (hx : x ≠ 0) (E : ℤ)
    (h : (2 : ℚ) ^ E ≤ |x|) : E - ((p : ℤ) - 1) ≤ quantum p emin x := by
  have := le_floorLog2 |x| (abs_pos.mpr hx) E h
  unfold quantum
  have : E ≤ max (floorLog2 |x|) emin := le_trans this (le_max_left _ _)
  omega

theorem quantum_ge_emin (p : Nat) (emin : ℤ) (x : ℚ) :
    emin - ((p : ℤ) - 1) ≤ quantum p emin x := by
  unfold quantum
  have : emin ≤ max (floorLog2 |x|) emin := le_max_right _ _
  omega

theorem quantum_eq (p : Nat) (emin : ℤ) (x : ℚ) (E : ℤ) (hE : emin ≤ E)
    (h0 : (2 : ℚ) ^ E ≤ |x|) (h1 : |x| < (2 : ℚ) ^ (E + 1)) :
    quantum p emin x = E - ((p : ℤ) - 1) := by
  have hx : x ≠ 0 := by
    intro h; rw [h, abs_zero] at h0
    exact absurd h0 (not_le.mpr (two_zpow_pos E))
  exact le_antisymm (quantum_le p emin x hx E hE h1) (quantum_ge p emin x hx E h0)

theorem roundBinary_zero (p : Nat) (emin : ℤ) : roundBinary p emin 0 = 0 := by
  have h := roundHalfEven_intCast 0
  simp only [Int.cast_zero] at h
  simp only [roundBinary, zero_div, h, Int.cast_zero, zero_mul]

/-- Absolute error of rounding a value below `2 ^ (E + 1)` in magnitude. -/
theorem roundBinary_err_lt (p : Nat) (emin : ℤ) (x : ℚ) (E : ℤ) (hE : emin ≤ E)
    (h : |x| < (2 : ℚ) ^ (E + 1)) : |roundBinary p emin x - x| ≤ (2 : ℚ) ^ (E - p) := by
  by_cases hx : x = 0
  · subst hx
    rw [roundBinary_zero]
    simp
    exact le_of_lt (two_zpow_pos _)
  · have hq := quantum_le p emin x hx E hE h
    have e := roundBinary_err p emin x
    have : (2 : ℚ) ^ quantum p emin x / 2 = (2 : ℚ) ^ (quantum p emin x - 1) := by
      rw [zpow_sub_one₀ (by norm_num : (2 : ℚ) ≠ 0)]; ring
    rw [this] at e
    exact le_trans e (two_zpow_le (by omega))

/-- A value on a grid at least as fine as the quantum is not changed. -/
theorem roundBinary_exact (p : Nat) (emin : ℤ) (k j : ℤ) (hj : emin - ((p : ℤ) - 1) ≤ j)
    (h : |(k : ℚ) * (2 : ℚ) ^ j| < (2 : ℚ) ^ (j + p)) :
    roundBinary p emin ((k : ℚ) * (2 : ℚ) ^ j) = (k : ℚ) * (2 : ℚ) ^ j := by
  by_cases hx : (k : ℚ) * (2 : ℚ) ^ j = 0
  · rw [hx, roundBinary_zero]
  · have hq : quantum p emin ((k : ℚ) * (2 : ℚ) ^ j) ≤ j := by
      unfold quantum
      have h1 := floorLog2_le _ (abs_pos.mpr hx) (j + p - 1) (by
        have : j + (p : ℤ) - 1 + 1 = j + p := by ring
        rw [this]; exact h)
      have : max (floorLog2 |(k : ℚ) * (2 : ℚ) ^ j|) emin ≤ j + p - 1 := max_le h1 (by omega)
      omega
    unfold roundBinary
    rw [pow2_eq]
    generalize quantum p emin ((k : ℚ) * (2 : ℚ) ^ j) = q at hq ⊢
    obtain ⟨n, hn⟩ := Int.eq_ofNat_of_zero_le (show 0 ≤ j - q by omega)
    have hjq : j = q + n := by omega
    have e : (k : ℚ) * (2 : ℚ) ^ j / (2 : ℚ) ^ q = ((k * 2 ^ n : ℤ) : ℚ) := by
      rw [hjq, zpow_add₀ (by norm_num : (2 : ℚ) ≠ 0)]
      have := two_zpow_pos q
      push_cast
      field_simp
      ring
    rw [e, roundHalfEven_intCast, ← e]
    have := two_zpow_pos q
    field_simp

theorem toDouble_err (x : ℚ) (E : ℤ) (hE : -1022 ≤ E) (h : |x| < (2 : ℚ) ^ (E + 1)) :
    |toDouble x - x| ≤ (2 : ℚ) ^ (E - 53) :=
  roundBinary_err_lt 53 (-1022) x E hE h

theorem toFloat_err (x : ℚ) (E : ℤ) (hE : -126 ≤ E) (h : |x| < (2 : ℚ) ^ (E + 1)) :
    |toFloat x - x| ≤ (2 : ℚ) ^ (E - 24) :=
  roundBinary_err_lt 24 (-126) x E hE h


theorem roundHalfEven_neg (m : ℚ) : roundHalfEven (-m) = -roundHalfEven m := by
  have h0 : ((⌊m⌋ : ℤ) : ℚ) ≤ m := Int.floor_le m
  have h1 : m < ((⌊m⌋ : ℤ) : ℚ) + 1 := Int.lt_floor_add_one m
  by_cases hint : m = ((⌊m⌋ : ℤ) : ℚ)
  · rw [hint, ← Int.cast_neg, roundHalfEven_intCast, roundHalfEven_intCast]
  · have hlt : ((⌊m⌋ : ℤ) : ℚ) < m := lt_of_le_of_ne h0 (Ne.symm hint)
    have hfl : ⌊-m⌋ = -⌊m⌋ - 1 := by
      rw [Int.floor_eq_iff]
      push_cast
      constructor <;> linarith
    have e1 : Rat.floor (-m) = -⌊m⌋ - 1 := hfl
    have e2 : Rat.floor m = ⌊m⌋ := rfl
    unfold roundHalfEven
    simp only [e1, e2]
    generalize ⌊m⌋ = f at *
    push_cast
    by_cases a : m - (f : ℚ) < 1 / 2
    · have b : ¬ (-m - (-(f : ℚ) - 1) < 1 / 2) := by push_neg; linarith
      have c : (1 : ℚ) / 2 < -m - (-(f : ℚ) - 1) := by linarith
      simp only [a, b, c, if_true, if_false]
      ring
    · by_cases a2 : (1 : ℚ) / 2 < m - (f : ℚ)
      · have b : (-m - (-(f : ℚ) - 1) < 1 / 2) := by linarith
        simp only [a, a2, b, if_true, if_false]
        ring
      · have b : ¬ (-m - (-(f : ℚ) - 1) < 1 / 2) := by push_neg; linarith
        have c : ¬ ((1 : ℚ) / 2 < -m - (-(f : ℚ) - 1)) := by push_neg; linarith
        simp only [a, a2, b, c, if_false]
        by_cases ev : f % 2 = 0
        · have od : ¬ ((-f - 1) % 2 = 0) := by omega
          simp only [ev, od, if_true, if_false]
          ring
        · have od : (-f - 1) % 2 = 0 := by omega
          simp only [ev, od, if_true, if_false]
          ring

theorem quantum_neg (p : Nat) (emin : ℤ) (x : ℚ) : quantum p emin (-x) = quantum p emin x := by
  simp only [quantum, abs_neg]

theorem roundBinary_neg (p : Nat) (emin : ℤ) (x : ℚ) :
    roundBinary p emin (-x) = -roundBinary p emin x := by
  simp only [roundBinary, quantum_neg, neg_div, roundHalfEven_neg]
  push_cast
  ring

/-- Relative error of a rounding, with the absolute term of gradual
underflow. -/
theorem roundBinary_err_rel (p : Nat) (emin : ℤ) (x : ℚ) :
    |roundBinary p emin x - x| ≤ |x| / (2 : ℚ) ^ p + (2 : ℚ) ^ (emin - p) := by
  by_cases hx : x = 0
  · subst hx
    rw [roundBinary_zero]
    simp
    exact le_of_lt (two_zpow_pos _)
  · have e := roundBinary_err p emin x
    have hpos := abs_pos.mpr hx
    obtain ⟨s0, _⟩ := floorLog2_spec |x| hpos
    have hhalf : ∀ a : ℤ, (2 : ℚ) ^ a / 2 = (2 : ℚ) ^ (a - 1) := by
      intro a
      rw [zpow_sub_one₀ (by norm_num : (2 : ℚ) ≠ 0)]; ring
    rw [hhalf] at e
    have hp : (0 : ℚ) < (2 : ℚ) ^ p := by positivity
    have h1 : (0 : ℚ) ≤ |x| / (2 : ℚ) ^ p := by positivity
    have h2 := two_zpow_pos (emin - (p : ℤ))
    rcases le_total (floorLog2 |x|) emin with hc | hc
    · have : quantum p emin x - 1 = emin - p := by
        unfold quantum; rw [max_eq_right hc]; ring
      rw [this] at e
      linarith
    · have : quantum p emin x - 1 = floorLog2 |x| - p := by
        unfold quantum; rw [max_eq_left hc]; ring
      rw [this] at e
      have : (2 : ℚ) ^ (floorLog2 |x| - (p : ℤ)) ≤ |x| / (2 : ℚ) ^ p := by
        rw [zpow_sub₀ (by norm_num : (2 : ℚ) ≠ 0), zpow_natCast]
        exact div_le_div_of_nonneg_right s0 (le_of_lt hp)
      linarith

/-- The mantissa of a rounded value is at most `2 ^ prec` in magnitude. -/
theorem roundBinary_mantissa (p : Nat) (emin : ℤ) (x : ℚ) (k : ℤ)
    (hk : |(k : ℚ) - x / (2 : ℚ) ^ quantum p emin x| ≤ 1 / 2) :
    |k| ≤ 2 ^ p := by
  by_cases hx : x = 0
  · subst hx
    simp only [zero_div, sub_zero] at hk
    have : |k| < 1 := by
      have : (|k| : ℚ) < 1 := by
        have := hk
        rw [← Int.cast_abs] at this ⊢
        linarith
      exact_mod_cast this
    have : (1 : ℤ) ≤ 2 ^ p := one_le_pow₀ (by norm_num)
    omega
  · obtain ⟨_, s1⟩ := floorLog2_spec |x| (abs_pos.mpr hx)
    have hq := two_zpow_pos (quantum p emin x)
    have hx2 : |x| < (2 : ℚ) ^ (quantum p emin x + p) := by
      refine lt_of_lt_of_le s1 (two_zpow_le ?_)
      unfold quantum
      have := le_max_left (floorLog2 |x|) emin
      omega
    have hb : |x / (2 : ℚ) ^ quantum p emin x| < (2 : ℚ) ^ p := by
      rw [abs_div, abs_of_pos hq, div_lt_iff₀ hq, ← zpow_natCast (2 : ℚ) p,
        ← zpow_add₀ (by norm_num : (2 : ℚ) ≠ 0), add_comm]
      exact hx2
    have hk2 : (|k| : ℚ) < (2 : ℚ) ^ p + 1 := by
      have h3 : |(k : ℚ)| ≤ |(k : ℚ) - x / (2 : ℚ) ^ quantum p emin x|
          + |x / (2 : ℚ) ^ quantum p emin x| := by
        have := abs_add ((k : ℚ) - x / (2 : ℚ) ^ quantum p emin x)
          (x / (2 : ℚ) ^ quantum p emin x)
        simpa using this
      linarith
    have hk3 : ((|k| : ℤ) : ℚ) < ((2 ^ p + 1 : ℤ) : ℚ) := by
      rw [Int.cast_abs]; push_cast; exact hk2
    have : |k| < 2 ^ p + 1 := by exact_mod_cast hk3
    omega

/-- Rounding is idempotent: a rounded value is a value of the format. -/
theorem roundBinary_idem (p : Nat) (emin : ℤ) (x : ℚ) (hp : 1 ≤ p) :
    roundBinary p emin (roundBinary p emin x) = roundBinary p emin x := by
  obtain ⟨k, hk, he⟩ := roundBinary_grid p emin x
  have hm := roundBinary_mantissa p emin x k he
  have hq := two_zpow_pos (quantum p emin x)
  rw [hk]
  rcases lt_or_eq_of_le hm with hlt | heq
  · apply roundBinary_exact p emin k _ (quantum_ge_emin p emin x)
    rw [abs_mul, abs_of_pos hq, two_zpow_add_nat]
    apply mul_lt_mul_of_pos_right _ hq
    have : (|k| : ℚ) < ((2 ^ p : ℤ) : ℚ) := by exact_mod_cast hlt
    rw [← Int.cast_abs]
    simpa using this
  · obtain ⟨n, rfl⟩ : ∃ n, p = n + 1 := ⟨p - 1, by omega⟩
    have hdiv : ∃ k2 : ℤ, k = k2 * 2 ∧ |k2| = 2 ^ n := by
      rcases abs_cases k with ⟨h1, _⟩ | ⟨h1, _⟩
      · exact ⟨2 ^ n, by rw [← h1, heq, pow_succ], abs_of_pos (by positivity)⟩
      · refine ⟨-2 ^ n, ?_, by rw [abs_neg]; exact abs_of_pos (by positivity)⟩
        have : k = -(2 ^ (n + 1)) := by rw [← heq, h1]; ring
        rw [this, pow_succ]; ring
    obtain ⟨k2, hk2, hk2a⟩ := hdiv
    have e : (k : ℚ) * (2 : ℚ) ^ quantum (n + 1) emin x
        = (k2 : ℚ) * (2 : ℚ) ^ (quantum (n + 1) emin x + 1) := by
      rw [hk2, zpow_add₀ (by norm_num : (2 : ℚ) ≠ 0)]
      push_cast; ring
    rw [e]
    apply roundBinary_exact (n + 1) emin k2 _ (by
      have := quantum_ge_emin (n + 1) emin x; omega)
    have hq1 := two_zpow_pos (quantum (n + 1) emin x + 1)
    rw [abs_mul, abs_of_pos hq1, two_zpow_add_nat]
    apply mul_lt_mul_of_pos_right _ hq1
    rw [← Int.cast_abs, hk2a]
    push_cast
    rw [pow_succ]
    have : (0 : ℚ) < 2 ^ n := by positivity
    linarith


theorem toFloat_idem (x : ℚ) : toFloat (toFloat x) = toFloat x :=
  roundBinary_idem 24 (-126) x (by norm_num)

theorem toFloat_neg (x : ℚ) : toFloat (-x) = -toFloat x := roundBinary_neg 24 (-126) x

theorem int_le_of_sub_one_lt (k z : ℤ) (h : (z : ℚ) - 1 < (k : ℚ)) : z ≤ k := by
  have : z - 1 < k := by exact_mod_cast h
  omega

/-- The quantum of a nonzero value in binary32: the value is below
`2 ^ (q + 24)`, and at least `2 ^ (q + 23)` unless the quantum is the least
one. -/
theorem quantum_float (x : ℚ) (hx : x ≠ 0) :
    -149 ≤ quantum 24 (-126) x ∧ |x| < (2 : ℚ) ^ (quantum 24 (-126) x + 24) ∧
    (quantum 24 (-126) x = -149 ∨ (2 : ℚ) ^ (quantum 24 (-126) x + 23) ≤ |x|) := by
  obtain ⟨s0, s1⟩ := floorLog2_spec |x| (abs_pos.mpr hx)
  unfold quantum
  rcases le_total (floorLog2 |x|) (-126) with hc | hc
  · rw [max_eq_right hc]
    refine ⟨by norm_num, lt_of_lt_of_le s1 (two_zpow_le (by push_cast; omega)), Or.inl (by norm_num)⟩
  · rw [max_eq_left hc]
    refine ⟨by push_cast; omega, ?_, Or.inr ?_⟩
    · have : floorLog2 |x| - (((24 : ℕ) : ℤ) - 1) + 24 = floorLog2 |x| + 1 := by push_cast; ring
      rw [this]; exact s1
    · have : floorLog2 |x| - (((24 : ℕ) : ℤ) - 1) + 23 = floorLog2 |x| := by push_cast; ring
      rw [this]; exact s0

/-- A binary32 value is an integer multiple of its quantum, with a mantissa
below `2 ^ 24`. -/
theorem float_repr (M : ℚ) (hM : toFloat M = M) :
    ∃ (m : ℤ) (j : ℤ), M = (m : ℚ) * (2 : ℚ) ^ j ∧ -149 ≤ j ∧ |M| < (2 : ℚ) ^ (j + 24) := by
  obtain ⟨m, hm, _⟩ := roundBinary_grid 24 (-126) M
  by_cases h0 : M = 0
  · exact ⟨0, -149, by simp [h0], le_refl _, by rw [h0, abs_zero]; exact two_zpow_pos _⟩
  · obtain ⟨a, b, _⟩ := quantum_float M h0
    refine ⟨m, quantum 24 (-126) M, ?_, a, b⟩
    rw [← hm]; exact hM.symm



/-- Rounding to binary32 does not cross a binary32 value: a value that is not
below the binary32 value `M`, up to a slack far below half a quantum, is not
rounded below `M`. -/
theorem toFloat_ge_of_near (M x : ℚ) (hM : toFloat M = M)
    (h : M - (|M| / 2 ^ 30 + 1 / 2 ^ 200) ≤ x) : M ≤ toFloat x := by
  obtain ⟨m, j, hMj, hj, hMlt⟩ := float_repr M hM
  obtain ⟨k, hk, hke⟩ := roundBinary_grid 24 (-126) x
  have hk' : toFloat x = (k : ℚ) * (2 : ℚ) ^ quantum 24 (-126) x := hk
  rw [hk']
  have hJ := two_zpow_pos j
  have hj149 : (1 : ℚ) / 2 ^ 149 ≤ (2 : ℚ) ^ j := by
    have := two_zpow_le hj
    norm_num at this ⊢
    linarith
  have hJ24 : (2 : ℚ) ^ (j + 24) = 2 ^ 24 * (2 : ℚ) ^ j := two_zpow_add_nat j 24
  have hMabs : |M| = ((|m| : ℤ) : ℚ) * (2 : ℚ) ^ j := by
    rw [hMj, abs_mul, abs_of_pos hJ, Int.cast_abs]
  -- the mantissa of M
  have hm24 : |m| ≤ 2 ^ 24 - 1 := by
    have h1 : ((|m| : ℤ) : ℚ) * (2 : ℚ) ^ j < 2 ^ 24 * (2 : ℚ) ^ j := by
      rw [← hJ24, ← hMabs]; exact hMlt
    have h2 : ((|m| : ℤ) : ℚ) < 2 ^ 24 := lt_of_mul_lt_mul_right h1 (le_of_lt hJ)
    have : |m| < 2 ^ 24 := by exact_mod_cast h2
    omega
  have hMle : |M| ≤ 16777215 * (2 : ℚ) ^ j := by
    rw [hMabs]
    apply mul_le_mul_of_nonneg_right _ (le_of_lt hJ)
    have : ((|m| : ℤ) : ℚ) ≤ ((2 ^ 24 - 1 : ℤ) : ℚ) := by exact_mod_cast hm24
    norm_num at this ⊢
    exact this
  have hMge : M ≠ 0 → (2 : ℚ) ^ j ≤ |M| := by
    intro hne
    have : m ≠ 0 := by
      intro h0; apply hne; rw [hMj, h0]; simp
    have h1 : 1 ≤ |m| := Int.one_le_abs this
    have h2 : ((1 : ℤ) : ℚ) ≤ ((|m| : ℤ) : ℚ) := by exact_mod_cast h1
    rw [hMabs]
    calc (2 : ℚ) ^ j = ((1 : ℤ) : ℚ) * (2 : ℚ) ^ j := by simp
      _ ≤ ((|m| : ℤ) : ℚ) * (2 : ℚ) ^ j := mul_le_mul_of_nonneg_right h2 (le_of_lt hJ)
  -- the grid of x
  have hqf : x ≠ 0 → -149 ≤ quantum 24 (-126) x ∧
      |x| < (2 : ℚ) ^ (quantum 24 (-126) x + 24) ∧
      (quantum 24 (-126) x = -149 ∨ (2 : ℚ) ^ (quantum 24 (-126) x + 23) ≤ |x|) :=
    quantum_float x
  have hq149 : -149 ≤ quantum 24 (-126) x := by
    have := quantum_ge_emin 24 (-126) x
    push_cast at this; omega
  generalize quantum 24 (-126) x = q at hk hke hk' hqf hq149 ⊢
  have hQ := two_zpow_pos q
  have hQ149 : (1 : ℚ) / 2 ^ 149 ≤ (2 : ℚ) ^ q := by
    have := two_zpow_le hq149
    norm_num at this ⊢
    linarith
  have hQ24 : (2 : ℚ) ^ (q + 24) = 2 ^ 24 * (2 : ℚ) ^ q := two_zpow_add_nat q 24
  have hQ23 : (2 : ℚ) ^ (q + 23) = 2 ^ 23 * (2 : ℚ) ^ q := two_zpow_add_nat q 23
  have hkx : x / (2 : ℚ) ^ q - 1 / 2 ≤ (k : ℚ) := by
    have := (abs_le.mp hke).1; linarith
  have hsig : (0 : ℚ) ≤ |M| / 2 ^ 30 + 1 / 2 ^ 200 := by positivity
  -- a lower bound on x in units of the quantum gives one on k
  have key : ∀ z : ℤ, (z : ℚ) * (2 : ℚ) ^ q - (2 : ℚ) ^ q / 2 < x →
      (z : ℚ) * (2 : ℚ) ^ q ≤ (k : ℚ) * (2 : ℚ) ^ q := by
    intro z hz
    have h1 : (z : ℚ) - 1 / 2 < x / (2 : ℚ) ^ q := by
      rw [lt_div_iff₀ hQ]; linarith
    have h2 : z ≤ k := int_le_of_sub_one_lt k z (by linarith)
    have h3 : (z : ℚ) ≤ (k : ℚ) := by exact_mod_cast h2
    exact mul_le_mul_of_nonneg_right h3 (le_of_lt hQ)
  rcases le_or_lt q j with hqj | hqj
  · -- the grid of x is at least as fine as that of M
    obtain ⟨n, hn⟩ := Int.eq_ofNat_of_zero_le (show 0 ≤ j - q by omega)
    have hjq : j = q + n := by omega
    have hJQ : (2 : ℚ) ^ j = 2 ^ n * (2 : ℚ) ^ q := by rw [hjq]; exact two_zpow_add_nat q n
    have hMZ : M = ((m * 2 ^ n : ℤ) : ℚ) * (2 : ℚ) ^ q := by
      rw [hMj, hJQ]; push_cast; ring
    rw [hMZ]
    apply key
    rw [← hMZ]
    rcases le_or_lt M x with hle | hlt
    · linarith
    · -- x is below M by the slack only
      have hbound : |M| < 2 ^ 25 * (2 : ℚ) ^ q := by
        rcases lt_trichotomy M 0 with hneg | hzero | hpos
        · have hx0 : x ≠ 0 := by intro h0; rw [h0] at hlt; linarith
          obtain ⟨_, b, _⟩ := hqf hx0
          rw [hQ24] at b
          have : |M| < |x| := by
            rw [abs_of_neg hneg, abs_of_neg (lt_trans hlt hneg)]; linarith
          linarith
        · rw [hzero, abs_zero]; positivity
        · have hM149 := hMge (ne_of_gt hpos)
          rw [abs_of_pos hpos] at hM149 h ⊢
          have hx2 : M / 2 ≤ x := by
            have : M / 2 ^ 30 + 1 / 2 ^ 200 ≤ M / 2 := by
              have : (1 : ℚ) / 2 ^ 200 ≤ M / 4 := by
                have : (1 : ℚ) / 2 ^ 200 ≤ (1 / 2 ^ 149) / 4 := by norm_num
                linarith
              have : M / 2 ^ 30 ≤ M / 4 := by
                apply div_le_div_of_nonneg_left (le_of_lt hpos) (by norm_num) (by norm_num)
              linarith
            linarith
          have hx0 : x ≠ 0 := by intro h0; rw [h0] at hx2; linarith
          obtain ⟨_, b, _⟩ := hqf hx0
          rw [hQ24, abs_of_pos (by linarith : (0 : ℚ) < x)] at b
          linarith
      have h1 : |M| / 2 ^ 30 < (2 : ℚ) ^ q / 4 := by
        rw [div_lt_iff₀ (by norm_num : (0 : ℚ) < 2 ^ 30)]
        have : (2 : ℚ) ^ 25 * (2 : ℚ) ^ q ≤ (2 : ℚ) ^ q / 4 * 2 ^ 30 := by
          have : (2 : ℚ) ^ q / 4 * 2 ^ 30 = 2 ^ 28 * (2 : ℚ) ^ q := by ring
          rw [this]
          apply mul_le_mul_of_nonneg_right (by norm_num) (le_of_lt hQ)
        linarith
      have h2 : (1 : ℚ) / 2 ^ 200 < (2 : ℚ) ^ q / 4 := by
        have : (1 : ℚ) / 2 ^ 200 < (1 / 2 ^ 149) / 4 := by norm_num
        linarith
      linarith
  · -- the grid of x is coarser than that of M: x is beyond the binade of M
    have hJQ : 2 * (2 : ℚ) ^ j ≤ (2 : ℚ) ^ q := by
      have := two_zpow_le (show j + 1 ≤ q by omega)
      rw [zpow_add_one₀ (by norm_num : (2 : ℚ) ≠ 0)] at this
      linarith
    have hq148 : q ≠ -149 := by omega
    have hMQ : |M| < 2 ^ 23 * (2 : ℚ) ^ q := by
      rw [hJ24] at hMlt
      have : (2 : ℚ) ^ 24 * (2 : ℚ) ^ j ≤ 2 ^ 23 * (2 : ℚ) ^ q := by
        have : (2 : ℚ) ^ 24 * (2 : ℚ) ^ j = 2 ^ 23 * (2 * (2 : ℚ) ^ j) := by ring
        rw [this]
        exact mul_le_mul_of_nonneg_left hJQ (by norm_num)
      linarith
    by_cases hx0 : x = 0
    · -- then M is at most the slack, hence not positive
      subst hx0
      have hk0 : (0 : ℚ) ≤ (k : ℚ) * (2 : ℚ) ^ q := by
        have := key 0 (by simp; exact hQ)
        simpa using this
      rcases le_or_lt M 0 with hle | hpos
      · linarith
      · exfalso
        have hM149 := hMge (ne_of_gt hpos)
        rw [abs_of_pos hpos] at hM149 h
        have : M / 2 ^ 30 ≤ M / 4 := by
          apply div_le_div_of_nonneg_left (le_of_lt hpos) (by norm_num) (by norm_num)
        have : (1 : ℚ) / 2 ^ 200 ≤ (1 / 2 ^ 149) / 4 := by norm_num
        linarith
    · obtain ⟨_, b, c⟩ := hqf hx0
      have c' : 2 ^ 23 * (2 : ℚ) ^ q ≤ |x| := by
        rcases c with c | c
        · exact absurd c hq148
        · rw [hQ23] at c; exact c
      rcases le_or_lt 0 x with hxpos | hxneg
      · -- x is positive and at least 2 ^ (q + 23), above M
        rw [abs_of_nonneg hxpos] at c'
        have h3 := key (2 ^ 23) (by push_cast; linarith)
        have : M ≤ |M| := le_abs_self M
        push_cast at h3
        linarith
      · exfalso
        rw [abs_of_neg hxneg] at c'
        -- x ≤ -2^(q+23) < -|M| - slack
        have hj2 : |M| / 2 ^ 30 + 1 / 2 ^ 200 < (2 : ℚ) ^ j := by
          have h1 : |M| / 2 ^ 30 ≤ (2 : ℚ) ^ j / 64 := by
            rw [div_le_iff₀ (by norm_num : (0 : ℚ) < 2 ^ 30)]
            have : (16777215 : ℚ) * (2 : ℚ) ^ j ≤ (2 : ℚ) ^ j / 64 * 2 ^ 30 := by
              have : (2 : ℚ) ^ j / 64 * 2 ^ 30 = 16777216 * (2 : ℚ) ^ j := by ring
              rw [this]
              apply mul_le_mul_of_nonneg_right (by norm_num) (le_of_lt hJ)
            linarith
          have h2 : (1 : ℚ) / 2 ^ 200 < (1 / 2 ^ 149) / 4 := by norm_num
          linarith
        have hMm : -|M| ≤ M := neg_abs_le M
        have : (2 : ℚ) ^ 24 * (2 : ℚ) ^ j ≤ 2 ^ 23 * (2 : ℚ) ^ q := by
          have : (2 : ℚ) ^ 24 * (2 : ℚ) ^ j = 2 ^ 23 * (2 * (2 : ℚ) ^ j) := by ring
          rw [this]
          exact mul_le_mul_of_nonneg_left hJQ (by norm_num)
        linarith

theorem toFloat_le_of_near (M x : ℚ) (hM : toFloat M = M)
    (h : x ≤ M + (|M| / 2 ^ 30 + 1 / 2 ^ 200)) : toFloat x ≤ M := by
  have hM' : toFloat (-M) = -M := by rw [toFloat_neg, hM]
  have := toFloat_ge_of_near (-M) (-x) hM' (by rw [abs_neg]; linarith)
  rw [toFloat_neg] at this
  linarith

/-! ## Lemmas: the arithmetic of the differential read -/

theorem toDouble_err_nat (x : ℚ) (n : ℕ) (h : |x| < (2 : ℚ) ^ n) :
    |toDouble x - x| ≤ (2 : ℚ) ^ n / 2 ^ 54 := by
  have := toDouble_err x ((n : ℤ) - 1) (by omega) (by
    rw [sub_add_cancel, zpow_natCast]; exact h)
  have e : (2 : ℚ) ^ ((n : ℤ) - 1 - 53) = (2 : ℚ) ^ n / 2 ^ 54 := by
    rw [show (n : ℤ) - 1 - 53 = (n : ℤ) - (54 : ℕ) by push_cast; ring,
      zpow_sub₀ (by norm_num : (2 : ℚ) ≠ 0), zpow_natCast, zpow_natCast]
  rw [e] at this
  exact this

theorem toFloat_err_nat (x : ℚ) (n : ℕ) (h : |x| < (2 : ℚ) ^ n) :
    |toFloat x - x| ≤ (2 : ℚ) ^ n / 2 ^ 25 := by
  have := toFloat_err x ((n : ℤ) - 1) (by omega) (by
    rw [sub_add_cancel, zpow_natCast]; exact h)
  have e : (2 : ℚ) ^ ((n : ℤ) - 1 - 24) = (2 : ℚ) ^ n / 2 ^ 25 := by
    rw [show (n : ℤ) - 1 - 24 = (n : ℤ) - (25 : ℕ) by push_cast; ring,
      zpow_sub₀ (by norm_num : (2 : ℚ) ≠ 0), zpow_natCast, zpow_natCast]
  rw [e] at this
  exact this

/-- The `double` constants of the differential read. -/
theorem double_constants :
    toDouble (4096 / 1000) = 1152921504606847 / 281474976710656 ∧
    toDouble (8192 / 1000) = 1152921504606847 / 140737488355328 ∧
    toDouble FILTER_COEFF = 4473560617855935 / 4503599627370496 ∧
    toDouble (1 - toDouble FILTER_COEFF) = 30039009514561 / 4503599627370496 := by
  refine ⟨?_, ?_, ?_, ?_⟩ <;> decide!

/-- An integer below `2 ^ 24` is a binary32 value. -/
theorem toFloat_natCast (r : Nat) (hr : r < 2 ^ 24) : toFloat (r : ℚ) = r := by
  have := roundBinary_exact 24 (-126) (r : ℤ) 0 (by norm_num) (by
    have : ((r : ℤ) : ℚ) < 2 ^ 24 := by exact_mod_cast hr
    have h0 : (0 : ℚ) ≤ ((r : ℤ) : ℚ) := by positivity
    rw [zpow_zero, mul_one, abs_of_nonneg h0]
    norm_num
    exact_mod_cast hr)
  simpa using this

/-- Bounds of a binary32 rounding near magnitude 4, on the grid `2 ^ -21`. -/
theorem toFloat_bounds (x : ℚ) (lo hi : ℤ) (hlo : (lo : ℚ) ≤ -8388609)
    (hhi : (8388609 : ℚ) ≤ hi) (h8 : |x| < 8) (h0 : (lo : ℚ) - 1 / 2 < x * 2 ^ 21)
    (h1 : x * 2 ^ 21 < (hi : ℚ) + 1 / 2) :
    (lo : ℚ) / 2 ^ 21 ≤ toFloat x ∧ toFloat x ≤ (hi : ℚ) / 2 ^ 21 := by
  rcases lt_or_le |x| 4 with h4 | h4
  · have e := toFloat_err_nat x 2 (by norm_num; exact h4)
    have ha := abs_lt.mp h4
    have hb := abs_le.mp e
    norm_num at hb
    constructor
    · rw [div_le_iff₀ (by norm_num : (0 : ℚ) < 2 ^ 21)]; norm_num; linarith
    · rw [le_div_iff₀ (by norm_num : (0 : ℚ) < 2 ^ 21)]; norm_num; linarith
  · have hq : quantum 24 (-126) x = -21 := by
      have := quantum_eq 24 (-126) x 2 (by norm_num) (by norm_num; exact h4) (by norm_num; exact h8)
      rw [this]; norm_num
    obtain ⟨k, hk, hke⟩ := roundBinary_grid 24 (-126) x
    have hk' : toFloat x = (k : ℚ) * (2 : ℚ) ^ quantum 24 (-126) x := hk
    rw [hq] at hk' hke
    have e21 : (2 : ℚ) ^ (-21 : ℤ) = 1 / 2 ^ 21 := by norm_num
    rw [e21] at hk' hke
    have hke' := abs_le.mp hke
    have hx : x / (1 / 2 ^ 21) = x * 2 ^ 21 := by field_simp
    rw [hx] at hke'
    have hklo : lo ≤ k := int_le_of_sub_one_lt k lo (by linarith)
    have hkhi : k ≤ hi := by
      have : -hi ≤ -k := int_le_of_sub_one_lt (-k) (-hi) (by push_cast; linarith)
      omega
    have a : (lo : ℚ) ≤ (k : ℚ) := by exact_mod_cast hklo
    have b : (k : ℚ) ≤ (hi : ℚ) := by exact_mod_cast hkhi
    rw [hk']
    constructor
    · rw [div_le_iff₀ (by norm_num : (0 : ℚ) < 2 ^ 21)]; norm_num; linarith
    · rw [le_div_iff₀ (by norm_num : (0 : ℚ) < 2 ^ 21)]; norm_num; linarith

/-- The `double` value that `rawToCap` stores in the `float`: within
`2 ^ -48` of the exact decoding. -/
theorem rawToCap_double (r : Nat) (hr : r < 2 ^ 24) :
    |toDouble (-toDouble (4096 / 1000)
      + toDouble (toDouble ((r : ℚ) * toDouble (8192 / 1000)) / ((1 <<< 24 : Nat) : ℚ)))
      - specDecode r| ≤ 1 / 2 ^ 48 := by
  obtain ⟨k4, k8, _, _⟩ := double_constants
  rw [k4, k8, show (1 <<< 24 : Nat) = 16777216 from rfl]
  push_cast
  have hr0 : (0 : ℚ) ≤ (r : ℚ) := Nat.cast_nonneg r
  have hr1 : (r : ℚ) ≤ 16777215 := by
    have : r ≤ 16777215 := by omega
    exact_mod_cast this
  set x1 : ℚ := (r : ℚ) * (1152921504606847 / 140737488355328) with hx1
  have e1 := toDouble_err_nat x1 28 (by
    rw [abs_of_nonneg (by positivity)]; norm_num [hx1]; linarith)
  have b1 := abs_le.mp e1
  set t1 := toDouble x1
  set x2 : ℚ := t1 / 16777216 with hx2
  have e2 := toDouble_err_nat x2 4 (by
    rw [abs_lt]; norm_num [hx2, hx1] at b1 ⊢; constructor <;> linarith)
  have b2 := abs_le.mp e2
  set t2 := toDouble x2
  set x3 : ℚ := -(1152921504606847 / 281474976710656) + t2 with hx3
  have e3 := toDouble_err_nat x3 3 (by
    rw [abs_lt]; norm_num [hx3, hx2, hx1] at b1 b2 ⊢; constructor <;> linarith)
  have b3 := abs_le.mp e3
  rw [abs_le]
  simp only [specDecode]
  norm_num [hx3, hx2, hx1] at b1 b2 b3 ⊢
  constructor <;> linarith


theorem rawToCap_eq (r : Nat) (hr : r < 2 ^ 24) :
    rawToCap r = toFloat (toDouble (-toDouble (4096 / 1000)
      + toDouble (toDouble ((r : ℚ) * toDouble (8192 / 1000)) / ((1 <<< 24 : Nat) : ℚ)))) := by
  simp only [rawToCap, toFloat_natCast r hr]

theorem specDecode_range (r : Nat) (hr : r < 2 ^ 24) :
    -4096 / 1000 ≤ specDecode r ∧ specDecode r ≤ 4096 / 1000 - 8192 / 1000 / 2 ^ 24 := by
  have hr0 : (0 : ℚ) ≤ (r : ℚ) := Nat.cast_nonneg r
  have hr1 : (r : ℚ) ≤ 16777215 := by
    have : r ≤ 16777215 := by omega
    exact_mod_cast this
  simp only [specDecode]
  constructor <;> norm_num <;> linarith

/-- The decoded reading is within `2 ^ -22 + 2 ^ -48` of the exact decoding. -/
theorem rawToCap_err (r : Nat) (hr : r < 2 ^ 24) :
    |rawToCap r - specDecode r| ≤ 1 / 2 ^ 22 + 1 / 2 ^ 48 := by
  have hd := abs_le.mp (rawToCap_double r hr)
  obtain ⟨s0, s1⟩ := specDecode_range r hr
  rw [rawToCap_eq r hr]
  set D := toDouble (-toDouble (4096 / 1000)
    + toDouble (toDouble ((r : ℚ) * toDouble (8192 / 1000)) / ((1 <<< 24 : Nat) : ℚ)))
  have e := toFloat_err_nat D 3 (by
    rw [abs_lt]; norm_num at hd s0 s1 ⊢; constructor <;> linarith)
  have b := abs_le.mp e
  rw [abs_le]
  norm_num at hd b ⊢
  constructor <;> linarith

/-- The decoded reading lies between the binary32 values next to -4.096 and
4.096. -/
theorem rawToCap_range (r : Nat) (hr : r < 2 ^ 24) :
    -8589935 / 2 ^ 21 ≤ rawToCap r ∧ rawToCap r ≤ 8589934 / 2 ^ 21 := by
  have hd := abs_le.mp (rawToCap_double r hr)
  obtain ⟨s0, s1⟩ := specDecode_range r hr
  rw [rawToCap_eq r hr]
  set D := toDouble (-toDouble (4096 / 1000)
    + toDouble (toDouble ((r : ℚ) * toDouble (8192 / 1000)) / ((1 <<< 24 : Nat) : ℚ)))
  have := toFloat_bounds D (-8589935) 8589934 (by norm_num) (by norm_num)
    (by rw [abs_lt]; norm_num at hd s0 s1 ⊢; constructor <;> linarith)
    (by norm_num at hd s0 s1 ⊢; linarith) (by norm_num at hd s0 s1 ⊢; linarith)
  norm_num at this ⊢
  exact this

theorem rawToCap_float (r : Nat) : toFloat (rawToCap r) = rawToCap r := by
  simp only [rawToCap, toFloat_idem]

theorem filterUpdate_float (f c : ℚ) : toFloat (filterUpdate f c) = filterUpdate f c := by
  simp only [filterUpdate, toFloat_idem]

/-- The `double` value that `filterUpdate` stores in the `float`. -/
theorem filterUpdate_double (f c : ℚ) (hf : |f| ≤ 41 / 10) (hc : |c| ≤ 41 / 10) :
    |toDouble (toDouble (toDouble FILTER_COEFF * f)
      + toDouble (toDouble (1 - toDouble FILTER_COEFF) * c))
      - (4473560617855935 / 4503599627370496 * f + 30039009514561 / 4503599627370496 * c)|
      ≤ 3 / 2 ^ 51 := by
  obtain ⟨_, _, ka, kb⟩ := double_constants
  rw [kb, ka]
  have hf' := abs_le.mp hf
  have hc' := abs_le.mp hc
  set x1 : ℚ := 4473560617855935 / 4503599627370496 * f with hx1
  have e1 := toDouble_err_nat x1 3 (by
    rw [abs_lt]; norm_num [hx1]; constructor <;> linarith)
  have b1 := abs_le.mp e1
  set p1 := toDouble x1
  set x2 : ℚ := 30039009514561 / 4503599627370496 * c with hx2
  have e2 := toDouble_err_nat x2 3 (by
    rw [abs_lt]; norm_num [hx2]; constructor <;> linarith)
  have b2 := abs_le.mp e2
  set p2 := toDouble x2
  have e3 := toDouble_err_nat (p1 + p2) 3 (by
    rw [abs_lt]; norm_num [hx1, hx2] at b1 b2 ⊢; constructor <;> linarith)
  have b3 := abs_le.mp e3
  rw [abs_le]
  norm_num [hx1, hx2] at b1 b2 b3 ⊢
  constructor <;> linarith

/-- The filter update keeps the filter between the binary32 values next to
-4.096 and 4.096 on the inside. -/
theorem filterUpdate_range (f c : ℚ) (hf0 : -8589934 / 2 ^ 21 ≤ f) (hf1 : f ≤ 8589934 / 2 ^ 21)
    (hc0 : -8589935 / 2 ^ 21 ≤ c) (hc1 : c ≤ 8589934 / 2 ^ 21) :
    -8589934 / 2 ^ 21 ≤ filterUpdate f c ∧ filterUpdate f c ≤ 8589934 / 2 ^ 21 := by
  have hd := abs_le.mp (filterUpdate_double f c
    (by rw [abs_le]; norm_num at hf0 hf1 ⊢; constructor <;> linarith)
    (by rw [abs_le]; norm_num at hc0 hc1 ⊢; constructor <;> linarith))
  simp only [filterUpdate]
  set D := toDouble (toDouble (toDouble FILTER_COEFF * f)
      + toDouble (toDouble (1 - toDouble FILTER_COEFF) * c))
  have := toFloat_bounds D (-8589934) 8589934 (by norm_num) (by norm_num)
    (by rw [abs_lt]; norm_num at hd hf0 hf1 hc0 hc1 ⊢; constructor <;> linarith)
    (by norm_num at hd hf0 hf1 hc0 hc1 ⊢; linarith)
    (by norm_num at hd hf0 hf1 hc0 hc1 ⊢; linarith)
  norm_num at this ⊢
  exact this

/-- The filter update is within `1 / 4000000` of the exact update with the
exact decoding of the reading. -/
theorem filterUpdate_err (f : ℚ) (r : Nat) (hf : |f| ≤ 41 / 10) (hr : r < 2 ^ 24) :
    |filterUpdate f (rawToCap r) - specFilter f (specDecode r)| ≤ 1 / 4000000 := by
  obtain ⟨c0, c1⟩ := rawToCap_range r hr
  have hce := abs_le.mp (rawToCap_err r hr)
  obtain ⟨s0, s1⟩ := specDecode_range r hr
  have hf' := abs_le.mp hf
  have hd := abs_le.mp (filterUpdate_double f (rawToCap r) hf
    (by rw [abs_le]; norm_num at c0 c1 ⊢; constructor <;> linarith))
  simp only [filterUpdate, specFilter, FILTER_COEFF] at hd ⊢
  set c := rawToCap r
  set v := specDecode r
  set D := toDouble (toDouble (toDouble (99333 / 100000) * f)
      + toDouble (toDouble (1 - toDouble (99333 / 100000)) * c))
  have e := toFloat_err_nat D 3 (by
    rw [abs_lt]; norm_num at hd c0 c1 ⊢; constructor <;> linarith)
  have b := abs_le.mp e
  rw [abs_le]
  norm_num at hd b hce c0 c1 s0 s1 ⊢
  constructor <;> linarith

theorem toDouble_err_rel (x : ℚ) : |toDouble x - x| ≤ |x| / 2 ^ 53 + 1 / 2 ^ 1075 := by
  have := roundBinary_err_rel 53 (-1022) x
  have e : (2 : ℚ) ^ ((-1022 : ℤ) - ((53 : ℕ) : ℤ)) = 1 / 2 ^ 1075 := by norm_num
  rw [e] at this
  exact this

/-- The `double` value that `filterUpdate` stores in the `float`, with a
relative bound. -/
theorem filterUpdate_double_rel (f c : ℚ) :
    |toDouble (toDouble (toDouble FILTER_COEFF * f)
      + toDouble (toDouble (1 - toDouble FILTER_COEFF) * c))
      - (4473560617855935 / 4503599627370496 * f + 30039009514561 / 4503599627370496 * c)|
      ≤ (|f| + |c|) / 2 ^ 51 + 1 / 2 ^ 1073 := by
  obtain ⟨_, _, ka, kb⟩ := double_constants
  rw [kb, ka]
  have hf0 := abs_nonneg f
  have hc0 := abs_nonneg c
  set x1 : ℚ := 4473560617855935 / 4503599627370496 * f with hx1
  have a1 : |x1| ≤ |f| := by
    rw [hx1, abs_mul, abs_of_pos (by norm_num : (0 : ℚ) < 4473560617855935 / 4503599627370496)]
    linarith
  have e1 := toDouble_err_rel x1
  set p1 := toDouble x1
  set x2 : ℚ := 30039009514561 / 4503599627370496 * c with hx2
  have a2 : |x2| ≤ |c| := by
    rw [hx2, abs_mul, abs_of_pos (by norm_num : (0 : ℚ) < 30039009514561 / 4503599627370496)]
    linarith
  have e2 := toDouble_err_rel x2
  set p2 := toDouble x2
  have e3 := toDouble_err_rel (p1 + p2)
  have a3 : |p1 + p2| ≤ |x1| + |x2| + |p1 - x1| + |p2 - x2| := by
    have h1 : p1 + p2 = x1 + x2 + (p1 - x1) + (p2 - x2) := by ring
    rw [h1]
    exact le_trans (abs_add _ _) (add_le_add (le_trans (abs_add _ _)
      (add_le_add (abs_add _ _) le_rfl)) le_rfl)
  have a4 : |toDouble (p1 + p2) - (x1 + x2)|
      ≤ |toDouble (p1 + p2) - (p1 + p2)| + |p1 - x1| + |p2 - x2| := by
    have h1 : toDouble (p1 + p2) - (x1 + x2)
        = (toDouble (p1 + p2) - (p1 + p2)) + (p1 - x1) + (p2 - x2) := by ring
    rw [h1]
    exact le_trans (abs_add _ _) (add_le_add (abs_add _ _) le_rfl)
  have n1 : (0 : ℚ) ≤ |p1 - x1| := abs_nonneg _
  have n2 : (0 : ℚ) ≤ |p2 - x2| := abs_nonneg _
  have n3 : (0 : ℚ) ≤ |x1| := abs_nonneg _
  have n4 : (0 : ℚ) ≤ |x2| := abs_nonneg _
  have goal : |toDouble (p1 + p2) - (x1 + x2)| ≤ (|f| + |c|) / 2 ^ 51 + 1 / 2 ^ 1073 := by
    norm_num at e1 e2 e3 ⊢
    linarith
  exact goal


/-- The filter update of two binary32 values lies between them. -/
theorem filterUpdate_between (f c : ℚ) (hf : toFloat f = f) (hc : toFloat c = c) :
    min f c ≤ filterUpdate f c ∧ filterUpdate f c ≤ max f c := by
  have hd := abs_le.mp (filterUpdate_double_rel f c)
  simp only [filterUpdate]
  set D := toDouble (toDouble (toDouble FILTER_COEFF * f)
      + toDouble (toDouble (1 - toDouble FILTER_COEFF) * c))
  have tiny : (1 : ℚ) / 2 ^ 1073 ≤ 1 / 2 ^ 200 := by norm_num
  have af := abs_nonneg f
  have ac := abs_nonneg c
  rcases le_total f c with h | h
  · rw [min_eq_left h, max_eq_right h]
    have s1 : |c| ≤ |f| + (c - f) := by
      rcases abs_cases c with ⟨e, _⟩ | ⟨e, _⟩ <;> rcases abs_cases f with ⟨e', _⟩ | ⟨e', _⟩ <;>
        rw [e, e'] <;> linarith
    have s2 : |f| ≤ |c| + (c - f) := by
      rcases abs_cases c with ⟨e, _⟩ | ⟨e, _⟩ <;> rcases abs_cases f with ⟨e', _⟩ | ⟨e', _⟩ <;>
        rw [e, e'] <;> linarith
    constructor
    · apply toFloat_ge_of_near f D hf
      norm_num at hd ⊢
      linarith
    · apply toFloat_le_of_near c D hc
      norm_num at hd ⊢
      linarith
  · rw [min_eq_right h, max_eq_left h]
    have s1 : |c| ≤ |f| + (f - c) := by
      rcases abs_cases c with ⟨e, _⟩ | ⟨e, _⟩ <;> rcases abs_cases f with ⟨e', _⟩ | ⟨e', _⟩ <;>
        rw [e, e'] <;> linarith
    have s2 : |f| ≤ |c| + (f - c) := by
      rcases abs_cases c with ⟨e, _⟩ | ⟨e, _⟩ <;> rcases abs_cases f with ⟨e', _⟩ | ⟨e', _⟩ <;>
        rw [e, e'] <;> linarith
    constructor
    · apply toFloat_ge_of_near c D hc
      norm_num at hd ⊢
      linarith
    · apply toFloat_le_of_near f D hf
      norm_num at hd ⊢
      linarith

/-- The binary32 values in [-4.096, 4.096) are those between
-8589934 / 2^21 and 8589934 / 2^21. -/
theorem float_range (f : ℚ) (hf : toFloat f = f) (h0 : -4096 / 1000 ≤ f)
    (h1 : f < 4096 / 1000) : -8589934 / 2 ^ 21 ≤ f ∧ f ≤ 8589934 / 2 ^ 21 := by
  rcases lt_or_le |f| 4 with h4 | h4
  · have := abs_lt.mp h4
    constructor <;> norm_num <;> linarith
  · have hq : quantum 24 (-126) f = -21 := by
      have := quantum_eq 24 (-126) f 2 (by norm_num) (by norm_num; exact h4)
        (by norm_num; rw [abs_lt]; constructor <;> linarith)
      rw [this]; norm_num
    obtain ⟨k, hk, _⟩ := roundBinary_grid 24 (-126) f
    have hk' : toFloat f = (k : ℚ) * (2 : ℚ) ^ quantum 24 (-126) f := hk
    rw [hq, hf, show (2 : ℚ) ^ (-21 : ℤ) = 1 / 2 ^ 21 by norm_num] at hk'
    have hklo : -8589934 ≤ k := by
      apply int_le_of_sub_one_lt
      rw [hk'] at h0
      norm_num at h0 ⊢
      linarith
    have hkhi : k ≤ 8589934 := by
      have : -8589934 ≤ -k := by
        apply int_le_of_sub_one_lt
        rw [hk'] at h1
        push_cast
        norm_num at h1 ⊢
        linarith
      omega
    have a : ((-8589934 : ℤ) : ℚ) ≤ (k : ℚ) := by exact_mod_cast hklo
    have b : (k : ℚ) ≤ ((8589934 : ℤ) : ℚ) := by exact_mod_cast hkhi
    rw [hk']
    push_cast at a b
    constructor <;> norm_num <;> linarith

/-- The `float` value that `capToRaw` converts to an integer: within
`1 / 2 + 2 ^ -20` of the exact scaled value. -/
theorem capToRaw_float (f : ℚ) (hf0 : -8589934 / 2 ^ 21 ≤ f) (hf1 : f ≤ 8589934 / 2 ^ 21) :
    |toFloat (toDouble (toDouble (toDouble (f + toDouble (4096 / 1000))
      * ((1 <<< 24 : Nat) : ℚ)) / toDouble (8192 / 1000)))
      - (f + 4096 / 1000) * 2 ^ 24 / (8192 / 1000)| ≤ 1 / 2 + 1 / 2 ^ 20 := by
  obtain ⟨k4, k8, _, _⟩ := double_constants
  rw [k4, k8, show (1 <<< 24 : Nat) = 16777216 from rfl]
  push_cast
  set x1 : ℚ := f + 1152921504606847 / 281474976710656 with hx1
  have e1 := toDouble_err_nat x1 4 (by
    rw [abs_lt]; norm_num [hx1] at hf0 hf1 ⊢; constructor <;> linarith)
  have b1 := abs_le.mp e1
  set u1 := toDouble x1
  set x2 : ℚ := u1 * 16777216 with hx2
  have e2 := toDouble_err_nat x2 28 (by
    rw [abs_lt]; norm_num [hx2, hx1] at b1 hf0 hf1 ⊢; constructor <;> linarith)
  have b2 := abs_le.mp e2
  set u2 := toDouble x2
  set x3 : ℚ := u2 / (1152921504606847 / 140737488355328) with hx3
  have e3 := toDouble_err_nat x3 25 (by
    rw [abs_lt]; norm_num [hx3, hx2, hx1] at b1 b2 hf0 hf1 ⊢; constructor <;> linarith)
  have b3 := abs_le.mp e3
  set u3 := toDouble x3
  have e4 := toFloat_err_nat u3 24 (by
    rw [abs_lt]; norm_num [hx3, hx2, hx1] at b1 b2 b3 hf0 hf1 ⊢; constructor <;> linarith)
  have b4 := abs_le.mp e4
  rw [abs_le]
  norm_num [hx3, hx2, hx1] at b1 b2 b3 b4 hf0 hf1 ⊢
  constructor <;> linarith

/-- The re-encoded integer of a filter value in range: the floor of the
`float` value, below `2 ^ 24`, and within 1 of the exact encoding. -/
theorem capToRaw_range (f : ℚ) (hf0 : -8589934 / 2 ^ 21 ≤ f) (hf1 : f ≤ 8589934 / 2 ^ 21) :
    capToRaw f < 2 ^ 24 ∧ |(capToRaw f : ℤ) - specEncode f| ≤ 1 := by
  have hc := abs_le.mp (capToRaw_float f hf0 hf1)
  simp only [capToRaw, toUint32, specEncode]
  set c2 := toFloat (toDouble (toDouble (toDouble (f + toDouble (4096 / 1000))
      * ((1 <<< 24 : Nat) : ℚ)) / toDouble (8192 / 1000)))
  set X : ℚ := (f + 4096 / 1000) * 2 ^ 24 / (8192 / 1000) with hX
  have hX0 : (1 : ℚ) / 2 + 1 / 2 ^ 4 ≤ X := by
    norm_num [hX] at hf0 ⊢; linarith
  have hX1 : X ≤ 16777215 + 1 / 2 - 1 / 2 ^ 4 := by
    norm_num [hX] at hf1 ⊢; linarith
  have hfl : Rat.floor c2 = ⌊c2⌋ := rfl
  rw [hfl]
  have f0 : (⌊c2⌋ : ℚ) ≤ c2 := Int.floor_le c2
  have f1 : c2 < (⌊c2⌋ : ℚ) + 1 := Int.lt_floor_add_one c2
  have g0 : (⌊X⌋ : ℚ) ≤ X := Int.floor_le X
  have g1 : X < (⌊X⌋ : ℚ) + 1 := Int.lt_floor_add_one X
  have hn0 : 0 ≤ ⌊c2⌋ := by
    apply Int.floor_nonneg.mpr
    norm_num at hc hX0 ⊢; linarith
  have hn1 : ⌊c2⌋ ≤ 16777215 := by
    have : (⌊c2⌋ : ℚ) < 16777215 + 1 := by norm_num at hc hX1 f0 ⊢; linarith
    have : ⌊c2⌋ < 16777215 + 1 := by exact_mod_cast this
    omega
  have hd0 : ⌊X⌋ - 1 ≤ ⌊c2⌋ := by
    have : ((⌊X⌋ - 1 - 1 : ℤ) : ℚ) < (⌊c2⌋ : ℚ) := by
      push_cast; norm_num at hc ⊢; linarith
    have : ⌊X⌋ - 1 - 1 < ⌊c2⌋ := by exact_mod_cast this
    omega
  have hd1 : ⌊c2⌋ ≤ ⌊X⌋ + 1 := by
    have : (⌊c2⌋ : ℚ) < ((⌊X⌋ + 1 + 1 : ℤ) : ℚ) := by
      push_cast; norm_num at hc ⊢; linarith
    have : ⌊c2⌋ < ⌊X⌋ + 1 + 1 := by exact_mod_cast this
    omega
  have hmod : ⌊c2⌋.toNat % 2 ^ 32 = ⌊c2⌋.toNat := Nat.mod_eq_of_lt (by omega)
  rw [hmod]
  constructor
  · omega
  · rw [Int.toNat_of_nonneg hn0, abs_le]
    constructor <;> omega

/-! ## Lemmas: the differential read and the filter -/

theorem rawOfReply_eq (data : List Nat) :
    rawOfReply data = data.getD 0 0 * 65536 + data.getD 1 0 * 256 + data.getD 2 0 := by
  simp [rawOfReply, Nat.shiftLeft_eq]

/-- A successful differential read: the filter of the channel takes the
update of its previous value with the capacitance of the raw reading. -/
theorem readAD7746_filter (hal : Hal) (s : Sys) (d : Fin MAX_SENSORS)
    (hok : (hal.i2cReply s.xfers).ok = true) :
    (readAD7746 hal s .adcsC2D1 d).sys.filter d =
      ⟨filterUpdate (s.filter d).cprev (rawToCap (rawOfReply (hal.i2cReply s.xfers).data)),
       filterUpdate (s.filter d).cprev (rawToCap (rawOfReply (hal.i2cReply s.xfers).data))⟩ := by
  simp [readAD7746, I2C_transfer, hok, Sys.storeSensor, Semaphore_pend, Semaphore_post,
    filterUpdate, rawToCap, rawOfReply]

/-- A successful differential read: the block of the channel after the read. -/
theorem readAD7746_block (hal : Hal) (s : Sys) (d : Fin MAX_SENSORS)
    (hok : (hal.i2cReply s.xfers).ok = true) :
    (readAD7746 hal s .adcsC2D1 d).sys.spiMessageOut.sensor d =
      { s.spiMessageOut.sensor d with
        diffCapHigh := (hal.i2cReply s.xfers).data.getD 0 0
        diffCapMid := (hal.i2cReply s.xfers).data.getD 1 0
        diffCapLow := (hal.i2cReply s.xfers).data.getD 2 0
        filtCapHigh := (capToRaw (filterUpdate (s.filter d).cprev
          (rawToCap (rawOfReply (hal.i2cReply s.xfers).data))) >>> 16) &&& 0xFF
        filtCapMid := (capToRaw (filterUpdate (s.filter d).cprev
          (rawToCap (rawOfReply (hal.i2cReply s.xfers).data))) >>> 8) &&& 0xFF
        filtCapLow := capToRaw (filterUpdate (s.filter d).cprev
          (rawToCap (rawOfReply (hal.i2cReply s.xfers).data))) &&& 0xFF
        chiptempHigh := (hal.i2cReply s.xfers).data.getD 3 0
        chiptempMid := (hal.i2cReply s.xfers).data.getD 4 0
        chiptempLow := (hal.i2cReply s.xfers).data.getD 5 0 } := by
  simp [readAD7746, I2C_transfer, hok, Sys.storeSensor, Semaphore_pend, Semaphore_post,
    filterUpdate, rawToCap, rawOfReply, capToRaw]

theorem rawOfReply_lt (data : List Nat) (h : ∀ k, data.getD k 0 < 256) :
    rawOfReply data < 2 ^ 24 := by
  rw [rawOfReply_eq]
  have h0 := h 0
  have h1 := h 1
  have h2 := h 2
  omega

theorem bytes_of_24 (n : Nat) (h : n < 2 ^ 24) :
    ((n >>> 16) &&& 0xFF) * 65536 + ((n >>> 8) &&& 0xFF) * 256 + (n &&& 0xFF) = n := by
  show ((n >>> 16) &&& (2 ^ 8 - 1)) * 65536 + ((n >>> 8) &&& (2 ^ 8 - 1)) * 256
    + (n &&& (2 ^ 8 - 1)) = n
  simp only [Nat.and_pow_two_sub_one_eq_mod, Nat.shiftRight_eq_div_pow]
  omega

/-! ## Theorems: capacitance conversion, filter and frame layout -/

/-- C17, the claim as stated fails: after boot (filter at 0) a successful
differential read of 00 00 00 sets the filter to -7333743 / 2^28, which is not
a * 0 + (1 - a) * (-4.096 + 0 * 8.192 / 2^24), and stores the filtered bytes
7F 25 70, which are not the encoding 7F 25 6F of
floor((current + 4.096) * 2^24 / 8.192). -/
theorem differential_read_not_exact :
    ((readAD7746 (Hal.allOk [0, 0, 0, 1, 2, 3]) Sys.boot .adcsC2D1 0).sys.filter 0).c
      = -7333743 / 268435456 ∧
    ((readAD7746 (Hal.allOk [0, 0, 0, 1, 2, 3]) Sys.boot .adcsC2D1 0).sys.filter 0).c
      ≠ specFilter (Sys.boot.filter 0).cprev (specDecode 0) ∧
    ((readAD7746 (Hal.allOk [0, 0, 0, 1, 2, 3]) Sys.boot .adcsC2D1
      0).sys.spiMessageOut.sensor 0).filtCapHigh = 0x7F ∧
    ((readAD7746 (Hal.allOk [0, 0, 0, 1, 2, 3]) Sys.boot .adcsC2D1
      0).sys.spiMessageOut.sensor 0).filtCapMid = 0x25 ∧
    ((readAD7746 (Hal.allOk [0, 0, 0, 1, 2, 3]) Sys.boot .adcsC2D1
      0).sys.spiMessageOut.sensor 0).filtCapLow = 0x70 ∧
    specEncode ((readAD7746 (Hal.allOk [0, 0, 0, 1, 2, 3]) Sys.boot .adcsC2D1
      0).sys.filter 0).c = 0x7F256F := by
  refine ⟨?_, ?_, ?_, ?_, ?_, ?_⟩ <;> decide!

/-- C17, amended: a successful differential read with raw bytes b0, b1, b2 and
r = b0 * 65536 + b1 * 256 + b2 returns 0, stores b0, b1, b2 in the three raw
differential bytes of the channel, and sets the filter (current and previous
value) to the binary32 value of a * previous + (1 - a) * c, where c is the
binary32 value of -4.096 + r * 8.192 / 2^24, both evaluated in double
precision (`filterUpdate`, `rawToCap`). The three filtered bytes are the bytes
16..23, 8..15 and 0..7 of the integer obtained by truncating the binary32 value
of (current + 4.096) * 2^24 / 8.192 (`capToRaw`). When the bytes are below 256
and previous is a binary32 value in [-4.096, 4.096), the new value is within
1 / 4000000 of the exact a * previous + (1 - a) * (-4.096 + r * 8.192 / 2^24),
the integer is below 2^24 and within 1 of
floor((current + 4.096) * 2^24 / 8.192), and the three filtered bytes are its
big-endian 24-bit encoding. -/
theorem readAD7746_differential_read (hal : Hal) (s : Sys) (d : Fin MAX_SENSORS)
    (hok : (hal.i2cReply s.xfers).ok = true) :
    let b0 := (hal.i2cReply s.xfers).data.getD 0 0
    let b1 := (hal.i2cReply s.xfers).data.getD 1 0
    let b2 := (hal.i2cReply s.xfers).data.getD 2 0
    let r := b0 * 65536 + b1 * 256 + b2
    let out := readAD7746 hal s .adcsC2D1 d
    let cur := (out.sys.filter d).c
    out.val = 0 ∧
    (out.sys.spiMessageOut.sensor d).diffCapHigh = b0 ∧
    (out.sys.spiMessageOut.sensor d).diffCapMid = b1 ∧
    (out.sys.spiMessageOut.sensor d).diffCapLow = b2 ∧
    cur = filterUpdate (s.filter d).cprev (rawToCap r) ∧
    (out.sys.filter d).cprev = cur ∧
    (out.sys.spiMessageOut.sensor d).filtCapHigh = (capToRaw cur >>> 16) &&& 0xFF ∧
    (out.sys.spiMessageOut.sensor d).filtCapMid = (capToRaw cur >>> 8) &&& 0xFF ∧
    (out.sys.spiMessageOut.sensor d).filtCapLow = capToRaw cur &&& 0xFF ∧
    (b0 < 256 → b1 < 256 → b2 < 256 → toFloat (s.filter d).cprev = (s.filter d).cprev →
      -4096 / 1000 ≤ (s.filter d).cprev → (s.filter d).cprev < 4096 / 1000 →
      |cur - specFilter (s.filter d).cprev (specDecode r)| ≤ 1 / 4000000 ∧
      capToRaw cur < 2 ^ 24 ∧
      |(capToRaw cur : ℤ) - specEncode cur| ≤ 1 ∧
      (out.sys.spiMessageOut.sensor d).filtCapHigh = capToRaw cur / 65536 ∧
      (out.sys.spiMessageOut.sensor d).filtCapMid = capToRaw cur / 256 % 256 ∧
      (out.sys.spiMessageOut.sensor d).filtCapLow = capToRaw cur % 256) := by
  intro b0 b1 b2 r out cur
  have hfilt := readAD7746_filter hal s d hok
  have hblock := readAD7746_block hal s d hok
  have hraw : rawOfReply (hal.i2cReply s.xfers).data = r := rawOfReply_eq _
  rw [hraw] at hfilt hblock
  have hcur : cur = filterUpdate (s.filter d).cprev (rawToCap r) := by
    show ((readAD7746 hal s .adcsC2D1 d).sys.filter d).c = _
    rw [hfilt]
  have hH : (out.sys.spiMessageOut.sensor d).filtCapHigh = (capToRaw cur >>> 16) &&& 0xFF := by
    show ((readAD7746 hal s .adcsC2D1 d).sys.spiMessageOut.sensor d).filtCapHigh = _
    rw [hblock, hcur]
  have hM : (out.sys.spiMessageOut.sensor d).filtCapMid = (capToRaw cur >>> 8) &&& 0xFF := by
    show ((readAD7746 hal s .adcsC2D1 d).sys.spiMessageOut.sensor d).filtCapMid = _
    rw [hblock, hcur]
  have hL : (out.sys.spiMessageOut.sensor d).filtCapLow = capToRaw cur &&& 0xFF := by
    show ((readAD7746 hal s .adcsC2D1 d).sys.spiMessageOut.sensor d).filtCapLow = _
    rw [hblock, hcur]
  refine ⟨?_, ?_, ?_, ?_, hcur, ?_, hH, hM, hL, ?_⟩
  · simp [out, readAD7746, I2C_transfer, hok]
  · show ((readAD7746 hal s .adcsC2D1 d).sys.spiMessageOut.sensor d).diffCapHigh = b0
    rw [hblock]
  · show ((readAD7746 hal s .adcsC2D1 d).sys.spiMessageOut.sensor d).diffCapMid = b1
    rw [hblock]
  · show ((readAD7746 hal s .adcsC2D1 d).sys.spiMessageOut.sensor d).diffCapLow = b2
    rw [hblock]
  · show ((readAD7746 hal s .adcsC2D1 d).sys.filter d).cprev
      = ((readAD7746 hal s .adcsC2D1 d).sys.filter d).c
    rw [hfilt]
  · intro h0 h1 h2 hfl hlo hhi
    have hr : r < 2 ^ 24 := by omega
    obtain ⟨p0, p1⟩ := float_range _ hfl hlo hhi
    obtain ⟨c0, c1⟩ := rawToCap_range r hr
    have herr := filterUpdate_err (s.filter d).cprev r
      (by rw [abs_le]; norm_num at p0 p1 ⊢; constructor <;> linarith) hr
    obtain ⟨f0, f1⟩ := filterUpdate_range _ _ p0 p1 c0 c1
    rw [← hcur] at herr f0 f1
    obtain ⟨n0, n1⟩ := capToRaw_range cur f0 f1
    refine ⟨herr, n0, n1, ?_, ?_, ?_⟩
    · rw [hH]
      show (_ >>> 16) &&& (2 ^ 8 - 1) = _
      rw [Nat.and_pow_two_sub_one_eq_mod, Nat.shiftRight_eq_div_pow]
      omega
    · rw [hM]
      show (_ >>> 8) &&& (2 ^ 8 - 1) = _
      rw [Nat.and_pow_two_sub_one_eq_mod, Nat.shiftRight_eq_div_pow]
    · rw [hL]
      show _ &&& (2 ^ 8 - 1) = _
      rw [Nat.and_pow_two_sub_one_eq_mod]

/-- C17 amended, at a concrete input: after boot (filter at 0), a read of
channel 2 that returns C0 00 00 stores C0 00 00 as raw bytes, sets the filter
to 7333743 / 2^29 (within 1 / 4000000 of 0.00667 * 2.048), and stores the
filtered bytes 80 6D 48. -/
theorem readAD7746_differential_read_witness :
    (readAD7746 (Hal.allOk [0xC0, 0, 0, 1, 2, 3]) Sys.boot .adcsC2D1 2).val = 0 ∧
    ((readAD7746 (Hal.allOk [0xC0, 0, 0, 1, 2, 3]) Sys.boot .adcsC2D1 2).sys.filter 2).c
      = 7333743 / 536870912 ∧
    |((readAD7746 (Hal.allOk [0xC0, 0, 0, 1, 2, 3]) Sys.boot .adcsC2D1 2).sys.filter 2).c
      - 667 / 100000 * (2048 / 1000)| ≤ 1 / 4000000 ∧
    capToRaw ((readAD7746 (Hal.allOk [0xC0, 0, 0, 1, 2, 3]) Sys.boot .adcsC2D1
      2).sys.filter 2).c = 0x806D48 ∧
    ((readAD7746 (Hal.allOk [0xC0, 0, 0, 1, 2, 3]) Sys.boot .adcsC2D1
      2).sys.spiMessageOut.sensor 2).filtCapHigh = 0x80 := by
  have h := readAD7746_differential_read (Hal.allOk [0xC0, 0, 0, 1, 2, 3]) Sys.boot 2 rfl
  obtain ⟨hv, _, _, _, _, _, _, _, _, hb⟩ := h
  obtain ⟨e, _, _, hh, _, _⟩ := hb (by decide) (by decide) (by decide) (by decide!)
    (by norm_num [Sys.boot]) (by norm_num [Sys.boot])
  have hc : ((readAD7746 (Hal.allOk [0xC0, 0, 0, 1, 2, 3]) Sys.boot .adcsC2D1 2).sys.filter 2).c
      = 7333743 / 536870912 := by decide!
  have hn : capToRaw ((readAD7746 (Hal.allOk [0xC0, 0, 0, 1, 2, 3]) Sys.boot .adcsC2D1
      2).sys.filter 2).c = 0x806D48 := by decide!
  refine ⟨hv, hc, ?_, hn, ?_⟩
  · rw [hc]; rw [abs_le]; constructor <;> norm_num
  · rw [hh, hn]

/-- The `double` value that `capToRaw` stores in the `float`: within `2 ^ -20`
of the exact scaled value. -/
theorem capToRaw_double (f : ℚ) (hf0 : -41 / 10 ≤ f) (hf1 : f ≤ 8589934 / 2 ^ 21) :
    |toDouble (toDouble (toDouble (f + toDouble (4096 / 1000))
      * ((1 <<< 24 : Nat) : ℚ)) / toDouble (8192 / 1000))
      - (f + 4096 / 1000) * 2 ^ 24 / (8192 / 1000)| ≤ 1 / 2 ^ 20 := by
  obtain ⟨k4, k8, _, _⟩ := double_constants
  rw [k4, k8, show (1 <<< 24 : Nat) = 16777216 from rfl]
  push_cast
  set x1 : ℚ := f + 1152921504606847 / 281474976710656 with hx1
  have e1 := toDouble_err_nat x1 4 (by
    rw [abs_lt]; norm_num [hx1] at hf0 hf1 ⊢; constructor <;> linarith)
  have b1 := abs_le.mp e1
  set u1 := toDouble x1
  set x2 : ℚ := u1 * 16777216 with hx2
  have e2 := toDouble_err_nat x2 28 (by
    rw [abs_lt]; norm_num [hx2, hx1] at b1 hf0 hf1 ⊢; constructor <;> linarith)
  have b2 := abs_le.mp e2
  set u2 := toDouble x2
  set x3 : ℚ := u2 / (1152921504606847 / 140737488355328) with hx3
  have e3 := toDouble_err_nat x3 25 (by
    rw [abs_lt]; norm_num [hx3, hx2, hx1] at b1 b2 hf0 hf1 ⊢; constructor <;> linarith)
  have b3 := abs_le.mp e3
  rw [abs_le]
  norm_num [hx3, hx2, hx1] at b1 b2 b3 hf0 hf1 ⊢
  constructor <;> linarith

/-- A binary32 rounding at a known quantum. -/
theorem toFloat_at (x : ℚ) :
    ∃ (q k : ℤ), toFloat x = (k : ℚ) * (2 : ℚ) ^ q ∧ |(k : ℚ) - x / (2 : ℚ) ^ q| ≤ 1 / 2 ∧
      -149 ≤ q ∧
      (x ≠ 0 → |x| < (2 : ℚ) ^ (q + 24) ∧ (q = -149 ∨ (2 : ℚ) ^ (q + 23) ≤ |x|)) ∧
      (∀ E : ℤ, (2 : ℚ) ^ E ≤ |x| → E - 23 ≤ q) ∧
      (∀ E : ℤ, -126 ≤ E → |x| < (2 : ℚ) ^ (E + 1) → x ≠ 0 → q ≤ E - 23) := by
  obtain ⟨k, hk, hke⟩ := roundBinary_grid 24 (-126) x
  refine ⟨quantum 24 (-126) x, k, hk, hke, ?_, ?_, ?_, ?_⟩
  · have := quantum_ge_emin 24 (-126) x
    push_cast at this; omega
  · intro hx
    exact (quantum_float x hx).2
  · intro E hE
    have hx : x ≠ 0 := by
      intro h; rw [h, abs_zero] at hE
      exact absurd hE (not_le.mpr (two_zpow_pos E))
    have := quantum_ge 24 (-126) x hx E hE
    push_cast at this; omega
  · intro E hE h hx
    have := quantum_le 24 (-126) x hx E hE h
    push_cast at this; omega


/-- Rounding to binary32 from above: a grid point of the quantum of `x` that
is more than half a step above `x`. -/
theorem toFloat_le_at (x : ℚ) (q z : ℤ) (hq : quantum 24 (-126) x = q)
    (h : x / (2 : ℚ) ^ q < (z : ℚ) + 1 / 2) : toFloat x ≤ (z : ℚ) * (2 : ℚ) ^ q := by
  obtain ⟨k, hk, hke⟩ := roundBinary_grid 24 (-126) x
  rw [hq] at hk hke
  have hb := abs_le.mp hke
  have hkz : k ≤ z := by
    have : k < z + 1 := by
      have : (k : ℚ) < ((z + 1 : ℤ) : ℚ) := by push_cast; linarith
      exact_mod_cast this
    omega
  show roundBinary 24 (-126) x ≤ _
  rw [hk]
  exact mul_le_mul_of_nonneg_right (by exact_mod_cast hkz) (two_zpow_pos q).le

theorem toFloat_ge_at (x : ℚ) (q z : ℤ) (hq : quantum 24 (-126) x = q)
    (h : (z : ℚ) - 1 / 2 < x / (2 : ℚ) ^ q) : (z : ℚ) * (2 : ℚ) ^ q ≤ toFloat x := by
  obtain ⟨k, hk, hke⟩ := roundBinary_grid 24 (-126) x
  rw [hq] at hk hke
  have hb := abs_le.mp hke
  have hkz : z ≤ k := int_le_of_sub_one_lt k z (by linarith)
  show _ ≤ roundBinary 24 (-126) x
  rw [hk]
  exact mul_le_mul_of_nonneg_right (by exact_mod_cast hkz) (two_zpow_pos q).le

/-- The `float` that `capToRaw` truncates, for a decoded raw value `r`: less
than 1 away from `r`. -/
theorem capToRaw_rawToCap_float (r : Nat) (hr : r < 2 ^ 24) :
    |toFloat (toDouble (toDouble (toDouble (rawToCap r + toDouble (4096 / 1000))
      * ((1 <<< 24 : Nat) : ℚ)) / toDouble (8192 / 1000))) - (r : ℚ)| < 1 := by
  have he := abs_le.mp (rawToCap_err r hr)
  have hR := rawToCap_range r hr
  have hd := abs_le.mp (capToRaw_double (rawToCap r) (by linarith [hR.1]) hR.2)
  have hrq : (r : ℚ) ≤ 2 ^ 24 - 1 := by
    have : r + 1 ≤ 2 ^ 24 := hr
    have : ((r + 1 : ℕ) : ℚ) ≤ ((2 ^ 24 : ℕ) : ℚ) := by exact_mod_cast this
    push_cast at this; linarith
  have hr0 : (0 : ℚ) ≤ r := Nat.cast_nonneg r
  set c := rawToCap r
  set u := toDouble (toDouble (toDouble (c + toDouble (4096 / 1000))
      * ((1 <<< 24 : Nat) : ℚ)) / toDouble (8192 / 1000)) with hu
  have hX : (c + 4096 / 1000) * 2 ^ 24 / (8192 / 1000) - r
      = (c - specDecode r) * 2048000 := by
    simp only [specDecode]; ring
  have e := abs_le.mp (toFloat_err_nat u 24 (by
    rw [abs_lt]; norm_num at he hd hrq ⊢; constructor <;> nlinarith))
  rw [abs_lt]
  norm_num at he hd e ⊢
  constructor <;> nlinarith

/-- Encoding a decoded raw value returns the raw value or the one below. -/
theorem capToRaw_rawToCap (r : Nat) (hr : r < 2 ^ 24) :
    capToRaw (rawToCap r) = r ∨
    (capToRaw (rawToCap r) + 1 = r ∧
      toFloat (toDouble (toDouble (toDouble (rawToCap r + toDouble (4096 / 1000))
      * ((1 <<< 24 : Nat) : ℚ)) / toDouble (8192 / 1000))) < (r : ℚ)) := by
  have h := abs_lt.mp (capToRaw_rawToCap_float r hr)
  unfold capToRaw toUint32
  set c2 := toFloat (toDouble (toDouble (toDouble (rawToCap r + toDouble (4096 / 1000))
      * ((1 <<< 24 : Nat) : ℚ)) / toDouble (8192 / 1000))) with hc2
  have h1 : (r : ℤ) - 1 ≤ Rat.floor c2 := by
    have : (((r : ℤ) - 1 : ℤ) : ℚ) ≤ c2 := by push_cast; linarith
    exact Int.le_floor.mpr this
  have h2 : Rat.floor c2 ≤ (r : ℤ) := by
    have : Rat.floor c2 < (r : ℤ) + 1 := by
      have : c2 < (((r : ℤ) + 1 : ℤ) : ℚ) := by push_cast; linarith
      exact Int.floor_lt.mpr this
    omega
  have hr32 : r < 2 ^ 32 := lt_of_lt_of_le hr (by norm_num)
  by_cases hcase : Rat.floor c2 = (r : ℤ)
  · left
    rw [hcase, Int.toNat_natCast]
    exact Nat.mod_eq_of_lt hr32
  · have hfl : Rat.floor c2 = (r : ℤ) - 1 := by omega
    by_cases hr0 : r = 0
    · left
      rw [hfl, hr0]
      rfl
    · right
      constructor
      · rw [hfl]
        have : ((r : ℤ) - 1).toNat = r - 1 := by omega
        rw [this, Nat.mod_eq_of_lt (by omega)]
        omega
      · have : c2 < ((Rat.floor c2 + 1 : ℤ) : ℚ) := by
          have := Int.lt_floor_add_one c2
          push_cast
          exact this
        rw [hfl] at this
        push_cast at this
        linarith


/-- Two neighbouring decodings that round on the same grid `1 / T`. -/
theorem rawToCap_step_same (D D2 v T : ℚ) (q m : ℤ) (hT : (2 : ℚ) ^ q = 1 / T)
    (hTm : T = (m : ℚ) * 2 ^ 21) (hm0 : 0 < m) (hm : m ≤ 16)
    (hq : quantum 24 (-126) D = q) (hq2 : quantum 24 (-126) D2 = q)
    (h1 : toFloat D < v + 1 / 2 ^ 40)
    (hD2 : v - 8192 / 1000 / 2 ^ 24 - 1 / 2 ^ 48 ≤ D2) :
    toFloat D - toFloat D2 ≤ 1 / 2 ^ 21 := by
  obtain ⟨k, hk, _⟩ := roundBinary_grid 24 (-126) D
  rw [hq, hT] at hk
  have hmq : (0 : ℚ) < m := by exact_mod_cast hm0
  have hmq2 : (m : ℚ) ≤ 16 := by exact_mod_cast hm
  have hT0 : 0 < T := by rw [hTm]; positivity
  have hc : toFloat D = k / T := by
    show roundBinary 24 (-126) D = _
    rw [hk]; ring
  have a1 : (k : ℚ) < (v + 1 / 2 ^ 40) * T := by
    rw [hc] at h1; exact (div_lt_iff₀ hT0).mp h1
  have a2 := mul_le_mul_of_nonneg_right hD2 hT0.le
  have hge := toFloat_ge_at D2 q (k - m) hq2 (by
    rw [hT]; push_cast
    have : D2 / (1 / T) = D2 * T := by field_simp
    rw [this]
    rw [hTm] at a1 a2 ⊢
    norm_num at a1 a2 ⊢
    linarith)
  rw [hT] at hge
  have e : ((k - m : ℤ) : ℚ) * (1 / T) = k / T - 1 / 2 ^ 21 := by
    push_cast; rw [hTm]; field_simp; ring
  rw [e] at hge
  rw [hc]; linarith

/-- Two neighbouring decodings on the two sides of a power of two `P`. -/
theorem rawToCap_step_cross (D D2 P T : ℚ) (s r0 : ℕ) (q m2 : ℤ)
    (hT : (2 : ℚ) ^ q = 1 / T) (hT2 : (2 : ℚ) ^ (q + 1) = 2 / T)
    (hTm : T = (m2 : ℚ) * 2 ^ 22) (hm0 : 0 < m2) (hm : m2 ≤ 8)
    (hPT : P * T = 2 ^ 24) (hr0 : (r0 : ℚ) = 2 ^ 23 - 2048000 * P)
    (hq : quantum 24 (-126) D = q) (hq2 : quantum 24 (-126) D2 = q + 1)
    (hD : |D - specDecode ((s + 1 : ℕ) : ℚ)| ≤ 1 / 2 ^ 48)
    (hD2 : |D2 - specDecode (s : ℚ)| ≤ 1 / 2 ^ 48)
    (hP : -P < D) (hP2 : D2 ≤ -P) :
    toFloat D - toFloat D2 ≤ 1 / 2 ^ 21 := by
  have hmq : (0 : ℚ) < m2 := by exact_mod_cast hm0
  have hmq2 : (m2 : ℚ) ≤ 8 := by exact_mod_cast hm
  have hT0 : 0 < T := by rw [hTm]; positivity
  have hb := abs_le.mp hD
  have hb2 := abs_le.mp hD2
  simp only [specDecode] at hb hb2
  push_cast at hb hb2
  have hs1 : s ≤ r0 := by
    have : (s : ℚ) < ((r0 + 1 : ℕ) : ℚ) := by
      push_cast; norm_num at hb2 ⊢; linarith
    have : s < r0 + 1 := by exact_mod_cast this
    omega
  have hs2 : r0 ≤ s + 1 := by
    have : (r0 : ℚ) < ((s + 1 + 1 : ℕ) : ℚ) := by
      push_cast; norm_num at hb ⊢; linarith
    have : r0 < s + 1 + 1 := by exact_mod_cast this
    omega
  have eT : D / (1 / T) = D * T := by field_simp
  have eT2 : D2 / (2 / T) = D2 * T / 2 := by field_simp
  have eP : (2 : ℚ) ^ 24 / T = P := by
    rw [← hPT]; field_simp
  have e21 : (m2 : ℚ) * 2 / T = 1 / 2 ^ 21 := by
    rw [hTm]; field_simp; ring
  rcases (by omega : s + 1 = r0 ∨ s = r0) with h | h
  · have hrq : (r0 : ℚ) = s + 1 := by rw [← h]; push_cast; ring
    have d1 : D ≤ -P + 1 / 2 ^ 48 := by norm_num at hb ⊢; linarith
    have d2 : -P - 8192 / 1000 / 2 ^ 24 - 1 / 2 ^ 48 ≤ D2 := by norm_num at hb2 ⊢; linarith
    have a1 := mul_le_mul_of_nonneg_right d1 hT0.le
    have a2 := mul_le_mul_of_nonneg_right d2 hT0.le
    have hle := toFloat_le_at D q (-(2 ^ 24)) hq (by
      rw [hT, eT]; push_cast
      have : (-P + 1 / 2 ^ 48) * T = -(P * T) + T / 2 ^ 48 := by ring
      rw [this, hPT] at a1
      rw [hTm] at a1 ⊢
      norm_num at a1 ⊢
      linarith)
    have hge := toFloat_ge_at D2 (q + 1) (-(2 ^ 23) - m2) hq2 (by
      rw [hT2, eT2]; push_cast
      have : (-P - 8192 / 1000 / 2 ^ 24 - 1 / 2 ^ 48) * T
          = -(P * T) - (8192 / 1000 / 2 ^ 24 + 1 / 2 ^ 48) * T := by ring
      rw [this, hPT] at a2
      rw [hTm] at a2 ⊢
      norm_num at a2 ⊢
      linarith)
    rw [hT] at hle
    rw [hT2] at hge
    have e1 : ((-(2 ^ 24) : ℤ) : ℚ) * (1 / T) = -P := by
      push_cast; rw [← eP]; ring
    have e2 : ((-(2 ^ 23) - m2 : ℤ) : ℚ) * (2 / T) = -P - 1 / 2 ^ 21 := by
      push_cast; rw [← eP, ← e21]; ring
    rw [e1] at hle
    rw [e2] at hge
    linarith
  · have hrq : (r0 : ℚ) = s := by rw [h]
    have d1 : D ≤ -P + 8192 / 1000 / 2 ^ 24 + 1 / 2 ^ 48 := by norm_num at hb ⊢; linarith
    have d2 : -P - 1 / 2 ^ 48 ≤ D2 := by norm_num at hb2 ⊢; linarith
    have a1 := mul_le_mul_of_nonneg_right d1 hT0.le
    have a2 := mul_le_mul_of_nonneg_right d2 hT0.le
    have hle := toFloat_le_at D q (-(2 ^ 24) + 2 * m2) hq (by
      rw [hT, eT]; push_cast
      have : (-P + 8192 / 1000 / 2 ^ 24 + 1 / 2 ^ 48) * T
          = -(P * T) + (8192 / 1000 / 2 ^ 24 + 1 / 2 ^ 48) * T := by ring
      rw [this, hPT] at a1
      rw [hTm] at a1 ⊢
      norm_num at a1 ⊢
      linarith)
    have hge := toFloat_ge_at D2 (q + 1) (-(2 ^ 23)) hq2 (by
      rw [hT2, eT2]; push_cast
      have : (-P - 1 / 2 ^ 48) * T = -(P * T) - T / 2 ^ 48 := by ring
      rw [this, hPT] at a2
      rw [hTm] at a2 ⊢
      norm_num at a2 ⊢
      linarith)
    rw [hT] at hle
    rw [hT2] at hge
    have e1 : ((-(2 ^ 24) + 2 * m2 : ℤ) : ℚ) * (1 / T) = -P + 1 / 2 ^ 21 := by
      push_cast; rw [← eP, ← e21]; ring
    have e2 : ((-(2 ^ 23) : ℤ) : ℚ) * (2 / T) = -P := by
      push_cast; rw [← eP]; ring
    rw [e1] at hle
    rw [e2] at hge
    linarith


/-- When the re-encoded value of `s + 1` truncates to `s`, the decoding of
`s + 1` is at most `-1/4` and is rounded to less than `2 ^ -40` above the exact
value. -/
theorem rawToCap_step_neg (s : Nat) (hs : s + 1 < 2 ^ 24)
    (hc2 : toFloat (toDouble (toDouble (toDouble (rawToCap (s + 1) + toDouble (4096 / 1000))
      * ((1 <<< 24 : Nat) : ℚ)) / toDouble (8192 / 1000))) < ((s + 1 : ℕ) : ℚ)) :
    toDouble (-toDouble (4096 / 1000)
      + toDouble (toDouble (((s + 1 : ℕ) : ℚ) * toDouble (8192 / 1000))
        / ((1 <<< 24 : Nat) : ℚ))) ≤ -1 / 4 ∧
    rawToCap (s + 1) < specDecode ((s + 1 : ℕ) : ℚ) + 1 / 2 ^ 40 := by
  have hD := rawToCap_double (s + 1) hs
  have he := abs_le.mp (rawToCap_err (s + 1) hs)
  have hR := rawToCap_range (s + 1) hs
  have hd := abs_le.mp (capToRaw_double (rawToCap (s + 1)) (by linarith [hR.1]) hR.2)
  have hceq := rawToCap_eq (s + 1) hs
  have hsq : ((s + 1 : ℕ) : ℚ) ≤ 2 ^ 24 - 1 := by
    have : s + 1 + 1 ≤ 2 ^ 24 := hs
    have : ((s + 1 + 1 : ℕ) : ℚ) ≤ ((2 ^ 24 : ℕ) : ℚ) := by exact_mod_cast this
    push_cast at this ⊢; linarith
  have hvr : specDecode ((s + 1 : ℕ) : ℚ) = -4096 / 1000 + ((s + 1 : ℕ) : ℚ) / 2048000 := by
    simp only [specDecode]; ring
  have hRz : (((s + 1 : ℕ) : ℤ) : ℚ) = ((s + 1 : ℕ) : ℚ) := Int.cast_natCast _
  generalize toDouble (-toDouble (4096 / 1000)
      + toDouble (toDouble (((s + 1 : ℕ) : ℚ) * toDouble (8192 / 1000))
        / ((1 <<< 24 : Nat) : ℚ))) = D at hD hceq ⊢
  generalize rawToCap (s + 1) = c at hc2 he hR hd hceq ⊢
  generalize toDouble (toDouble (toDouble (c + toDouble (4096 / 1000))
      * ((1 <<< 24 : Nat) : ℚ)) / toDouble (8192 / 1000)) = u at hc2 hd
  rw [hvr] at hD he ⊢
  have hR0 : (0 : ℚ) ≤ ((s + 1 : ℕ) : ℚ) := Nat.cast_nonneg _
  have hfl := toFloat_natCast (s + 1) hs
  generalize ((s + 1 : ℕ) : ℚ) = R at hD he hc2 hsq hRz hR0 hfl ⊢
  clear hvr
  have hDb := abs_le.mp hD
  have hX : (c + 4096 / 1000) * 2 ^ 24 / (8192 / 1000)
      = R + (c - (-4096 / 1000 + R / 2048000)) * 2048000 := by ring
  rw [hX] at hd
  have hu : u < R := by
    by_contra hge
    push_neg at hge
    have := toFloat_ge_of_near R u hfl (by
      have : (0 : ℚ) ≤ |R| / 2 ^ 30 + 1 / 2 ^ 200 := by positivity
      linarith)
    linarith
  refine ⟨?_, by have := hd.1; norm_num at this ⊢; linarith⟩
  by_contra hcon
  push_neg at hcon
  rcases lt_or_le D (1 / 4) with hlt | hge
  · have e := abs_le.mp (toFloat_err D (-3) (by norm_num) (by
      rw [abs_lt]; norm_num; exact ⟨by linarith, by linarith⟩))
    rw [← hceq] at e
    norm_num at e
    have hu1 : R - 1 / 8 < u := by
      norm_num at hDb hd e ⊢; linarith
    have hu2 : (2 : ℚ) ^ 22 ≤ u := by
      norm_num at hDb hu1 hcon ⊢; linarith
    have hupos : 0 < u := lt_of_lt_of_le (by norm_num) hu2
    have hune : u ≠ 0 := ne_of_gt hupos
    obtain ⟨qu, hqu⟩ : ∃ q, quantum 24 (-126) u = q := ⟨_, rfl⟩
    have hq1 := quantum_ge 24 (-126) u hune 22 (by rw [abs_of_pos hupos]; exact_mod_cast hu2)
    have hq2 := quantum_le 24 (-126) u hune 23 (by norm_num) (by
      rw [abs_of_pos hupos]; norm_num; linarith)
    rw [hqu] at hq1 hq2
    push_cast at hq1 hq2
    have hq1b : -1 ≤ qu := by omega
    have hq2b : qu ≤ 0 := by omega
    interval_cases qu
    · have := toFloat_ge_at u (-1) (2 * ((s + 1 : ℕ) : ℤ)) hqu (by
        rw [Int.cast_mul, hRz]; norm_num; linarith)
      rw [Int.cast_mul, hRz] at this
      norm_num at this
      linarith
    · have := toFloat_ge_at u 0 ((s + 1 : ℕ) : ℤ) hqu (by
        rw [hRz]; norm_num; linarith)
      rw [hRz] at this
      norm_num at this
      linarith
  · have hu1 : R - 1 / 2 < u := by
      norm_num at he hd ⊢; linarith
    have hu2 : (2 : ℚ) ^ 23 ≤ u := by
      norm_num at hDb hu1 hge he hd ⊢; linarith
    have hupos : 0 < u := lt_of_lt_of_le (by norm_num) hu2
    have hqu := quantum_eq 24 (-126) u 23 (by norm_num)
      (by rw [abs_of_pos hupos]; exact_mod_cast hu2)
      (by rw [abs_of_pos hupos]; norm_num; linarith)
    norm_num at hqu
    have := toFloat_ge_at u 0 ((s + 1 : ℕ) : ℤ) hqu (by
      rw [hRz]; norm_num; linarith)
    rw [hRz] at this
    norm_num at this
    linarith


/-- When the re-encoded value of `s + 1` truncates to `s`, the decodings of
`s + 1` and of `s` are at most `2 ^ -21` apart. -/
theorem rawToCap_step (s : Nat) (hs : s + 1 < 2 ^ 24)
    (hc2 : toFloat (toDouble (toDouble (toDouble (rawToCap (s + 1) + toDouble (4096 / 1000))
      * ((1 <<< 24 : Nat) : ℚ)) / toDouble (8192 / 1000))) < ((s + 1 : ℕ) : ℚ)) :
    rawToCap (s + 1) - rawToCap s ≤ 1 / 2 ^ 21 := by
  have hs' : s < 2 ^ 24 := by omega
  obtain ⟨hDneg, h1⟩ := rawToCap_step_neg s hs hc2
  clear hc2
  have hD := rawToCap_double (s + 1) hs
  have hD2 := rawToCap_double s hs'
  rw [rawToCap_eq (s + 1) hs] at h1 ⊢
  rw [rawToCap_eq s hs']
  have hv : specDecode (s : ℚ) = specDecode ((s + 1 : ℕ) : ℚ) - 8192 / 1000 / 2 ^ 24 := by
    simp only [specDecode]; push_cast; ring
  have hvlo : -4096 / 1000 ≤ specDecode (s : ℚ) := by
    simp only [specDecode]
    have : (0 : ℚ) ≤ (s : ℚ) * (8192 / 1000) / 2 ^ 24 := by positivity
    linarith
  generalize toDouble (-toDouble (4096 / 1000)
      + toDouble (toDouble (((s + 1 : ℕ) : ℚ) * toDouble (8192 / 1000))
        / ((1 <<< 24 : Nat) : ℚ))) = D at hD hDneg h1 ⊢
  generalize toDouble (-toDouble (4096 / 1000)
      + toDouble (toDouble ((s : ℚ) * toDouble (8192 / 1000))
        / ((1 <<< 24 : Nat) : ℚ))) = D2 at hD2 ⊢
  have hDb := abs_le.mp hD
  have hD2b := abs_le.mp hD2
  rw [hv] at hD2b hvlo
  generalize hvdef : specDecode ((s + 1 : ℕ) : ℚ) = v at hD hDb hD2b hvlo h1 hv
  have hD0 : D ≠ 0 := by intro h; rw [h] at hDneg; norm_num at hDneg
  have hD2lt : D2 < D := by norm_num at hD2b hDb ⊢; linarith
  have hD2neg : D2 < 0 := by linarith
  have hD20 : D2 ≠ 0 := ne_of_lt hD2neg
  have hDabs : |D| = -D := abs_of_neg (by linarith)
  have hD2abs : |D2| = -D2 := abs_of_neg hD2neg
  obtain ⟨q, hq⟩ : ∃ q, quantum 24 (-126) D = q := ⟨_, rfl⟩
  obtain ⟨q2, hq2⟩ : ∃ q, quantum 24 (-126) D2 = q := ⟨_, rfl⟩
  have hqa := quantum_ge 24 (-126) D hD0 (-2) (by rw [hDabs]; norm_num; linarith)
  have hqb := quantum_le 24 (-126) D hD0 2 (by norm_num) (by
    rw [hDabs]; norm_num at hD2b hvlo ⊢; linarith)
  have hqf := quantum_float D hD0
  have hq2f := quantum_float D2 hD20
  rw [hq] at hqa hqb hqf
  push_cast at hqa hqb
  have hqa1 : -25 ≤ q := by omega
  have hqb1 : q ≤ -21 := by omega
  have hqlo : (2 : ℚ) ^ (q + 23) ≤ |D| := by
    rcases hqf.2.2 with h | h
    · omega
    · exact h
  have hq2a := quantum_ge 24 (-126) D2 hD20 (q + 23) (by
    rw [hD2abs]; rw [hDabs] at hqlo; linarith)
  have hq2b := quantum_le 24 (-126) D2 hD20 2 (by norm_num) (by
    rw [hD2abs]; norm_num at hD2b hvlo ⊢; linarith)
  have hq2c := quantum_le 24 (-126) D2 hD20 (q + 24) (by omega) (by
    rw [hD2abs, zpow_add_one₀ (by norm_num)]
    have h2 : (2 : ℚ) ^ (-1 : ℤ) ≤ (2 : ℚ) ^ (q + 24) := two_zpow_le (by omega)
    have h3 := hqf.2.1
    rw [hDabs] at h3
    norm_num at h2 hD2b hDb ⊢
    linarith)
  rw [hq2] at hq2a hq2b hq2c hq2f
  push_cast at hq2a hq2b hq2c
  have hq2lo : (2 : ℚ) ^ (q2 + 23) ≤ |D2| := by
    rcases hq2f.2.2 with h | h
    · omega
    · exact h
  have hqhi := hqf.2.1
  rw [hDabs] at hqhi
  rw [hD2abs] at hq2lo
  have hD2lo : v - 8192 / 1000 / 2 ^ 24 - 1 / 2 ^ 48 ≤ D2 := by linarith [hD2b.1]
  rw [← hvdef] at hD
  have hq2b1 : q2 ≤ -21 := by omega
  clear hqf hq2f hqlo hqa hqb hq2b hDb hD2b hvlo hD2lt hD0 hD20 hDabs hD2abs hv
  rcases (by omega : q2 = q ∨ q2 = q + 1) with h | h
  · rw [h] at hq2
    clear hq2lo hqhi hD hD2 hDneg hD2neg
    interval_cases q
    · exact rawToCap_step_same D D2 v (2 ^ 25) (-25) 16 (by norm_num) (by norm_num)
        (by norm_num) (by norm_num) hq hq2 h1 hD2lo
    · exact rawToCap_step_same D D2 v (2 ^ 24) (-24) 8 (by norm_num) (by norm_num)
        (by norm_num) (by norm_num) hq hq2 h1 hD2lo
    · exact rawToCap_step_same D D2 v (2 ^ 23) (-23) 4 (by norm_num) (by norm_num)
        (by norm_num) (by norm_num) hq hq2 h1 hD2lo
    · exact rawToCap_step_same D D2 v (2 ^ 22) (-22) 2 (by norm_num) (by norm_num)
        (by norm_num) (by norm_num) hq hq2 h1 hD2lo
    · exact rawToCap_step_same D D2 v (2 ^ 21) (-21) 1 (by norm_num) (by norm_num)
        (by norm_num) (by norm_num) hq hq2 h1 hD2lo
  · rw [h] at hq2 hq2lo
    clear h1 hD2lo
    interval_cases q
    · exact rawToCap_step_cross D D2 (1 / 2) (2 ^ 25) s 7364608 (-25) 8 (by norm_num)
        (by norm_num) (by norm_num) (by norm_num) (by norm_num) (by norm_num) (by norm_num)
        hq hq2 hD hD2 (by norm_num at hqhi ⊢; linarith) (by norm_num at hq2lo ⊢; linarith)
    · exact rawToCap_step_cross D D2 1 (2 ^ 24) s 6340608 (-24) 4 (by norm_num)
        (by norm_num) (by norm_num) (by norm_num) (by norm_num) (by norm_num) (by norm_num)
        hq hq2 hD hD2 (by norm_num at hqhi ⊢; linarith) (by norm_num at hq2lo ⊢; linarith)
    · exact rawToCap_step_cross D D2 2 (2 ^ 23) s 4292608 (-23) 2 (by norm_num)
        (by norm_num) (by norm_num) (by norm_num) (by norm_num) (by norm_num) (by norm_num)
        hq hq2 hD hD2 (by norm_num at hqhi ⊢; linarith) (by norm_num at hq2lo ⊢; linarith)
    · exact rawToCap_step_cross D D2 4 (2 ^ 22) s 196608 (-22) 1 (by norm_num)
        (by norm_num) (by norm_num) (by norm_num) (by norm_num) (by norm_num) (by norm_num)
        hq hq2 hD hD2 (by norm_num at hqhi ⊢; linarith) (by norm_num at hq2lo ⊢; linarith)
    · omega


/-- C19: capacitance round trip, on the binary32 arithmetic of the code. With
decode = `rawToCap` (the `float` that `readAD7746` computes as
`-4.096 + cr * 8.192 / (1 << 24)`) and encode = `capToRaw` (the truncation
`(uint32_t)` of the `float` `(c + 4.096) * (1 << 24) / 8.192`), for every raw
value r below 2^24, decode(encode(decode(r))) differs from decode(r) by at most
one LSB, 8.192 / 2^24, and encode(decode(r)) differs from r by at most 1. -/
theorem capacitance_round_trip (r : Nat) (hr : r < 2 ^ 24) :
    |rawToCap (capToRaw (rawToCap r)) - rawToCap r| ≤ 8192 / 1000 / 2 ^ 24 ∧
    |(capToRaw (rawToCap r) : ℤ) - (r : ℤ)| ≤ 1 := by
  rcases capToRaw_rawToCap r hr with h | ⟨h, hlt⟩
  · rw [h]
    simp only [sub_self, abs_zero]
    exact ⟨by positivity, by norm_num⟩
  · obtain ⟨s, rfl⟩ : ∃ s, r = s + 1 := ⟨_, h.symm⟩
    have hn : capToRaw (rawToCap (s + 1)) = s := by omega
    rw [hn]
    have up := rawToCap_step s hr hlt
    have e1 := abs_le.mp (rawToCap_err (s + 1) hr)
    have e2 := abs_le.mp (rawToCap_err s (by omega))
    have hv : specDecode (s : ℚ) = specDecode ((s + 1 : ℕ) : ℚ) - 8192 / 1000 / 2 ^ 24 := by
      simp only [specDecode]; push_cast; ring
    rw [hv] at e2
    constructor
    · rw [abs_le]
      norm_num at e1 e2 up ⊢
      constructor <;> linarith
    · rw [abs_le]
      push_cast
      constructor <;> linarith

/-- C19 at a concrete input: the raw value 1 decodes to -8589934 / 2^21, which
encodes to 0; 0 decodes to -8589935 / 2^21, which is 2^-21 below; the two
bounds hold there. -/
theorem capacitance_round_trip_witness :
    (1 : Nat) < 2 ^ 24 ∧ rawToCap 1 = -8589934 / 2097152 ∧ capToRaw (rawToCap 1) = 0 ∧
    rawToCap 0 = -8589935 / 2097152 ∧
    (|rawToCap (capToRaw (rawToCap 1)) - rawToCap 1| ≤ 8192 / 1000 / 2 ^ 24 ∧
     |(capToRaw (rawToCap 1) : ℤ) - ((1 : Nat) : ℤ)| ≤ 1) :=
  ⟨by norm_num, by decide!, by decide!, by decide!, capacitance_round_trip 1 (by norm_num)⟩

/-- C20: the outbound frame is 119 bytes; bytes 0..4 are signature0,
signature1, version0, version1, version2; the block of channel i is bytes
5 + 19 * i .. 5 + 19 * i + 18, in the order humidity (high, low), raw
differential capacitance (high, mid, low), C1, C2, filtered differential
capacitance, temperature (high, low), chip temperature (high, mid, low). The
inbound buffer is 119 bytes at boot, a received command keeps its length, and
the command is its first four bytes. -/
theorem spiMessage_layout :
    (∀ m : spiMessageOut_t,
      m.buf.length = 119 ∧
      m.buf.take 5 = [m.signature0, m.signature1, m.version0, m.version1, m.version2] ∧
      ∀ i : Fin MAX_SENSORS, (m.buf.drop (5 + 19 * i.val)).take 19 =
        [(m.sensor i).humidityHigh, (m.sensor i).humidityLow,
         (m.sensor i).diffCapHigh, (m.sensor i).diffCapMid, (m.sensor i).diffCapLow,
         (m.sensor i).c1High, (m.sensor i).c1Mid, (m.sensor i).c1Low,
         (m.sensor i).c2High, (m.sensor i).c2Mid, (m.sensor i).c2Low,
         (m.sensor i).filtCapHigh, (m.sensor i).filtCapMid, (m.sensor i).filtCapLow,
         (m.sensor i).tempHigh, (m.sensor i).tempLow,
         (m.sensor i).chiptempHigh, (m.sensor i).chiptempMid, (m.sensor i).chiptempLow]) ∧
    Sys.boot.spiMessageIn.buf.length = Sys.boot.spiMessageOut.buf.length ∧
    (∀ (s : Sys) (c0 c1 c2 c3 : Nat),
      (s.receive c0 c1 c2 c3).spiMessageIn.buf.length = s.spiMessageIn.buf.length ∧
      (s.receive c0 c1 c2 c3).spiMessageIn.buf.take 4 = [c0, c1, c2, c3]) := by
  refine ⟨?_, ?_, ?_⟩
  · intro m
    refine ⟨rfl, rfl, ?_⟩
    intro i
    fin_cases i <;> rfl
  · rfl
  · intro s c0 c1 c2 c3
    exact ⟨rfl, rfl⟩

/-! ## Lemmas: timers of the state machine -/

theorem runningRelay_idle (hal : Hal) (p : taskParams) (s : Sys)
    (hcmd : s.switchcmd p.device = false) : runningRelay hal p s = s := by
  simp [runningRelay, hcmd]

/-- A pass in Running with the timer above the timeout: the channel goes to
RunFailed, the timer restarts, and only the relay block has touched the
globals. -/
theorem taskI2Cpass_timeout (hal : Hal) (p : taskParams) (s : Sys)
    (hst : p.state = .tsRunning) (hto : MAX_SENSOR_TIMEOUT_MS < p.inttime) :
    taskI2Cpass hal p s = some
      ({ p with
          state := .tsRunFailed
          inttime := 1
          temptime := (p.temptime + MIN_TASK_SLEEP_MS) % 2 ^ 32 },
        runningRelay hal p s) := by
  simp [taskI2Cpass, taskSwitch, hst, caseRunning, hto, MIN_TASK_SLEEP_MS]

/-- A pass in Running with nothing to do: only the two timers move. -/
theorem taskI2Cpass_idle (hal : Hal) (p : taskParams) (s : Sys)
    (hst : p.state = .tsRunning) (hto : p.inttime ≤ MAX_SENSOR_TIMEOUT_MS)
    (hint : s.intflag p.device = false) (hcmd : s.switchcmd p.device = false) :
    taskI2Cpass hal p s = some
      ({ p with
          inttime := p.inttime + 1
          temptime := (p.temptime + MIN_TASK_SLEEP_MS) % 2 ^ 32 }, s) := by
  have h1 : p.inttime + 1 < 4294967296 := by
    simp only [MAX_SENSOR_TIMEOUT_MS] at hto
    omega
  simp [taskI2Cpass, taskSwitch, hst, caseRunning, Nat.not_lt.mpr hto,
    runningRelay_idle hal p s hcmd, hint, MIN_TASK_SLEEP_MS, Nat.mod_eq_of_lt h1]

theorem taskI2Ccommon_idle (hal : Hal) (s : Sys) (k : Nat) :
    ∀ p : taskParams, p.state = .tsRunning → p.inttime + k ≤ MAX_SENSOR_TIMEOUT_MS + 1 →
      s.intflag p.device = false → s.switchcmd p.device = false →
      ∃ pk, taskI2Ccommon hal k (p, s) = some (pk, s) ∧ pk.state = .tsRunning ∧
        pk.inttime = p.inttime + k ∧ pk.device = p.device := by
  induction k with
  | zero => intro p hst _ _ _; exact ⟨p, rfl, hst, rfl, rfl⟩
  | succ n ih =>
    intro p hst hk hint hcmd
    have hto : p.inttime ≤ MAX_SENSOR_TIMEOUT_MS := by omega
    obtain ⟨pk, e, hs, hi, hd⟩ := ih
      { p with inttime := p.inttime + 1
               temptime := (p.temptime + MIN_TASK_SLEEP_MS) % 2 ^ 32 }
      hst (by show p.inttime + 1 + n ≤ _; omega) hint hcmd
    refine ⟨pk, ?_, hs, ?_, hd⟩
    · simp only [taskI2Ccommon, taskI2Cpass_idle hal p s hst hto hint hcmd, Option.some_bind]
      exact e
    · rw [hi]; show p.inttime + 1 + n = _; omega

theorem taskI2Ccommon_add (hal : Hal) (a b : Nat) (ps : taskParams × Sys) :
    taskI2Ccommon hal (a + b) ps = (taskI2Ccommon hal a ps).bind (taskI2Ccommon hal b) := by
  induction a generalizing ps with
  | zero => simp [taskI2Ccommon]
  | succ n ih =>
    rw [Nat.succ_add]
    simp only [taskI2Ccommon]
    cases h : taskI2Cpass hal ps.1 ps.2 with
    | none => simp
    | some r => simp [ih]

/-- The wait cases: the countdown loses one tick, and stops at zero. -/
theorem caseWait_wait (p : taskParams) : (caseWait p).wait = p.wait - 1 := by
  simp only [caseWait, MIN_TASK_SLEEP_MS]
  split_ifs with h1 h2 h3
  · show 0 = p.wait - 1; omega
  · show 0 = p.wait - 1; omega
  · rfl
  · rfl

theorem caseWait_state (p : taskParams) :
    (caseWait p).state = if p.wait ≤ 1 then .tsInit else p.state := by
  simp only [caseWait, MIN_TASK_SLEEP_MS]
  split_ifs with h1 h2 h3 h4 h5 h6 <;>
    first | rfl | (exfalso; simp at *; done) | (exfalso; simp at *; omega)

theorem taskI2Cpass_wait (hal : Hal) (p : taskParams) (s : Sys)
    (hst : p.state = .tsInitFailedWait ∨ p.state = .tsRunFailedWait) :
    ∃ p1, taskI2Cpass hal p s = some (p1, s) ∧ p1.wait = p.wait - 1 ∧
      p1.state = (if p.wait ≤ 1 then .tsInit else p.state) := by
  refine ⟨{ caseWait p with
      inttime := ((caseWait p).inttime + MIN_TASK_SLEEP_MS) % 2 ^ 32
      temptime := ((caseWait p).temptime + MIN_TASK_SLEEP_MS) % 2 ^ 32 }, ?_,
    caseWait_wait p, caseWait_state p⟩
  rcases hst with h | h <;> simp [taskI2Cpass, taskSwitch, h]

theorem taskI2Ccommon_wait (hal : Hal) (s : Sys) (k : Nat) :
    ∀ p : taskParams, (p.state = .tsInitFailedWait ∨ p.state = .tsRunFailedWait) →
      k < p.wait →
      ∃ pk, taskI2Ccommon hal k (p, s) = some (pk, s) ∧ pk.state = p.state ∧
        pk.wait = p.wait - k := by
  induction k with
  | zero => intro p _ _; exact ⟨p, rfl, rfl, rfl⟩
  | succ n ih =>
    intro p hst hk
    obtain ⟨p1, e1, hw1, hs1⟩ := taskI2Cpass_wait hal p s hst
    have hs1' : p1.state = p.state := by rw [hs1, if_neg (by omega)]
    obtain ⟨pk, e, hs, hw⟩ := ih p1 (by rw [hs1']; exact hst) (by omega)
    refine ⟨pk, ?_, by rw [hs, hs1'], by omega⟩
    simp only [taskI2Ccommon, e1, Option.some_bind]
    exact e


/-! ## Theorems: timeout and backoff -/

/-- C12: in Running, the timeout branch is taken exactly when the timer is
above 1000 at the start of the step. Then the case ends in RunFailed with the
timer reset to 0 (1 after the tick at the end of the pass), and the completion
flag is not consumed: apart from the relay block the globals are untouched.
With the timer at most 1000 the step either handles a completion or, without
one, stays in Running. With the timer at t <= 1000, no completion flag and no
relay command, the channel stays in Running for the next 1001 - t passes,
the timer counting up by one each, and the pass after them enters RunFailed. -/
theorem caseRunning_timeout (hal : Hal) (p : taskParams) (s : Sys)
    (hst : p.state = .tsRunning) :
    (MAX_SENSOR_TIMEOUT_MS < p.inttime →
      (caseRunning hal p s).1.state = .tsRunFailed ∧
      (caseRunning hal p s).1.inttime = 0 ∧
      (caseRunning hal p s).2 = runningRelay hal p s ∧
      (caseRunning hal p s).2.intflag p.device = s.intflag p.device ∧
      ∃ p1, taskI2Cpass hal p s = some (p1, runningRelay hal p s) ∧
        p1.state = .tsRunFailed ∧ p1.inttime = 1) ∧
    (p.inttime ≤ MAX_SENSOR_TIMEOUT_MS →
      (s.intflag p.device = true →
        caseRunning hal p s = runningCompletion hal p (runningRelay hal p s)) ∧
      (s.intflag p.device = false → (caseRunning hal p s).1.state = .tsRunning)) ∧
    (p.inttime ≤ 1000 → s.intflag p.device = false → s.switchcmd p.device = false →
      (∀ k, k ≤ 1001 - p.inttime →
        ∃ pk, taskI2Ccommon hal k (p, s) = some (pk, s) ∧
          pk.state = .tsRunning ∧ pk.inttime = p.inttime + k) ∧
      ∃ pe, taskI2Ccommon hal (1001 - p.inttime + 1) (p, s) = some (pe, s) ∧
        pe.state = .tsRunFailed) := by
  refine ⟨?_, ?_, ?_⟩
  · intro hto
    have hc : caseRunning hal p s =
        ({ p with inttime := 0, state := .tsRunFailed }, runningRelay hal p s) := by
      simp [caseRunning, hto]
    refine ⟨by rw [hc], by rw [hc], by rw [hc], ?_, ?_⟩
    · rw [hc]; exact runningRelay_intflag hal p s p.device
    · exact ⟨_, taskI2Cpass_timeout hal p s hst hto, rfl, rfl⟩
  · intro hto
    constructor
    · intro hint
      simp [caseRunning, Nat.not_lt.mpr hto, runningRelay_intflag, hint]
    · intro hint
      simp [caseRunning, Nat.not_lt.mpr hto, runningRelay_intflag, hint, hst]
  · intro ht hint hcmd
    constructor
    · intro k hk
      obtain ⟨pk, e, hs, hi, _⟩ := taskI2Ccommon_idle hal s k p hst
        (by simp only [MAX_SENSOR_TIMEOUT_MS]; omega) hint hcmd
      exact ⟨pk, e, hs, hi⟩
    · obtain ⟨pk, e, hs, hi, hd⟩ := taskI2Ccommon_idle hal s (1001 - p.inttime) p hst
        (by simp only [MAX_SENSOR_TIMEOUT_MS]; omega) hint hcmd
      have hto : MAX_SENSOR_TIMEOUT_MS < pk.inttime := by
        simp only [MAX_SENSOR_TIMEOUT_MS]; omega
      have hrel : runningRelay hal pk s = s :=
        runningRelay_idle hal pk s (by rw [hd]; exact hcmd)
      refine ⟨{ pk with
          state := .tsRunFailed
          inttime := 1
          temptime := (pk.temptime + MIN_TASK_SLEEP_MS) % 2 ^ 32 }, ?_, rfl⟩
      rw [taskI2Ccommon_add, e]
      simp only [Option.some_bind, taskI2Ccommon, taskI2Cpass_timeout hal pk s hs hto, hrel]

/-- C12 at a concrete input: channel 0 in Running after boot. With the timer
at 1001 and the completion flag set, the pass ends in RunFailed with the flag
still set; with the timer at 1000 and no flag, one more pass stays in Running
and the second one enters RunFailed. -/
theorem caseRunning_timeout_witness :
    (∃ p1, taskI2Cpass (Hal.allOk [])
        { stackZero with state := .tsRunning, inttime := 1001 }
        { Sys.boot with intflag0 := true } = some (p1, { Sys.boot with intflag0 := true }) ∧
      p1.state = .tsRunFailed ∧ p1.inttime = 1) ∧
    (∃ pk, taskI2Ccommon (Hal.allOk []) 1
        ({ stackZero with state := .tsRunning, inttime := 1000 }, Sys.boot)
        = some (pk, Sys.boot) ∧ pk.state = .tsRunning ∧ pk.inttime = 1001) ∧
    (∃ pe, taskI2Ccommon (Hal.allOk []) 2
        ({ stackZero with state := .tsRunning, inttime := 1000 }, Sys.boot)
        = some (pe, Sys.boot) ∧ pe.state = .tsRunFailed) := by
  have h1 := (caseRunning_timeout (Hal.allOk [])
    { stackZero with state := .tsRunning, inttime := 1001 }
    { Sys.boot with intflag0 := true } rfl).1 (by decide)
  have h2 := (caseRunning_timeout (Hal.allOk [])
    { stackZero with state := .tsRunning, inttime := 1000 } Sys.boot rfl).2.2
    (by decide) rfl rfl
  exact ⟨h1.2.2.2.2, h2.1 1 (by decide), h2.2⟩

/-- C14: the InitFailed step and the RunFailed step both arm the countdown
with 1000 and move to their wait state. Every wait step takes one off the
countdown and stops at zero. From the armed countdown the channel is still
waiting after each of the first 999 wait steps and is back in Init after the
1000th. -/
theorem backoff_fixed (hal : Hal) (p : taskParams) (s : Sys)
    (hst : p.state = .tsInitFailed ∨ p.state = .tsRunFailed) :
    ∃ p1 s1, taskI2Cpass hal p s = some (p1, s1) ∧ p1.wait = 1000 ∧
      (p.state = .tsInitFailed → p1.state = .tsInitFailedWait) ∧
      (p.state = .tsRunFailed → p1.state = .tsRunFailedWait) ∧
      (∀ k, k < 1000 →
        ∃ pk, taskI2Ccommon hal k (p1, s1) = some (pk, s1) ∧
          pk.state = p1.state ∧ pk.wait = 1000 - k) ∧
      (∃ pe, taskI2Ccommon hal 1000 (p1, s1) = some (pe, s1) ∧
        pe.state = .tsInit ∧ pe.wait = 0) ∧
      (∀ q : taskParams, (caseWait q).wait = q.wait - 1) := by
  have key : ∀ (p1 : taskParams) (s1 : Sys), p1.wait = 1000 →
      (p1.state = .tsInitFailedWait ∨ p1.state = .tsRunFailedWait) →
      (∀ k, k < 1000 →
        ∃ pk, taskI2Ccommon hal k (p1, s1) = some (pk, s1) ∧
          pk.state = p1.state ∧ pk.wait = 1000 - k) ∧
      (∃ pe, taskI2Ccommon hal 1000 (p1, s1) = some (pe, s1) ∧
        pe.state = .tsInit ∧ pe.wait = 0) := by
    intro p1 s1 hw hs
    constructor
    · intro k hk
      obtain ⟨pk, e, h1, h2⟩ := taskI2Ccommon_wait hal s1 k p1 hs (by omega)
      exact ⟨pk, e, h1, by omega⟩
    · obtain ⟨pk, e, h1, h2⟩ := taskI2Ccommon_wait hal s1 999 p1 hs (by omega)
      obtain ⟨pe, e2, hw2, hs2⟩ := taskI2Cpass_wait hal pk s1 (by rw [h1]; exact hs)
      refine ⟨pe, ?_, ?_, by omega⟩
      · rw [show 1000 = 999 + 1 from rfl, taskI2Ccommon_add, e]
        simp [taskI2Ccommon, e2]
      · rw [hs2, if_pos (by omega)]
  rcases hst with h | h
  · have e : taskI2Cpass hal p s = some
        ({ p with wait := MAX_FAILED_INIT_WAIT_MS, state := .tsInitFailedWait,
                  inttime := (p.inttime + MIN_TASK_SLEEP_MS) % 2 ^ 32,
                  temptime := (p.temptime + MIN_TASK_SLEEP_MS) % 2 ^ 32 }, s) := by
      simp [taskI2Cpass, taskSwitch, h]
    obtain ⟨k1, k2⟩ := key
      { p with wait := MAX_FAILED_INIT_WAIT_MS, state := .tsInitFailedWait,
               inttime := (p.inttime + MIN_TASK_SLEEP_MS) % 2 ^ 32,
               temptime := (p.temptime + MIN_TASK_SLEEP_MS) % 2 ^ 32 } s rfl (Or.inl rfl)
    refine ⟨_, _, e, rfl, fun _ => rfl, ?_, k1, k2, caseWait_wait⟩
    intro h2; rw [h] at h2; cases h2
  · have e : taskI2Cpass hal p s = some
        ({ (caseRunFailed p s).1 with
            inttime := ((caseRunFailed p s).1.inttime + MIN_TASK_SLEEP_MS) % 2 ^ 32,
            temptime := ((caseRunFailed p s).1.temptime + MIN_TASK_SLEEP_MS) % 2 ^ 32 },
          (caseRunFailed p s).2) := by
      simp [taskI2Cpass, taskSwitch, h]
    obtain ⟨k1, k2⟩ := key
      { (caseRunFailed p s).1 with
          inttime := ((caseRunFailed p s).1.inttime + MIN_TASK_SLEEP_MS) % 2 ^ 32,
          temptime := ((caseRunFailed p s).1.temptime + MIN_TASK_SLEEP_MS) % 2 ^ 32 }
      (caseRunFailed p s).2 rfl (Or.inr rfl)
    refine ⟨_, _, e, rfl, ?_, fun _ => rfl, k1, k2, caseWait_wait⟩
    intro h2; rw [h] at h2; cases h2

/-- C14 at a concrete input: channel 0 in InitFailed after boot arms 1000,
still waits after 999 wait passes and is in Init after 1000. -/
theorem backoff_fixed_witness :
    ∃ p1 s1, taskI2Cpass (Hal.allOk []) { stackZero with state := .tsInitFailed } Sys.boot
        = some (p1, s1) ∧ p1.wait = 1000 ∧ p1.state = .tsInitFailedWait ∧
      (∃ pk, taskI2Ccommon (Hal.allOk []) 999 (p1, s1) = some (pk, s1) ∧
        pk.state = .tsInitFailedWait ∧ pk.wait = 1) ∧
      (∃ pe, taskI2Ccommon (Hal.allOk []) 1000 (p1, s1) = some (pe, s1) ∧
        pe.state = .tsInit ∧ pe.wait = 0) := by
  obtain ⟨p1, s1, e, hw, h1, _, hk, he, _⟩ :=
    backoff_fixed (Hal.allOk []) { stackZero with state := .tsInitFailed } Sys.boot
      (Or.inl rfl)
  obtain ⟨pk, ek, hs, hwk⟩ := hk 999 (by decide)
  exact ⟨p1, s1, e, hw, h1 rfl, ⟨pk, ek, by rw [hs]; exact h1 rfl, hwk⟩, he⟩

/-! ## Lemmas: return values and traces of the drivers -/

theorem I2C_transfer_ok (hal : Hal) (s : Sys) (t : I2C_Transaction) :
    (I2C_transfer hal s t).ok = (hal.i2cReply s.xfers).ok := rfl

theorem I2C_transfer_xfers (hal : Hal) (s : Sys) (t : I2C_Transaction) :
    (I2C_transfer hal s t).sys.xfers = s.xfers + 1 := rfl

theorem I2C_transfer_log (hal : Hal) (s : Sys) (t : I2C_Transaction) :
    (I2C_transfer hal s t).sys.log = s.log ++ [Event.i2c t (hal.i2cReply s.xfers).ok] := rfl

theorem readAD7746_val (hal : Hal) (s : Sys) (cap : adCapSelect) (d : Fin MAX_SENSORS) :
    (readAD7746 hal s cap d).val = if (hal.i2cReply s.xfers).ok = true then 0 else -1 := by
  simp only [readAD7746, I2C_transfer]
  cases (hal.i2cReply s.xfers).ok <;> simp

theorem triggerAD7746temperature_val (hal : Hal) (s : Sys) :
    (triggerAD7746temperature hal s).val
      = if (hal.i2cReply s.xfers).ok = true then 0 else -1 := by
  simp only [triggerAD7746temperature, I2C_transfer]
  cases (hal.i2cReply s.xfers).ok <;> simp

theorem triggerAD7746capacitance_val (hal : Hal) (s : Sys) (c : adConversionTime)
    (cap : adCapSelect) :
    (triggerAD7746capacitance hal s c cap).val
      = if (hal.i2cReply s.xfers).ok = true ∧ (hal.i2cReply (s.xfers + 1)).ok = true
        then 0 else -1 := by
  simp only [triggerAD7746capacitance, I2C_transfer]
  cases (hal.i2cReply s.xfers).ok <;> cases (hal.i2cReply (s.xfers + 1)).ok <;> simp

theorem readHDC1080_val (hal : Hal) (s : Sys) (d : Fin MAX_SENSORS) :
    (readHDC1080 hal s d).val
      = if (hal.i2cReply s.xfers).ok = true ∧ (hal.i2cReply (s.xfers + 1)).ok = true
        then 0 else -1 := by
  simp only [readHDC1080, I2C_transfer, Semaphore_pend, Semaphore_post, Sys.storeSensor]
  cases (hal.i2cReply s.xfers).ok <;> cases (hal.i2cReply (s.xfers + 1)).ok <;> simp

theorem setupHDC1080_val (hal : Hal) (s : Sys) (b : Bool) :
    (setupHDC1080 hal s b).val
      = if (hal.i2cReply s.xfers).ok = true ∧ (hal.i2cReply (s.xfers + 1)).ok = true
        then 0 else -1 := by
  simp only [setupHDC1080, I2C_transfer]
  cases (hal.i2cReply s.xfers).ok <;> cases (hal.i2cReply (s.xfers + 1)).ok <;> simp

theorem setupPCA9536_val (hal : Hal) (s : Sys) :
    (setupPCA9536 hal s).val
      = if (hal.i2cReply s.xfers).ok = true ∧ (hal.i2cReply (s.xfers + 1)).ok = true ∧
          (hal.i2cReply (s.xfers + 2)).ok = true ∧ (hal.i2cReply (s.xfers + 3)).ok = true
        then 0 else -1 := by
  simp only [setupPCA9536, I2C_transfer]
  cases (hal.i2cReply s.xfers).ok <;> cases (hal.i2cReply (s.xfers + 1)).ok <;>
    cases (hal.i2cReply (s.xfers + 2)).ok <;> cases (hal.i2cReply (s.xfers + 3)).ok <;> simp

theorem setupAD7746_val (hal : Hal) (s : Sys) :
    (setupAD7746 hal s).val
      = if (hal.i2cReply s.xfers).ok = true ∧ (hal.i2cReply (s.xfers + 1)).ok = true ∧
          (hal.i2cReply (s.xfers + 2)).ok = true ∧ (hal.i2cReply (s.xfers + 3)).ok = true ∧
          (hal.i2cReply (s.xfers + 4)).ok = true
        then 0 else -1 := by
  simp only [setupAD7746, I2C_transfer_ok, I2C_transfer_xfers]
  split_ifs <;> simp_all

theorem transfersOf_append (a b : List Event) :
    transfersOf (a ++ b) = transfersOf a ++ transfersOf b := by
  induction a with
  | nil => rfl
  | cons e es ih => cases e <;> simp [transfersOf, ih]

/-- The transfers that `setupPCA9536` adds to the trace all go to the
PCA9536. -/
theorem setupPCA9536_log (hal : Hal) (s : Sys) :
    ∃ ev, (setupPCA9536 hal s).sys.log = s.log ++ ev ∧
      ∀ t ∈ transfersOf ev, t.slaveAddress = PCA9536_ADDR := by
  simp only [setupPCA9536, I2C_transfer]
  split_ifs <;>
    exact ⟨_, by simp only [List.append_assoc]; rfl, by simp [transfersOf]⟩

/-- The transfers that `setupAD7746` adds to the trace all go to the
AD7746. -/
theorem setupAD7746_log (hal : Hal) (s : Sys) :
    ∃ ev, (setupAD7746 hal s).sys.log = s.log ++ ev ∧
      ∀ t ∈ transfersOf ev, t.slaveAddress = AD7746_ADDR := by
  simp only [setupAD7746]
  split_ifs <;>
    exact ⟨_, by simp only [I2C_transfer_log, List.append_assoc]; rfl, by simp [transfersOf]⟩


/-! ## Theorems: failures in Init and in Running -/

/-- C13: an Init step ends in InitFailed if and only if the relay setup fails
or, the relay setup succeeding, the capacitance setup fails. After a relay
failure nothing else is attempted: the globals are those the relay setup
left, and every transfer added to the trace went to the PCA9536. After a
capacitance setup failure the humidity / temperature setup is not attempted:
the globals are those the capacitance setup left, and no transfer added to the
trace went to the HDC1080. Otherwise the step ends in Start, and the
`hdc1080initialized` flag says whether the HDC1080 setup returned 0. -/
theorem caseInit_outcome (hal : Hal) (p : taskParams) (s : Sys) (hst : p.state = .tsInit) :
    ∃ p1 s1, taskI2Cpass hal p s = some (p1, s1) ∧
      (p1.state = .tsInitFailed ↔
        (setupPCA9536 hal s).val = -1 ∨
        ((setupPCA9536 hal s).val ≠ -1 ∧
          (setupAD7746 hal (setupPCA9536 hal s).sys).val = -1)) ∧
      ((setupPCA9536 hal s).val = -1 →
        s1 = (setupPCA9536 hal s).sys ∧
        ∃ ev, s1.log = s.log ++ ev ∧ ∀ t ∈ transfersOf ev, t.slaveAddress = PCA9536_ADDR) ∧
      ((setupPCA9536 hal s).val ≠ -1 →
        (setupAD7746 hal (setupPCA9536 hal s).sys).val = -1 →
        s1 = (setupAD7746 hal (setupPCA9536 hal s).sys).sys ∧
        ∃ ev, s1.log = s.log ++ ev ∧ ∀ t ∈ transfersOf ev, t.slaveAddress ≠ HDC1080_ADDR) ∧
      ((setupPCA9536 hal s).val ≠ -1 →
        (setupAD7746 hal (setupPCA9536 hal s).sys).val ≠ -1 →
        p1.state = .tsStart ∧
        p1.hdc1080initialized = decide
          ((setupHDC1080 hal (setupAD7746 hal (setupPCA9536 hal s).sys).sys true).val = 0) ∧
        s1 = (setupHDC1080 hal (setupAD7746 hal (setupPCA9536 hal s).sys).sys true).sys) := by
  have hpass : taskI2Cpass hal p s = some
      ({ (caseInit hal p s).1 with
          inttime := ((caseInit hal p s).1.inttime + MIN_TASK_SLEEP_MS) % 2 ^ 32,
          temptime := ((caseInit hal p s).1.temptime + MIN_TASK_SLEEP_MS) % 2 ^ 32 },
        (caseInit hal p s).2) := by
    simp [taskI2Cpass, taskSwitch, hst]
  refine ⟨_, _, hpass, ?_⟩
  show ((caseInit hal p s).1.state = .tsInitFailed ↔ _) ∧ _
  by_cases h1 : (setupPCA9536 hal s).val = -1
  · have hc : caseInit hal p s = ({ p with state := .tsInitFailed }, (setupPCA9536 hal s).sys) := by
      simp [caseInit, h1]
    rw [hc]
    refine ⟨by simp [h1], fun _ => ⟨rfl, ?_⟩, fun h => absurd h1 h, fun h => absurd h1 h⟩
    exact setupPCA9536_log hal s
  · by_cases h2 : (setupAD7746 hal (setupPCA9536 hal s).sys).val = -1
    · have hc : caseInit hal p s =
          ({ p with state := .tsInitFailed }, (setupAD7746 hal (setupPCA9536 hal s).sys).sys) := by
        simp [caseInit, h1, h2]
      rw [hc]
      refine ⟨by simp [h1, h2], fun h => absurd h h1, fun _ _ => ⟨rfl, ?_⟩,
        fun _ h => absurd h2 h⟩
      obtain ⟨e1, l1, a1⟩ := setupPCA9536_log hal s
      obtain ⟨e2, l2, a2⟩ := setupAD7746_log hal (setupPCA9536 hal s).sys
      refine ⟨e1 ++ e2, by rw [l2, l1, List.append_assoc], ?_⟩
      intro t ht
      rw [transfersOf_append, List.mem_append] at ht
      rcases ht with ht | ht
      · rw [a1 t ht]; decide
      · rw [a2 t ht]; decide
    · have hc : caseInit hal p s =
          ({ p with
              hdc1080initialized :=
                !((setupHDC1080 hal (setupAD7746 hal (setupPCA9536 hal s).sys).sys true).val
                  == -1)
              state := .tsStart },
            (setupHDC1080 hal (setupAD7746 hal (setupPCA9536 hal s).sys).sys true).sys) := by
        simp [caseInit, h1, h2]
      rw [hc]
      refine ⟨by simp [h1, h2], fun h => absurd h h1, fun _ h => absurd h h2,
        fun _ _ => ⟨rfl, ?_, rfl⟩⟩
      show (!(_ == (-1 : Int))) = _
      rw [setupHDC1080_val]
      split_ifs <;> decide

/-- C13 at concrete inputs: channel 0 in Init after boot. With the first
transfer failing the step ends in InitFailed after that one transfer; with the
fifth transfer (the first of the AD7746) failing it ends in InitFailed after
five transfers; with the tenth (the first of the HDC1080) failing it ends in
Start with the device marked uninitialized. -/
theorem caseInit_outcome_witness :
    (∃ p1 s1, taskI2Cpass (Hal.failAt 0 []) { stackZero with state := .tsInit } Sys.boot
        = some (p1, s1) ∧ p1.state = .tsInitFailed ∧ s1.xfers = 1) ∧
    (∃ p1 s1, taskI2Cpass (Hal.failAt 4 []) { stackZero with state := .tsInit } Sys.boot
        = some (p1, s1) ∧ p1.state = .tsInitFailed ∧ s1.xfers = 5) ∧
    (∃ p1 s1, taskI2Cpass (Hal.failAt 9 []) { stackZero with state := .tsInit } Sys.boot
        = some (p1, s1) ∧ p1.state = .tsStart ∧ p1.hdc1080initialized = false) := by
  refine ⟨?_, ?_, ?_⟩
  · obtain ⟨p1, s1, e, hiff, hrel, _, _⟩ :=
      caseInit_outcome (Hal.failAt 0 []) { stackZero with state := .tsInit } Sys.boot rfl
    have hf : (setupPCA9536 (Hal.failAt 0 []) Sys.boot).val = -1 := by decide
    exact ⟨p1, s1, e, hiff.mpr (Or.inl hf), by rw [(hrel hf).1]; decide⟩
  · obtain ⟨p1, s1, e, hiff, _, had, _⟩ :=
      caseInit_outcome (Hal.failAt 4 []) { stackZero with state := .tsInit } Sys.boot rfl
    have h1 : (setupPCA9536 (Hal.failAt 4 []) Sys.boot).val ≠ -1 := by decide
    have h2 : (setupAD7746 (Hal.failAt 4 []) (setupPCA9536 (Hal.failAt 4 []) Sys.boot).sys).val
        = -1 := by decide
    exact ⟨p1, s1, e, hiff.mpr (Or.inr ⟨h1, h2⟩), by rw [(had h1 h2).1]; decide⟩
  · obtain ⟨p1, s1, e, _, _, _, hgo⟩ :=
      caseInit_outcome (Hal.failAt 9 []) { stackZero with state := .tsInit } Sys.boot rfl
    have h1 : (setupPCA9536 (Hal.failAt 9 []) Sys.boot).val ≠ -1 := by decide
    have h2 : (setupAD7746 (Hal.failAt 9 []) (setupPCA9536 (Hal.failAt 9 []) Sys.boot).sys).val
        ≠ -1 := by decide
    obtain ⟨a, b, _⟩ := hgo h1 h2
    exact ⟨p1, s1, e, a, by rw [b]; decide⟩

/-! ## Lemmas: the handling of a completion -/

theorem runningNextCap_eq (p : taskParams) (s : Sys) :
    runningNextCap p s =
      { p with cap_prev := p.cap, cap := specAdvance (s.adGetAllCaps p.device) p.cap } := by
  simp only [runningNextCap, specAdvance]
  cases h : s.adGetAllCaps p.device
  · simp [DEFAULT_CAPACITOR_SELECT]
  · cases hc : p.cap <;> simp

theorem setIntflag_xfers (s : Sys) (d : Fin MAX_SENSORS) (v : Bool) :
    (s.setIntflag d v).xfers = s.xfers := by
  unfold Sys.setIntflag; split <;> rfl

theorem setIntflag_frame (s : Sys) (d : Fin MAX_SENSORS) (v : Bool) :
    (s.setIntflag d v).spiMessageOut = s.spiMessageOut := by
  unfold Sys.setIntflag; split <;> rfl

theorem runningHumidity_congr (hal : Hal) (p q : taskParams) (s : Sys)
    (h1 : p.temptime = q.temptime) (h2 : p.hdc1080initialized = q.hdc1080initialized)
    (h3 : p.device = q.device) :
    (runningHumidity hal p s).2 = (runningHumidity hal q s).2 ∧
    (runningHumidity hal p s).1.hdc1080initialized
      = (runningHumidity hal q s).1.hdc1080initialized := by
  simp only [runningHumidity, h1, h2, h3]
  split_ifs <;> first | exact ⟨rfl, rfl⟩ | exact ⟨rfl, h2⟩

theorem runningTrigger_state (hal : Hal) (p : taskParams) (s : Sys) :
    (runningTrigger hal p s).1.state =
      if (if p.capreads = AD7746_CAP_VS_TEMP_TRIGGER_INTERVAL
            then triggerAD7746temperature hal s
            else triggerAD7746capacitance hal s s.adAllSensorConversionTime p.cap).val = -1
      then .tsRunFailed else p.state := by
  simp only [runningTrigger]
  by_cases h : p.capreads = AD7746_CAP_VS_TEMP_TRIGGER_INTERVAL
  · simp only [h, beq_self_eq_true, if_true]
    split_ifs with a b b <;> first | rfl | (exfalso; simp_all)
  · have hb : (p.capreads == AD7746_CAP_VS_TEMP_TRIGGER_INTERVAL) = false := by simpa using h
    simp only [h, hb, if_false, Bool.false_eq_true]
    split_ifs with a b b <;> first | rfl | (exfalso; simp_all)

theorem runningTrigger_hdc (hal : Hal) (p : taskParams) (s : Sys) :
    (runningTrigger hal p s).1.hdc1080initialized = p.hdc1080initialized ∧
    (runningTrigger hal p s).2.spiMessageOut = s.spiMessageOut := by
  simp only [runningTrigger, triggerAD7746temperature, triggerAD7746capacitance]
  split_ifs <;> exact ⟨rfl, rfl⟩

/-- The handling of a completion, with the parameters after the read written
out. -/
theorem runningCompletion_eq (hal : Hal) (p : taskParams) (s : Sys) :
    runningCompletion hal p s =
      (let rd := readAD7746 hal (s.setIntflag p.device false) p.cap p.device
       let p3 : taskParams :=
        { p with
          inttime := 0
          cap_prev := p.cap
          cap := specAdvance (s.adGetAllCaps p.device) p.cap
          state := if rd.val = -1 then .tsRunFailed else p.state }
       let h := runningHumidity hal p3 rd.sys
       let t := runningTrigger hal h.1 h.2
       ({ t.1 with inttime := (t.1.inttime + 3) % 2 ^ 32,
                   temptime := (t.1.temptime + 3) % 2 ^ 32 }, t.2)) := by
  simp only [runningCompletion, runningNextCap_eq]
  by_cases h : (readAD7746 hal (s.setIntflag p.device false) p.cap p.device).val = -1
  · simp [h]
  · simp [h]


/-- The state after the handling of a completion in Running. -/
theorem runningCompletion_state (hal : Hal) (p : taskParams) (s : Sys)
    (hst : p.state = .tsRunning) :
    (runningCompletion hal p s).1.state =
      if (readAD7746 hal (s.setIntflag p.device false) p.cap p.device).val = -1 ∨
          (if p.capreads = AD7746_CAP_VS_TEMP_TRIGGER_INTERVAL
            then triggerAD7746temperature hal
              (runningHumidity hal p
                (readAD7746 hal (s.setIntflag p.device false) p.cap p.device).sys).2
            else triggerAD7746capacitance hal
              (runningHumidity hal p
                (readAD7746 hal (s.setIntflag p.device false) p.cap p.device).sys).2
              (runningHumidity hal p
                (readAD7746 hal (s.setIntflag p.device false) p.cap
                  p.device).sys).2.adAllSensorConversionTime
              (specAdvance (s.adGetAllCaps p.device) p.cap)).val = -1
      then .tsRunFailed else .tsRunning := by
  rw [runningCompletion_eq]
  simp only []
  rw [runningTrigger_state]
  have hpar := fun q t => runningHumidity_params hal q t
  rw [(hpar _ _).2.2.2.2.2, (hpar _ _).1, (hpar _ _).2.2.2.1]
  simp only [hst]
  by_cases h1 : (readAD7746 hal (s.setIntflag p.device false) p.cap p.device).val = -1
  · simp [h1]
  · simp only [h1, if_false, false_or]
    rw [(runningHumidity_congr hal
      { device := p.device, cap := specAdvance (s.adGetAllCaps p.device) p.cap,
        cap_prev := p.cap, state := taskState.tsRunning, wait := p.wait, inttime := 0,
        capreads := p.capreads, hdc1080initialized := p.hdc1080initialized,
        temptime := p.temptime } p
      (readAD7746 hal (s.setIntflag p.device false) p.cap p.device).sys rfl rfl rfl).1]


/-! ## Theorems: failures while handling a completion -/

/-- C11: a pass in Running that handles a completion (no timeout, flag set)
ends in RunFailed if and only if the capacitance read returned -1 or the
trigger issued in the pass (temperature when `capreads` is at the interval,
capacitance otherwise) returned -1; otherwise it ends in Running. The read
returns -1 exactly when its transfer fails, the trigger exactly when one of
its transfers fails. The humidity / temperature block never changes the
state. -/
theorem taskI2Cpass_runFailed_iff (hal : Hal) (p : taskParams) (s : Sys)
    (hst : p.state = .tsRunning) (hto : p.inttime ≤ MAX_SENSOR_TIMEOUT_MS)
    (hint : s.intflag p.device = true) :
    let rd := readAD7746 hal ((runningRelay hal p s).setIntflag p.device false) p.cap p.device
    let hm := (runningHumidity hal p rd.sys).2
    let trig :=
      if p.capreads = AD7746_CAP_VS_TEMP_TRIGGER_INTERVAL
      then triggerAD7746temperature hal hm
      else triggerAD7746capacitance hal hm hm.adAllSensorConversionTime
        (specAdvance (s.adGetAllCaps p.device) p.cap)
    ∃ p1 s1, taskI2Cpass hal p s = some (p1, s1) ∧
      (p1.state = .tsRunFailed ↔ rd.val = -1 ∨ trig.val = -1) ∧
      (¬ (rd.val = -1 ∨ trig.val = -1) → p1.state = .tsRunning) ∧
      (rd.val = -1 ↔ (hal.i2cReply (runningRelay hal p s).xfers).ok = false) ∧
      (trig.val = -1 ↔
        ((hal.i2cReply hm.xfers).ok = false ∨
          (p.capreads ≠ AD7746_CAP_VS_TEMP_TRIGGER_INTERVAL ∧
            (hal.i2cReply (hm.xfers + 1)).ok = false))) ∧
      (∀ (q : taskParams) (t : Sys), (runningHumidity hal q t).1.state = q.state) := by
  intro rd hm trig
  have hpass := taskI2Cpass_running hal p s hst hto hint
  have hstate := runningCompletion_state hal p (runningRelay hal p s) hst
  rw [runningRelay_adGetAllCaps] at hstate
  refine ⟨_, _, hpass, ?_, ?_, ?_, ?_, fun q t => (runningHumidity_params hal q t).2.2.2.1⟩
  · show (runningCompletion hal p (runningRelay hal p s)).1.state = .tsRunFailed ↔ _
    rw [hstate]
    by_cases h : rd.val = -1 ∨ trig.val = -1
    · rw [if_pos h]; exact iff_of_true rfl h
    · rw [if_neg h]; exact iff_of_false (by decide) h
  · intro h
    show (runningCompletion hal p (runningRelay hal p s)).1.state = .tsRunning
    rw [hstate, if_neg h]
  · show (readAD7746 hal _ p.cap p.device).val = -1 ↔ _
    rw [readAD7746_val, setIntflag_xfers]
    cases (hal.i2cReply (runningRelay hal p s).xfers).ok <;> simp
  · show (if p.capreads = AD7746_CAP_VS_TEMP_TRIGGER_INTERVAL
        then triggerAD7746temperature hal hm
        else triggerAD7746capacitance hal hm hm.adAllSensorConversionTime
          (specAdvance (s.adGetAllCaps p.device) p.cap)).val = -1 ↔ _
    by_cases h10 : p.capreads = AD7746_CAP_VS_TEMP_TRIGGER_INTERVAL
    · rw [if_pos h10, triggerAD7746temperature_val]
      cases (hal.i2cReply hm.xfers).ok <;> simp [h10]
    · rw [if_neg h10, triggerAD7746capacitance_val]
      cases (hal.i2cReply hm.xfers).ok <;> cases (hal.i2cReply (hm.xfers + 1)).ok <;>
        simp [h10]

/-- C11 at concrete inputs: channel 0 in Running after boot with a completion
pending. On a bus without failures the pass ends in Running; with the read
(transfer 0) failing, or with the trigger (transfer 1) failing, it ends in
RunFailed. -/
theorem taskI2Cpass_runFailed_iff_witness :
    (∃ p1 s1, taskI2Cpass (Hal.allOk [1, 2, 3, 4, 5, 6])
        { stackZero with state := .tsRunning } { Sys.boot with intflag0 := true }
        = some (p1, s1) ∧ p1.state = .tsRunning) ∧
    (∃ p1 s1, taskI2Cpass (Hal.failAt 0 [1, 2, 3, 4, 5, 6])
        { stackZero with state := .tsRunning } { Sys.boot with intflag0 := true }
        = some (p1, s1) ∧ p1.state = .tsRunFailed) ∧
    (∃ p1 s1, taskI2Cpass (Hal.failAt 1 [1, 2, 3, 4, 5, 6])
        { stackZero with state := .tsRunning } { Sys.boot with intflag0 := true }
        = some (p1, s1) ∧ p1.state = .tsRunFailed) := by
  refine ⟨?_, ?_, ?_⟩
  · obtain ⟨p1, s1, e, _, hrun, _⟩ := taskI2Cpass_runFailed_iff (Hal.allOk [1, 2, 3, 4, 5, 6])
      { stackZero with state := .tsRunning } { Sys.boot with intflag0 := true }
      rfl (by decide) rfl
    exact ⟨p1, s1, e, hrun (by decide!)⟩
  · obtain ⟨p1, s1, e, hiff, _⟩ := taskI2Cpass_runFailed_iff (Hal.failAt 0 [1, 2, 3, 4, 5, 6])
      { stackZero with state := .tsRunning } { Sys.boot with intflag0 := true }
      rfl (by decide) rfl
    exact ⟨p1, s1, e, hiff.mpr (Or.inl (by decide!))⟩
  · obtain ⟨p1, s1, e, hiff, _⟩ := taskI2Cpass_runFailed_iff (Hal.failAt 1 [1, 2, 3, 4, 5, 6])
      { stackZero with state := .tsRunning } { Sys.boot with intflag0 := true }
      rfl (by decide) rfl
    exact ⟨p1, s1, e, hiff.mpr (Or.inr (by decide!))⟩


/-- The humidity / temperature block when the read of an initialized device
fails: the device is marked uninitialized and the four bytes are zeroed;
the other bytes of the block are as they were. -/
theorem runningHumidity_read_failure (hal : Hal) (p : taskParams) (x : Sys)
    (htemp : MIN_TEMP_READ_PERIOD_MS < p.temptime) (hinit : p.hdc1080initialized = true)
    (hfail : (readHDC1080 hal x p.device).val = -1) :
    (runningHumidity hal p x).1.hdc1080initialized = false ∧
    (runningHumidity hal p x).2.spiMessageOut.sensor p.device =
      { x.spiMessageOut.sensor p.device with
        tempHigh := 0, tempLow := 0, humidityHigh := 0, humidityLow := 0 } := by
  have hblock : { (readHDC1080 hal x p.device).sys.spiMessageOut.sensor p.device with
        tempHigh := 0, tempLow := 0, humidityHigh := 0, humidityLow := 0 } =
      ({ x.spiMessageOut.sensor p.device with
        tempHigh := 0, tempLow := 0, humidityHigh := 0, humidityLow := 0 } : sensorMsg) := by
    simp only [readHDC1080]
    split_ifs <;>
      simp [I2C_transfer, Sys.storeSensor, Semaphore_pend, Semaphore_post]
  constructor
  · simp [runningHumidity, htemp, hinit, hfail]
  · simp only [runningHumidity, htemp, hinit, hfail, if_true, Bool.not_true,
      Bool.false_eq_true, if_false, beq_self_eq_true]
    simp only [Sys.storeSensor, Semaphore_pend, Semaphore_post, Function.update_same]
    exact hblock

/-- C16: in a pass in Running that handles a completion with the temperature
timer above 1000 and the HDC1080 marked initialized, if `readHDC1080` returns
-1 (its read transfer or its re-trigger transfer failed), then after the pass
the device is marked uninitialized, the two temperature bytes and the two
humidity bytes of the channel are zero, and the other fifteen bytes of the
block are those the capacitance read of this pass left. -/
theorem taskI2Cpass_hdc_read_failure (hal : Hal) (p : taskParams) (s : Sys)
    (hst : p.state = .tsRunning) (hto : p.inttime ≤ MAX_SENSOR_TIMEOUT_MS)
    (hint : s.intflag p.device = true)
    (htemp : MIN_TEMP_READ_PERIOD_MS < p.temptime) (hinit : p.hdc1080initialized = true)
    (hfail : (readHDC1080 hal
      (readAD7746 hal ((runningRelay hal p s).setIntflag p.device false) p.cap p.device).sys
      p.device).val = -1) :
    ∃ p1 s1, taskI2Cpass hal p s = some (p1, s1) ∧
      p1.hdc1080initialized = false ∧
      (s1.spiMessageOut.sensor p.device).tempHigh = 0 ∧
      (s1.spiMessageOut.sensor p.device).tempLow = 0 ∧
      (s1.spiMessageOut.sensor p.device).humidityHigh = 0 ∧
      (s1.spiMessageOut.sensor p.device).humidityLow = 0 ∧
      s1.spiMessageOut.sensor p.device =
        { (readAD7746 hal ((runningRelay hal p s).setIntflag p.device false) p.cap
            p.device).sys.spiMessageOut.sensor p.device with
          tempHigh := 0, tempLow := 0, humidityHigh := 0, humidityLow := 0 } ∧
      (∀ (x : Sys) (d : Fin MAX_SENSORS), (readHDC1080 hal x d).val = -1 ↔
        ((hal.i2cReply x.xfers).ok = false ∨ (hal.i2cReply (x.xfers + 1)).ok = false)) := by
  have hpass := taskI2Cpass_running hal p s hst hto hint
  have hf := runningHumidity_read_failure hal p _ htemp hinit hfail
  let rd := readAD7746 hal ((runningRelay hal p s).setIntflag p.device false) p.cap p.device
  let p3 : taskParams :=
    { p with
      inttime := 0
      cap_prev := p.cap
      cap := specAdvance ((runningRelay hal p s).adGetAllCaps p.device) p.cap
      state := if rd.val = -1 then .tsRunFailed else p.state }
  have hc := runningHumidity_congr hal p3 p rd.sys rfl rfl rfl
  have hsys : (runningCompletion hal p (runningRelay hal p s)).2.spiMessageOut.sensor p.device =
      { rd.sys.spiMessageOut.sensor p.device with
          tempHigh := 0, tempLow := 0, humidityHigh := 0, humidityLow := 0 } := by
    rw [runningCompletion_eq]
    show (runningTrigger hal (runningHumidity hal p3 rd.sys).1
      (runningHumidity hal p3 rd.sys).2).2.spiMessageOut.sensor p.device = _
    rw [(runningTrigger_hdc hal _ _).2, hc.1]
    exact hf.2
  have hhdc : (runningCompletion hal p (runningRelay hal p s)).1.hdc1080initialized = false := by
    rw [runningCompletion_eq]
    show (runningTrigger hal (runningHumidity hal p3 rd.sys).1
      (runningHumidity hal p3 rd.sys).2).1.hdc1080initialized = false
    rw [(runningTrigger_hdc hal _ _).1, hc.2]
    exact hf.1
  refine ⟨_, _, hpass, hhdc, ?_, ?_, ?_, ?_, hsys, ?_⟩
  · show ((runningCompletion hal p (runningRelay hal p s)).2.spiMessageOut.sensor
      p.device).tempHigh = 0
    rw [hsys]
  · show ((runningCompletion hal p (runningRelay hal p s)).2.spiMessageOut.sensor
      p.device).tempLow = 0
    rw [hsys]
  · show ((runningCompletion hal p (runningRelay hal p s)).2.spiMessageOut.sensor
      p.device).humidityHigh = 0
    rw [hsys]
  · show ((runningCompletion hal p (runningRelay hal p s)).2.spiMessageOut.sensor
      p.device).humidityLow = 0
    rw [hsys]
  · intro x d
    rw [readHDC1080_val]
    cases (hal.i2cReply x.xfers).ok <;> cases (hal.i2cReply (x.xfers + 1)).ok <;> simp


/-- C16 at concrete inputs: channel 0 in Running after boot with a completion
pending, the temperature timer at 1001 and the device marked initialized. With
the read transfer of the HDC1080 (transfer 1) failing, and with its re-trigger
(transfer 2) failing, the device ends marked uninitialized and the four bytes
are zero. -/
theorem taskI2Cpass_hdc_read_failure_witness :
    (∃ p1 s1, taskI2Cpass (Hal.failAt 1 [1, 2, 3, 4, 5, 6])
        { stackZero with state := .tsRunning, temptime := 1001, hdc1080initialized := true }
        { Sys.boot with intflag0 := true } = some (p1, s1) ∧
      p1.hdc1080initialized = false ∧
      (s1.spiMessageOut.sensor 0).tempHigh = 0 ∧ (s1.spiMessageOut.sensor 0).tempLow = 0 ∧
      (s1.spiMessageOut.sensor 0).humidityHigh = 0 ∧
      (s1.spiMessageOut.sensor 0).humidityLow = 0) ∧
    (∃ p1 s1, taskI2Cpass (Hal.failAt 2 [1, 2, 3, 4, 5, 6])
        { stackZero with state := .tsRunning, temptime := 1001, hdc1080initialized := true }
        { Sys.boot with intflag0 := true } = some (p1, s1) ∧
      p1.hdc1080initialized = false ∧
      (s1.spiMessageOut.sensor 0).tempHigh = 0 ∧ (s1.spiMessageOut.sensor 0).tempLow = 0 ∧
      (s1.spiMessageOut.sensor 0).humidityHigh = 0 ∧
      (s1.spiMessageOut.sensor 0).humidityLow = 0) := by
  constructor
  · obtain ⟨p1, s1, e, h, a, b, c, d, _⟩ :=
      taskI2Cpass_hdc_read_failure (Hal.failAt 1 [1, 2, 3, 4, 5, 6])
        { stackZero with state := .tsRunning, temptime := 1001, hdc1080initialized := true }
        { Sys.boot with intflag0 := true } rfl (by decide) rfl (by decide) rfl (by decide!)
    exact ⟨p1, s1, e, h, a, b, c, d⟩
  · obtain ⟨p1, s1, e, h, a, b, c, d, _⟩ :=
      taskI2Cpass_hdc_read_failure (Hal.failAt 2 [1, 2, 3, 4, 5, 6])
        { stackZero with state := .tsRunning, temptime := 1001, hdc1080initialized := true }
        { Sys.boot with intflag0 := true } rfl (by decide) rfl (by decide) rfl (by decide!)
    exact ⟨p1, s1, e, h, a, b, c, d⟩

/-- C15 (the code at the failing input). Channel 0 starts at power-on reset
on a bus without failures. The counter `capreads` is a local that no code
initialises; with the stack holding 10 there, the states after the first three
passes are Start (power-on reset falls through Init in the same pass), Running
with the completion flag set, and Running, but the conversion triggered by the
first Running step is a temperature conversion, in differential-only mode and
in full-set mode alike: the conversions started are capacitance, capacitance,
temperature, and the capacitor selections written are E0 and E0 only. With the
stack holding 0 there, the first Running step triggers a capacitance
conversion, with the selection E0 (Differential) in differential-only mode and
80 (C1-single) in full-set mode. -/
theorem first_running_step_trigger :
    (taskI2Ccommon (Hal.allOk [1, 2, 3, 4, 5, 6]) 1
        (taskI2C 0 { stackZero with capreads := 10 }, Sys.boot)).map
        (fun r => (r.1.state, r.2.intflag0))
      = some (taskState.tsStart, false) ∧
    (taskI2Ccommon (Hal.allOk [1, 2, 3, 4, 5, 6]) 2
        (taskI2C 0 { stackZero with capreads := 10 }, Sys.boot)).map
        (fun r => (r.1.state, r.2.intflag0))
      = some (taskState.tsRunning, true) ∧
    (taskI2Ccommon (Hal.allOk [1, 2, 3, 4, 5, 6]) 3
        (taskI2C 0 { stackZero with capreads := 10 }, Sys.boot)).map
        (fun r => (r.1.state, conversionsStarted r.2.log, capSelectsWritten r.2.log))
      = some (taskState.tsRunning, [false, false, true], [0xE0, 0xE0]) ∧
    ((slaveTaskCommand (Sys.boot.receive 1 3 0 0)).bind fun s =>
      taskI2Ccommon (Hal.allOk [1, 2, 3, 4, 5, 6]) 3
        (taskI2C 0 { stackZero with capreads := 10 }, s)).map
        (fun r => (r.1.state, conversionsStarted r.2.log, capSelectsWritten r.2.log))
      = some (taskState.tsRunning, [false, false, true], [0xE0, 0xE0]) ∧
    (taskI2Ccommon (Hal.allOk [1, 2, 3, 4, 5, 6]) 3
        (taskI2C 0 stackZero, Sys.boot)).map
        (fun r => (r.1.state, conversionsStarted r.2.log, capSelectsWritten r.2.log))
      = some (taskState.tsRunning, [false, false, false], [0xE0, 0xE0, 0xE0]) ∧
    ((slaveTaskCommand (Sys.boot.receive 1 3 0 0)).bind fun s =>
      taskI2Ccommon (Hal.allOk [1, 2, 3, 4, 5, 6]) 3
        (taskI2C 0 stackZero, s)).map
        (fun r => (r.1.state, conversionsStarted r.2.log, capSelectsWritten r.2.log))
      = some (taskState.tsRunning, [false, false, false], [0xE0, 0xE0, 0x80]) := by
  refine ⟨?_, ?_, ?_, ?_, ?_, ?_⟩ <;> decide!

/-! ## Lemmas: the relay block -/

theorem setSwitchcmd_switchNew (s : Sys) (d e : Fin MAX_SENSORS) (v : Bool) :
    (s.setSwitchcmd d v).switchNew e = s.switchNew e := by
  unfold Sys.setSwitchcmd; split <;> rfl

theorem setSwitchcmd_xfers (s : Sys) (d : Fin MAX_SENSORS) (v : Bool) :
    (s.setSwitchcmd d v).xfers = s.xfers ∧ (s.setSwitchcmd d v).log = s.log ∧
    (s.setSwitchcmd d v).spiMessageOut = s.spiMessageOut ∧
    (s.setSwitchcmd d v).filter = s.filter := by
  unfold Sys.setSwitchcmd; split <;> exact ⟨rfl, rfl, rfl, rfl⟩

theorem switchcmd_setSwitchcmd (s : Sys) (d : Fin MAX_SENSORS) (v : Bool) :
    (s.setSwitchcmd d v).switchcmd d = v := by
  unfold Sys.setSwitchcmd Sys.switchcmd; split <;> simp_all

/-! ## Theorems: single-ended reads, Start and the relay block -/

/-- C26: a successful read in mode C1-single (C2-single) with reply bytes
b0..b5 returns 0 and changes, in the whole telemetry frame, exactly the three
C1 (C2) bytes of the channel, to b0, b1, b2, and its three chip temperature
bytes, to b3, b4, b5; the filter is unchanged. A failed read, in any mode,
returns -1 and leaves the telemetry frame and the filter unchanged. -/
theorem readAD7746_single_read (hal : Hal) (s : Sys) (d : Fin MAX_SENSORS) :
    ((hal.i2cReply s.xfers).ok = true →
      (readAD7746 hal s .adcsC1D0 d).val = 0 ∧
      (readAD7746 hal s .adcsC1D0 d).sys.spiMessageOut =
        { s.spiMessageOut with
          sensor := Function.update s.spiMessageOut.sensor d
            { s.spiMessageOut.sensor d with
              c1High := (hal.i2cReply s.xfers).data.getD 0 0
              c1Mid := (hal.i2cReply s.xfers).data.getD 1 0
              c1Low := (hal.i2cReply s.xfers).data.getD 2 0
              chiptempHigh := (hal.i2cReply s.xfers).data.getD 3 0
              chiptempMid := (hal.i2cReply s.xfers).data.getD 4 0
              chiptempLow := (hal.i2cReply s.xfers).data.getD 5 0 } } ∧
      (readAD7746 hal s .adcsC1D0 d).sys.filter = s.filter ∧
      (readAD7746 hal s .adcsC2D0 d).val = 0 ∧
      (readAD7746 hal s .adcsC2D0 d).sys.spiMessageOut =
        { s.spiMessageOut with
          sensor := Function.update s.spiMessageOut.sensor d
            { s.spiMessageOut.sensor d with
              c2High := (hal.i2cReply s.xfers).data.getD 0 0
              c2Mid := (hal.i2cReply s.xfers).data.getD 1 0
              c2Low := (hal.i2cReply s.xfers).data.getD 2 0
              chiptempHigh := (hal.i2cReply s.xfers).data.getD 3 0
              chiptempMid := (hal.i2cReply s.xfers).data.getD 4 0
              chiptempLow := (hal.i2cReply s.xfers).data.getD 5 0 } } ∧
      (readAD7746 hal s .adcsC2D0 d).sys.filter = s.filter) ∧
    ((hal.i2cReply s.xfers).ok = false →
      ∀ cap : adCapSelect,
        (readAD7746 hal s cap d).val = -1 ∧
        (readAD7746 hal s cap d).sys.spiMessageOut = s.spiMessageOut ∧
        (readAD7746 hal s cap d).sys.filter = s.filter) := by
  constructor
  · intro hok
    refine ⟨?_, ?_, ?_, ?_, ?_, ?_⟩ <;>
      simp [readAD7746, I2C_transfer, hok, Sys.storeSensor, Semaphore_pend, Semaphore_post]
  · intro hok cap
    simp [readAD7746, I2C_transfer, hok]

/-- C26 at concrete inputs: after boot, a C1-single read of channel 1 that
returns 11 22 33 44 55 66 gives the block 00 00 | 00 00 00 | 11 22 33 |
00 00 00 | 00 00 00 | 00 00 | 44 55 66; a failed read leaves the frame as it
was. -/
theorem readAD7746_single_read_witness :
    ((readAD7746 (Hal.allOk [0x11, 0x22, 0x33, 0x44, 0x55, 0x66]) Sys.boot .adcsC1D0
        1).sys.spiMessageOut.sensor 1).bytes
      = [0, 0, 0, 0, 0, 0x11, 0x22, 0x33, 0, 0, 0, 0, 0, 0, 0, 0, 0x44, 0x55, 0x66] ∧
    (readAD7746 (Hal.failAt 0 [0x11, 0x22, 0x33, 0x44, 0x55, 0x66]) Sys.boot .adcsC1D0
        1).sys.spiMessageOut = Sys.boot.spiMessageOut := by
  constructor
  · rw [((readAD7746_single_read (Hal.allOk [0x11, 0x22, 0x33, 0x44, 0x55, 0x66]) Sys.boot
      1).1 rfl).2.1]
    decide
  · exact (((readAD7746_single_read (Hal.failAt 0 [0x11, 0x22, 0x33, 0x44, 0x55, 0x66])
      Sys.boot 1).2 rfl) .adcsC1D0).2.1

/-- C27: a Start step ends in Running whatever the bus answers to its
trigger: inside the step the current and the previous mode are set to
Differential, both timers are set to 0 and the completion flag of the channel
is set; after the tick that ends the pass the timers are at 1. -/
theorem caseStart_outcome (hal : Hal) (p : taskParams) (s : Sys) (hst : p.state = .tsStart) :
    (caseStart hal p s).1.state = .tsRunning ∧
    (caseStart hal p s).1.cap = .adcsC2D1 ∧
    (caseStart hal p s).1.cap_prev = .adcsC2D1 ∧
    (caseStart hal p s).1.inttime = 0 ∧
    (caseStart hal p s).1.temptime = 0 ∧
    (caseStart hal p s).2.intflag p.device = true ∧
    ∃ p1 s1, taskI2Cpass hal p s = some (p1, s1) ∧
      p1.state = .tsRunning ∧ p1.cap = .adcsC2D1 ∧ p1.cap_prev = .adcsC2D1 ∧
      p1.inttime = 1 ∧ p1.temptime = 1 ∧ s1.intflag p.device = true := by
  have hflag : (caseStart hal p s).2.intflag p.device = true := by
    simp only [caseStart]
    exact intflag_setIntflag _ _ _
  refine ⟨rfl, rfl, rfl, rfl, rfl, hflag, ?_⟩
  refine ⟨{ (caseStart hal p s).1 with inttime := 1, temptime := 1 }, (caseStart hal p s).2,
    ?_, rfl, rfl, rfl, rfl, rfl, hflag⟩
  simp [taskI2Cpass, taskSwitch, hst, caseStart, MIN_TASK_SLEEP_MS]

/-- C27 at concrete inputs: channel 0 in Start after boot, with the trigger
succeeding and with its first transfer failing. -/
theorem caseStart_outcome_witness :
    (∃ p1 s1, taskI2Cpass (Hal.allOk []) { stackZero with state := .tsStart } Sys.boot
        = some (p1, s1) ∧ p1.state = .tsRunning ∧ s1.intflag 0 = true) ∧
    (∃ p1 s1, taskI2Cpass (Hal.failAt 0 []) { stackZero with state := .tsStart } Sys.boot
        = some (p1, s1) ∧ p1.state = .tsRunning ∧ s1.intflag 0 = true) := by
  constructor
  · obtain ⟨_, _, _, _, _, _, p1, s1, e, h1, _, _, _, _, h2⟩ :=
      caseStart_outcome (Hal.allOk []) { stackZero with state := .tsStart } Sys.boot rfl
    exact ⟨p1, s1, e, h1, h2⟩
  · obtain ⟨_, _, _, _, _, _, p1, s1, e, h1, _, _, _, _, h2⟩ :=
      caseStart_outcome (Hal.failAt 0 []) { stackZero with state := .tsStart } Sys.boot rfl
    exact ⟨p1, s1, e, h1, h2⟩


/-- C25: in a Running step with the relay flag of the channel set, the relay
block clears the flag and writes the output pattern of the requested position
to the PCA9536 (0x05 for new ACS, 0x0A for old ACS), followed by the reset
pattern 0x00 only if the first transfer succeeded. Apart from the flag, the
transfer count and the trace, the globals (the telemetry frame among them) are
as before, whatever the bus answered; the step then goes on as a Running step
without a relay command from these globals. -/
theorem runningRelay_switch (hal : Hal) (p : taskParams) (s : Sys)
    (hcmd : s.switchcmd p.device = true) :
    runningRelay hal p s =
      { s.setSwitchcmd p.device false with
        xfers := s.xfers + (if (hal.i2cReply s.xfers).ok = true then 2 else 1)
        log := s.log ++
          Event.i2c ⟨0x41, [0x01, if s.switchNew p.device = .swNewACS then 0x05 else 0x0A], 0⟩
              (hal.i2cReply s.xfers).ok ::
            (if (hal.i2cReply s.xfers).ok = true
              then [Event.i2c ⟨0x41, [0x01, 0x00], 0⟩ (hal.i2cReply (s.xfers + 1)).ok]
              else []) } ∧
    (runningRelay hal p s).switchcmd p.device = false ∧
    (runningRelay hal p s).spiMessageOut = s.spiMessageOut ∧
    runningRelay hal p (runningRelay hal p s) = runningRelay hal p s ∧
    caseRunning hal p s = caseRunning hal p (runningRelay hal p s) := by
  have hx := setSwitchcmd_xfers s p.device false
  have hnew := setSwitchcmd_switchNew s p.device p.device false
  have heq : runningRelay hal p s =
      { s.setSwitchcmd p.device false with
        xfers := s.xfers + (if (hal.i2cReply s.xfers).ok = true then 2 else 1)
        log := s.log ++
          Event.i2c ⟨0x41, [0x01, if s.switchNew p.device = .swNewACS then 0x05 else 0x0A], 0⟩
              (hal.i2cReply s.xfers).ok ::
            (if (hal.i2cReply s.xfers).ok = true
              then [Event.i2c ⟨0x41, [0x01, 0x00], 0⟩ (hal.i2cReply (s.xfers + 1)).ok]
              else []) } := by
    simp only [runningRelay, hcmd, if_true, switchPCA9536, I2C_transfer, hx.1, hx.2.1, hnew,
      PCA9536_ADDR, PCA9536_OUT_PORT_REG, PCA9536_OUT_PORT_NEW_ACS, PCA9536_OUT_PORT_OLD_ACS,
      PCA9536_OUT_PORT_RESET]
    cases h1 : (hal.i2cReply s.xfers).ok <;>
      cases h2 : (hal.i2cReply (s.xfers + 1)).ok <;>
      cases h3 : s.switchNew p.device <;> simp
  have hclr : (runningRelay hal p s).switchcmd p.device = false := by
    rw [heq]; exact switchcmd_setSwitchcmd s p.device false
  have hidem : runningRelay hal p (runningRelay hal p s) = runningRelay hal p s :=
    runningRelay_idle hal p _ hclr
  refine ⟨heq, hclr, ?_, hidem, ?_⟩
  · rw [heq]; exact hx.2.2.1
  · simp only [caseRunning, hidem]

/-- C25 at concrete inputs: channel 0 after boot with the relay flag set and
old ACS requested. With the pulse transfer succeeding the trace gets the writes
01 0A and 01 00; with it failing, only the write 01 0A. -/
theorem runningRelay_switch_witness :
    (runningRelay (Hal.allOk []) stackZero
        { Sys.boot with switchcmd0 := true, switchNew0 := .swOldACS }).log
      = [Event.i2c ⟨0x41, [0x01, 0x0A], 0⟩ true, Event.i2c ⟨0x41, [0x01, 0x00], 0⟩ true] ∧
    (runningRelay (Hal.failAt 0 []) stackZero
        { Sys.boot with switchcmd0 := true, switchNew0 := .swOldACS }).log
      = [Event.i2c ⟨0x41, [0x01, 0x0A], 0⟩ false] := by
  constructor
  · rw [(runningRelay_switch (Hal.allOk []) stackZero
      { Sys.boot with switchcmd0 := true, switchNew0 := .swOldACS } rfl).1]
    decide
  · rw [(runningRelay_switch (Hal.failAt 0 []) stackZero
      { Sys.boot with switchcmd0 := true, switchNew0 := .swOldACS } rfl).1]
    decide

/-! ## Lemmas: what a step does to the telemetry frame and to the state -/

theorem I2C_transfer_frame (hal : Hal) (s : Sys) (t : I2C_Transaction) :
    (I2C_transfer hal s t).sys.spiMessageOut = s.spiMessageOut := rfl

theorem setupPCA9536_frame (hal : Hal) (s : Sys) :
    (setupPCA9536 hal s).sys.spiMessageOut = s.spiMessageOut := by
  simp only [setupPCA9536]; split_ifs <;> simp only [I2C_transfer_frame]

theorem setupAD7746_frame (hal : Hal) (s : Sys) :
    (setupAD7746 hal s).sys.spiMessageOut = s.spiMessageOut := by
  simp only [setupAD7746]; split_ifs <;> simp only [I2C_transfer_frame]

theorem setupHDC1080_frame (hal : Hal) (s : Sys) (b : Bool) :
    (setupHDC1080 hal s b).sys.spiMessageOut = s.spiMessageOut := by
  simp only [setupHDC1080]; split_ifs <;> rfl

theorem switchPCA9536_frame (hal : Hal) (s : Sys) (pos : swRelayPositions) :
    (switchPCA9536 hal s pos).sys.spiMessageOut = s.spiMessageOut := by
  simp only [switchPCA9536]; split_ifs <;> rfl

theorem triggerAD7746capacitance_frame (hal : Hal) (s : Sys) (c : adConversionTime)
    (cap : adCapSelect) :
    (triggerAD7746capacitance hal s c cap).sys.spiMessageOut = s.spiMessageOut := by
  simp only [triggerAD7746capacitance]; split_ifs <;> rfl

theorem runningRelay_frame (hal : Hal) (p : taskParams) (s : Sys) :
    (runningRelay hal p s).spiMessageOut = s.spiMessageOut := by
  simp only [runningRelay]; split_ifs
  · rw [switchPCA9536_frame, (setSwitchcmd_xfers s p.device false).2.2.1]
  · rfl

theorem storeSensor_other (s : Sys) (d j : Fin MAX_SENSORS) (f : sensorMsg → sensorMsg)
    (hj : j ≠ d) : (s.storeSensor d f).spiMessageOut.sensor j = s.spiMessageOut.sensor j := by
  simp [Sys.storeSensor, Function.update_noteq hj]

theorem readAD7746_other (hal : Hal) (s : Sys) (cap : adCapSelect) (d j : Fin MAX_SENSORS)
    (hj : j ≠ d) :
    (readAD7746 hal s cap d).sys.spiMessageOut.sensor j = s.spiMessageOut.sensor j := by
  simp only [readAD7746]
  split_ifs
  · rfl
  · cases cap <;>
      simp [Sys.storeSensor, Semaphore_pend, Semaphore_post, I2C_transfer,
        Function.update_noteq hj]

theorem readHDC1080_other (hal : Hal) (s : Sys) (d j : Fin MAX_SENSORS) (hj : j ≠ d) :
    (readHDC1080 hal s d).sys.spiMessageOut.sensor j = s.spiMessageOut.sensor j := by
  simp only [readHDC1080]
  split_ifs <;>
    simp [Sys.storeSensor, Semaphore_pend, Semaphore_post, I2C_transfer,
      Function.update_noteq hj]

theorem runningHumidity_other (hal : Hal) (p : taskParams) (s : Sys) (j : Fin MAX_SENSORS)
    (hj : j ≠ p.device) :
    (runningHumidity hal p s).2.spiMessageOut.sensor j = s.spiMessageOut.sensor j := by
  simp only [runningHumidity]
  split_ifs
  · rw [setupHDC1080_frame]
  · rw [setupHDC1080_frame]
  · simp only [Semaphore_post, Semaphore_pend, Sys.storeSensor, Function.update_noteq hj]
    exact readHDC1080_other hal s p.device j hj
  · exact readHDC1080_other hal s p.device j hj
  · rfl

theorem runningCompletion_other (hal : Hal) (p : taskParams) (s : Sys) (j : Fin MAX_SENSORS)
    (hj : j ≠ p.device) :
    (runningCompletion hal p s).2.spiMessageOut.sensor j = s.spiMessageOut.sensor j := by
  rw [runningCompletion_eq]
  show (runningTrigger hal _ _).2.spiMessageOut.sensor j = _
  rw [(runningTrigger_hdc hal _ _).2]
  refine (runningHumidity_other hal _ _ j ?_).trans ?_
  · exact hj
  · rw [readAD7746_other hal _ _ _ j hj, setIntflag_frame]

theorem caseRunning_other (hal : Hal) (p : taskParams) (s : Sys) (j : Fin MAX_SENSORS)
    (hj : j ≠ p.device) :
    (caseRunning hal p s).2.spiMessageOut.sensor j = s.spiMessageOut.sensor j := by
  simp only [caseRunning]
  split_ifs
  · show (runningRelay hal p s).spiMessageOut.sensor j = _
    rw [runningRelay_frame]
  · rw [runningCompletion_other hal p _ j hj, runningRelay_frame]
  · show (runningRelay hal p s).spiMessageOut.sensor j = _
    rw [runningRelay_frame]

theorem caseInit_frame (hal : Hal) (p : taskParams) (s : Sys) :
    (caseInit hal p s).2.spiMessageOut = s.spiMessageOut := by
  simp only [caseInit]
  split_ifs
  · exact setupPCA9536_frame hal s
  · show (setupAD7746 hal _).sys.spiMessageOut = _
    rw [setupAD7746_frame, setupPCA9536_frame]
  · show (setupHDC1080 hal _ true).sys.spiMessageOut = _
    rw [setupHDC1080_frame, setupAD7746_frame, setupPCA9536_frame]

theorem caseStart_frame (hal : Hal) (p : taskParams) (s : Sys) :
    (caseStart hal p s).2.spiMessageOut = s.spiMessageOut := by
  simp only [caseStart]
  rw [setIntflag_frame, triggerAD7746capacitance_frame]

theorem caseInit_state (hal : Hal) (p : taskParams) (s : Sys) :
    ((caseInit hal p s).1.state = .tsStart ∨ (caseInit hal p s).1.state = .tsInitFailed) ∧
    (caseInit hal p s).1.device = p.device := by
  simp only [caseInit]
  split_ifs
  · exact ⟨Or.inr rfl, rfl⟩
  · exact ⟨Or.inr rfl, rfl⟩
  · exact ⟨Or.inl rfl, rfl⟩

theorem caseRunning_state (hal : Hal) (p : taskParams) (s : Sys)
    (hst : p.state = .tsRunning) :
    ((caseRunning hal p s).1.state = .tsRunning ∨
      (caseRunning hal p s).1.state = .tsRunFailed) ∧
    (caseRunning hal p s).1.device = p.device := by
  simp only [caseRunning]
  split_ifs
  · exact ⟨Or.inr rfl, rfl⟩
  · refine ⟨?_, (runningCompletion_params hal p _).2.2.1⟩
    rw [runningCompletion_state hal p _ hst]
    exact (ite_eq_or_eq _ _ _).symm
  · exact ⟨Or.inl hst, rfl⟩

theorem caseWait_device (p : taskParams) : (caseWait p).device = p.device := by
  simp only [caseWait]
  split_ifs <;> rfl


theorem storeAdGetAllCaps_frame (s s1 : Sys) (i : Nat) (v : Bool)
    (h : storeAdGetAllCaps s i v = some s1) :
    s1.spiMessageOut = s.spiMessageOut ∧ s1.log = s.log ∧ s1.filter = s.filter ∧
    s1.spiMessageIn = s.spiMessageIn := by
  simp only [storeAdGetAllCaps] at h
  split_ifs at h
  cases h
  exact ⟨rfl, rfl, rfl, rfl⟩

/-- The command decoder touches neither the telemetry frame, nor the trace,
nor the filters, nor the inbound buffer. -/
theorem slaveTaskCommand_frame (s s1 : Sys) (h : slaveTaskCommand s = some s1) :
    s1.spiMessageOut = s.spiMessageOut ∧ s1.log = s.log ∧ s1.filter = s.filter ∧
    s1.spiMessageIn = s.spiMessageIn := by
  unfold slaveTaskCommand at h
  dsimp only at h
  split at h
  · cases h; exact ⟨rfl, rfl, rfl, rfl⟩
  split at h
  · cases h; exact ⟨rfl, rfl, rfl, rfl⟩
  split at h
  · cases h; exact ⟨rfl, rfl, rfl, rfl⟩
  split at h
  · cases h; exact ⟨rfl, rfl, rfl, rfl⟩
  split at h
  · exact storeAdGetAllCaps_frame _ _ _ _ h
  split at h
  · exact storeAdGetAllCaps_frame _ _ _ _ h
  · cases h; exact ⟨rfl, rfl, rfl, rfl⟩

/-- What a pass of the channel task returns, case by case. -/
theorem taskI2Cpass_cases (hal : Hal) (p p1 : taskParams) (s s1 : Sys)
    (h : taskI2Cpass hal p s = some (p1, s1)) :
    p1.state = (match p.state with
      | .tsPOR => (caseInit hal { p with state := .tsInit } s.storeHeader).1.state
      | .tsInit => (caseInit hal p s).1.state
      | .tsInitFailed => .tsInitFailedWait
      | .tsInitFailedWait => (caseWait p).state
      | .tsStart => .tsRunning
      | .tsRunning => (caseRunning hal p s).1.state
      | .tsRunFailed => .tsRunFailedWait
      | .tsRunFailedWait => (caseWait p).state) ∧
    s1 = (match p.state with
      | .tsPOR => (caseInit hal { p with state := .tsInit } s.storeHeader).2
      | .tsInit => (caseInit hal p s).2
      | .tsInitFailed => s
      | .tsInitFailedWait => s
      | .tsStart => (caseStart hal p s).2
      | .tsRunning => (caseRunning hal p s).2
      | .tsRunFailed => (caseRunFailed p s).2
      | .tsRunFailedWait => s) ∧
    p1.device = (match p.state with
      | .tsPOR => (caseInit hal { p with state := .tsInit } s.storeHeader).1.device
      | .tsInit => (caseInit hal p s).1.device
      | .tsInitFailedWait => (caseWait p).device
      | .tsRunning => (caseRunning hal p s).1.device
      | .tsRunFailedWait => (caseWait p).device
      | _ => p.device) := by
  simp only [taskI2Cpass, taskSwitch] at h
  cases hst : p.state <;> simp only [hst] at h ⊢
  · split_ifs at h
    · simp at h
    · simp only [Option.map_some', Option.some.injEq, Prod.mk.injEq] at h
      obtain ⟨h1, h2⟩ := h
      subst h1 h2
      exact ⟨rfl, rfl, rfl⟩
  all_goals
    simp only [Option.map_some', Option.some.injEq, Prod.mk.injEq] at h
    obtain ⟨h1, h2⟩ := h
    subst h1 h2
    exact ⟨rfl, rfl, rfl⟩

/-! ## Theorems: channel isolation and the transition graph -/

/-- C24: a pass of the state machine of channel i, in any state and whatever
the bus answers, leaves the blocks of all channels j other than i unchanged
(and the channel number of the task with them); the command decoder, and a
whole transaction of the transport task, change no byte of the telemetry
frame. -/
theorem channel_isolation (hal : Hal) (p : taskParams) (s : Sys) :
    (∀ p1 s1, taskI2Cpass hal p s = some (p1, s1) →
      p1.device = p.device ∧
      ∀ j, j ≠ p.device → s1.spiMessageOut.sensor j = s.spiMessageOut.sensor j) ∧
    (∀ s1, slaveTaskCommand s = some s1 → s1.spiMessageOut = s.spiMessageOut) ∧
    (∀ rx tx s1, slaveTaskFxn rx s = some (tx, s1) → s1.spiMessageOut = s.spiMessageOut) := by
  refine ⟨?_, ?_, ?_⟩
  · intro p1 s1 h
    obtain ⟨_, hs, hd⟩ := taskI2Cpass_cases hal p p1 s s1 h
    cases hst : p.state <;> simp only [hst] at hs hd
    · refine ⟨by rw [hd]; exact (caseInit_state hal _ _).2, fun j _ => ?_⟩
      rw [hs, caseInit_frame]; rfl
    · refine ⟨by rw [hd]; exact (caseInit_state hal _ _).2, fun j _ => ?_⟩
      rw [hs, caseInit_frame]
    · exact ⟨hd, fun j _ => by rw [hs]⟩
    · exact ⟨by rw [hd]; exact caseWait_device p, fun j _ => by rw [hs]⟩
    · exact ⟨hd, fun j _ => by rw [hs, caseStart_frame]⟩
    · refine ⟨by rw [hd]; exact (caseRunning_state hal p s hst).2, fun j hj => ?_⟩
      rw [hs]; exact caseRunning_other hal p s j hj
    · refine ⟨hd, fun j hj => ?_⟩
      rw [hs]
      simp [caseRunFailed, Sys.storeSensor, Sys.storeHeader, Semaphore_pend, Semaphore_post,
        Function.update_noteq hj]
    · exact ⟨by rw [hd]; exact caseWait_device p, fun j _ => by rw [hs]⟩
  · intro s1 h
    exact (slaveTaskCommand_frame s s1 h).1
  · intro rx tx s1 h
    simp only [slaveTaskFxn, SPI_transfer, slaveCommandHandling] at h
    split_ifs at h
    · simp only [Option.map_map, Option.map_eq_some'] at h
      obtain ⟨s2, h2, h3⟩ := h
      simp only [Function.comp, Prod.mk.injEq] at h3
      rw [← h3.2]
      exact (slaveTaskCommand_frame _ s2 h2).1
    · simp only [Option.some.injEq, Prod.mk.injEq] at h
      rw [← h.2]

/-- C24 at a concrete input: after a read of C0 00 00 on channel 3, a
RunFailed pass of channel 0 leaves the block of channel 3 as the read wrote
it. -/
theorem channel_isolation_witness :
    ∃ p1 s1,
      taskI2Cpass (Hal.allOk []) { stackZero with state := .tsRunFailed }
        (readAD7746 (Hal.allOk [0xC0, 0, 0, 1, 2, 3]) Sys.boot .adcsC2D1 3).sys
        = some (p1, s1) ∧
      s1.spiMessageOut.sensor 3 =
        (readAD7746 (Hal.allOk [0xC0, 0, 0, 1, 2, 3]) Sys.boot .adcsC2D1
          3).sys.spiMessageOut.sensor 3 := by
  have h := (channel_isolation (Hal.allOk []) { stackZero with state := .tsRunFailed }
    (readAD7746 (Hal.allOk [0xC0, 0, 0, 1, 2, 3]) Sys.boot .adcsC2D1 3).sys).1
  refine ⟨_, _, rfl, ?_⟩
  exact (h _ _ rfl).2 3 (by decide)

/-- C28: a pass of the channel state machine returns, unless it is the
power-on reset pass with the bus handle not opening (abort), and it changes
the state only along the documented edges. Hence no pass ends in power-on
reset, a pass ends in Running only from Start or Running, and a pass ends in
Init only from one of the two wait states, never from Running. -/
theorem taskI2Cpass_edges (hal : Hal) (p : taskParams) (s : Sys) :
    (taskI2Cpass hal p s = none ↔ p.state = .tsPOR ∧ hal.i2cOpenOk = false) ∧
    (∀ p1 s1, taskI2Cpass hal p s = some (p1, s1) →
      documentedEdge p.state p1.state = true ∧
      p1.state ≠ .tsPOR ∧
      (p1.state = .tsRunning → p.state = .tsStart ∨ p.state = .tsRunning) ∧
      (p1.state = .tsInit →
        p.state = .tsInitFailedWait ∨ p.state = .tsRunFailedWait)) := by
  constructor
  · simp only [taskI2Cpass, taskSwitch]
    cases hst : p.state <;> cases hop : hal.i2cOpenOk <;> simp
  · intro p1 s1 h
    have hedge : documentedEdge p.state p1.state = true := by
      obtain ⟨hs, _, _⟩ := taskI2Cpass_cases hal p p1 s s1 h
      cases hst : p.state <;> simp only [hst] at hs
      · rcases (caseInit_state hal { p with state := .tsInit } s.storeHeader).1 with a | a <;>
          rw [hs, a] <;> rfl
      · rcases (caseInit_state hal p s).1 with a | a <;> rw [hs, a] <;> rfl
      · rw [hs]; rfl
      · rw [hs, caseWait_state, hst]; split_ifs <;> rfl
      · rw [hs]; rfl
      · rcases (caseRunning_state hal p s hst).1 with a | a <;> rw [hs, a] <;> rfl
      · rw [hs]; rfl
      · rw [hs, caseWait_state, hst]; split_ifs <;> rfl
    refine ⟨hedge, ?_, ?_, ?_⟩
    · intro h1; rw [h1] at hedge; revert hedge; cases p.state <;> decide
    · intro h1; rw [h1] at hedge; revert hedge; cases p.state <;> decide
    · intro h1; rw [h1] at hedge; revert hedge; cases p.state <;> decide

/-- C28 at concrete inputs: from Running with a completion pending, a pass on
a bus without failures ends in Running and a pass on a bus whose first
transfer fails ends in RunFailed; both are documented edges. -/
theorem taskI2Cpass_edges_witness :
    (∃ p1 s1, taskI2Cpass (Hal.allOk [1, 2, 3, 4, 5, 6]) { stackZero with state := .tsRunning }
        { Sys.boot with intflag0 := true } = some (p1, s1) ∧
      documentedEdge .tsRunning p1.state = true ∧ p1.state ≠ .tsPOR) ∧
    (∃ p1 s1, taskI2Cpass (Hal.failAt 0 [1, 2, 3, 4, 5, 6]) { stackZero with state := .tsRunning }
        { Sys.boot with intflag0 := true } = some (p1, s1) ∧
      documentedEdge .tsRunning p1.state = true ∧ p1.state ≠ .tsPOR) := by
  constructor
  · have h := (taskI2Cpass_edges (Hal.allOk [1, 2, 3, 4, 5, 6])
      { stackZero with state := .tsRunning } { Sys.boot with intflag0 := true }).2 _ _ rfl
    exact ⟨_, _, rfl, h.1, h.2.1⟩
  · have h := (taskI2Cpass_edges (Hal.failAt 0 [1, 2, 3, 4, 5, 6])
      { stackZero with state := .tsRunning } { Sys.boot with intflag0 := true }).2 _ _ rfl
    exact ⟨_, _, rfl, h.1, h.2.1⟩

/-! ## Lemmas: lock balance of the traces -/

theorem lockBalance_append (a b : List Event) (h : Bool) :
    lockBalance h (a ++ b) = (lockBalance h a).bind fun h1 => lockBalance h1 b := by
  induction a generalizing h with
  | nil => rfl
  | cons e es ih =>
    cases e <;> cases h <;> simp [lockBalance, ih]

theorem LockBalanced.refl (s : Sys) : LockBalanced s s :=
  ⟨[], by simp, rfl⟩

theorem LockBalanced.trans {a b c : Sys} (h1 : LockBalanced a b) (h2 : LockBalanced b c) :
    LockBalanced a c := by
  obtain ⟨e1, hl1, hb1⟩ := h1
  obtain ⟨e2, hl2, hb2⟩ := h2
  refine ⟨e1 ++ e2, by rw [hl2, hl1, List.append_assoc], ?_⟩
  rw [lockBalance_append, hb1]
  exact hb2

theorem LockBalanced.of_log {a b : Sys} (h : b.log = a.log) : LockBalanced a b :=
  ⟨[], by simp [h], rfl⟩

theorem LockBalanced.i2c {a b : Sys} (hal : Hal) (t : I2C_Transaction) (h : LockBalanced a b) :
    LockBalanced a (I2C_transfer hal b t).sys :=
  h.trans ⟨[Event.i2c t (hal.i2cReply b.xfers).ok], rfl, rfl⟩

theorem setIntflag_log (s : Sys) (d : Fin MAX_SENSORS) (v : Bool) :
    (s.setIntflag d v).log = s.log := by
  unfold Sys.setIntflag; split <;> rfl

theorem setupPCA9536_lock (hal : Hal) (s : Sys) : LockBalanced s (setupPCA9536 hal s).sys := by
  simp only [setupPCA9536]
  split_ifs <;> (repeat apply LockBalanced.i2c) <;> exact LockBalanced.refl _

theorem setupAD7746_lock (hal : Hal) (s : Sys) : LockBalanced s (setupAD7746 hal s).sys := by
  simp only [setupAD7746]
  split_ifs <;> (repeat apply LockBalanced.i2c) <;> exact LockBalanced.refl _

theorem setupHDC1080_lock (hal : Hal) (s : Sys) (b : Bool) :
    LockBalanced s (setupHDC1080 hal s b).sys := by
  simp only [setupHDC1080]
  split_ifs <;> (repeat apply LockBalanced.i2c) <;> exact LockBalanced.refl _

theorem switchPCA9536_lock (hal : Hal) (s : Sys) (pos : swRelayPositions) :
    LockBalanced s (switchPCA9536 hal s pos).sys := by
  simp only [switchPCA9536]
  split_ifs <;> (repeat apply LockBalanced.i2c) <;> exact LockBalanced.refl _

theorem triggerAD7746capacitance_lock (hal : Hal) (s : Sys) (c : adConversionTime)
    (cap : adCapSelect) : LockBalanced s (triggerAD7746capacitance hal s c cap).sys := by
  simp only [triggerAD7746capacitance]
  split_ifs <;> (repeat apply LockBalanced.i2c) <;> exact LockBalanced.refl _

theorem triggerAD7746temperature_lock (hal : Hal) (s : Sys) :
    LockBalanced s (triggerAD7746temperature hal s).sys := by
  simp only [triggerAD7746temperature]
  split_ifs <;> (repeat apply LockBalanced.i2c) <;> exact LockBalanced.refl _

/-- The trace of `readAD7746`: the transfer, and after a successful one the
acquire, the stores and the release. -/
theorem readAD7746_log (hal : Hal) (s : Sys) (cap : adCapSelect) (d : Fin MAX_SENSORS) :
    (readAD7746 hal s cap d).sys.log =
      s.log ++ Event.i2c ⟨AD7746_ADDR, [AD7746_READ], 6⟩ (hal.i2cReply s.xfers).ok ::
        (if (hal.i2cReply s.xfers).ok then
          Event.semPend :: Event.frameWrite ::
            ((if cap = .adcsC2D1 then [Event.frameWrite] else []) ++
              [Event.frameWrite, Event.semPost])
        else []) := by
  cases hok : (hal.i2cReply s.xfers).ok <;> cases cap <;>
    simp [readAD7746, I2C_transfer, hok, Sys.storeSensor, Semaphore_pend, Semaphore_post]

theorem readAD7746_lock (hal : Hal) (s : Sys) (cap : adCapSelect) (d : Fin MAX_SENSORS) :
    LockBalanced s (readAD7746 hal s cap d).sys := by
  refine ⟨_, readAD7746_log hal s cap d, ?_⟩
  cases (hal.i2cReply s.xfers).ok <;> cases cap <;> rfl

/-- The trace of `readHDC1080`: the read, and after a successful one the
acquire, the store, the release and the trigger. -/
theorem readHDC1080_log (hal : Hal) (s : Sys) (d : Fin MAX_SENSORS) :
    (readHDC1080 hal s d).sys.log =
      s.log ++ Event.i2c ⟨HDC1080_ADDR, [], 4⟩ (hal.i2cReply s.xfers).ok ::
        (if (hal.i2cReply s.xfers).ok then
          [Event.semPend, Event.frameWrite, Event.semPost,
            Event.i2c ⟨HDC1080_ADDR, [HDC1080_TRIGGER_BOTH], 0⟩ (hal.i2cReply (s.xfers + 1)).ok]
        else []) := by
  cases hok : (hal.i2cReply s.xfers).ok <;>
    cases hok2 : (hal.i2cReply (s.xfers + 1)).ok <;>
    simp [readHDC1080, I2C_transfer, hok, hok2, Sys.storeSensor, Semaphore_pend, Semaphore_post]

theorem readHDC1080_lock (hal : Hal) (s : Sys) (d : Fin MAX_SENSORS) :
    LockBalanced s (readHDC1080 hal s d).sys := by
  refine ⟨_, readHDC1080_log hal s d, ?_⟩
  cases (hal.i2cReply s.xfers).ok <;> rfl

theorem locked_store (a b : Sys) (d : Fin MAX_SENSORS) (f : sensorMsg → sensorMsg)
    (h : LockBalanced a b) :
    LockBalanced a (Semaphore_post ((Semaphore_pend b).storeSensor d f)) :=
  h.trans ⟨[Event.semPend, Event.frameWrite, Event.semPost],
    by simp [Semaphore_post, Semaphore_pend, Sys.storeSensor], rfl⟩

theorem runningHumidity_lock (hal : Hal) (p : taskParams) (s : Sys) :
    LockBalanced s (runningHumidity hal p s).2 := by
  simp only [runningHumidity]
  split_ifs
  · exact setupHDC1080_lock hal s false
  · exact setupHDC1080_lock hal s false
  · exact locked_store _ _ _ _ (readHDC1080_lock hal s _)
  · exact readHDC1080_lock hal s _
  · exact LockBalanced.refl s

theorem runningTrigger_lock (hal : Hal) (p : taskParams) (s : Sys) :
    LockBalanced s (runningTrigger hal p s).2 := by
  simp only [runningTrigger]
  split_ifs
  · exact triggerAD7746temperature_lock hal s
  · exact triggerAD7746temperature_lock hal s
  · exact triggerAD7746capacitance_lock hal s _ _
  · exact triggerAD7746capacitance_lock hal s _ _

theorem runningRelay_lock (hal : Hal) (p : taskParams) (s : Sys) :
    LockBalanced s (runningRelay hal p s) := by
  simp only [runningRelay]
  split_ifs
  · exact (LockBalanced.of_log (setSwitchcmd_xfers s p.device false).2.1).trans
      (switchPCA9536_lock hal _ _)
  · exact LockBalanced.refl s

theorem runningCompletion_lock (hal : Hal) (p : taskParams) (s : Sys) :
    LockBalanced s (runningCompletion hal p s).2 := by
  simp only [runningCompletion]
  exact (((LockBalanced.of_log (setIntflag_log s _ false)).trans
    (readAD7746_lock hal _ _ _)).trans (runningHumidity_lock hal _ _)).trans
    (runningTrigger_lock hal _ _)

theorem caseRunning_lock (hal : Hal) (p : taskParams) (s : Sys) :
    LockBalanced s (caseRunning hal p s).2 := by
  simp only [caseRunning]
  split_ifs
  · exact runningRelay_lock hal p s
  · exact (runningRelay_lock hal p s).trans (runningCompletion_lock hal p _)
  · exact runningRelay_lock hal p s

theorem caseInit_lock (hal : Hal) (p : taskParams) (s : Sys) :
    LockBalanced s (caseInit hal p s).2 := by
  simp only [caseInit]
  split_ifs
  · exact setupPCA9536_lock hal s
  · exact (setupPCA9536_lock hal s).trans (setupAD7746_lock hal _)
  · exact ((setupPCA9536_lock hal s).trans (setupAD7746_lock hal _)).trans
      (setupHDC1080_lock hal _ true)

theorem caseStart_lock (hal : Hal) (p : taskParams) (s : Sys) :
    LockBalanced s (caseStart hal p s).2 := by
  simp only [caseStart]
  exact (triggerAD7746capacitance_lock hal s _ _).trans
    (LockBalanced.of_log (setIntflag_log _ _ true))

/-- The trace of the RunFailed step. -/
theorem caseRunFailed_log (p : taskParams) (s : Sys) :
    (caseRunFailed p s).2.log =
      s.log ++ [Event.semPend, Event.frameWrite, Event.frameWrite, Event.semPost] := by
  simp [caseRunFailed, Sys.storeSensor, Sys.storeHeader, Semaphore_pend, Semaphore_post]

/-- The trace of the command handling of the transport task. -/
theorem slaveCommandHandling_log (s s1 : Sys) (h : slaveCommandHandling s = some s1) :
    s1.log = s.log ++ [Event.semPend, Event.semPost] := by
  simp only [slaveCommandHandling, Option.map_eq_some'] at h
  obtain ⟨s2, h2, h3⟩ := h
  have hl := (slaveTaskCommand_frame _ s2 h2).2.1
  rw [← h3]
  simp [Semaphore_post, hl, Semaphore_pend]


/-! ## Theorems: the semaphore and the transport task -/

/-- C30: lock balance. On every path, error returns included, the events that
readAD7746, readHDC1080, the humidity and temperature part of Running (with
its failure branch), the RunFailed step and the command handling of the
transport task add to the trace are balanced: starting with the semaphore not
held, every acquire is followed by its release before the next acquire and
before the end, and no bus transfer lies between an acquire and its release.
The same holds for a whole transaction of the transport task and a whole pass
of a channel task. The command handling has no result only where the decoder
has none (the store outside the table). -/
theorem lock_balance (hal : Hal) (p : taskParams) (s : Sys) (cap : adCapSelect)
    (d : Fin MAX_SENSORS) :
    LockBalanced s (readAD7746 hal s cap d).sys ∧
    LockBalanced s (readHDC1080 hal s d).sys ∧
    LockBalanced s (runningHumidity hal p s).2 ∧
    LockBalanced s (caseRunFailed p s).2 ∧
    (slaveCommandHandling s = none ↔ slaveTaskCommand (Semaphore_pend s) = none) ∧
    (∀ s1, slaveCommandHandling s = some s1 → LockBalanced s s1) ∧
    (∀ rx tx s1, slaveTaskFxn rx s = some (tx, s1) → LockBalanced s s1) ∧
    (∀ p1 s1, taskI2Cpass hal p s = some (p1, s1) → LockBalanced s s1) := by
  refine ⟨readAD7746_lock hal s cap d, readHDC1080_lock hal s d, runningHumidity_lock hal p s,
    ⟨_, caseRunFailed_log p s, rfl⟩, ?_, ?_, ?_, ?_⟩
  · simp [slaveCommandHandling]
  · intro s1 h
    exact ⟨_, slaveCommandHandling_log s s1 h, rfl⟩
  · intro rx tx s1 h
    simp only [slaveTaskFxn] at h
    split_ifs at h
    · simp only [Option.map_eq_some'] at h
      obtain ⟨s2, h2, h3⟩ := h
      simp only [Prod.mk.injEq] at h3
      rw [← h3.2]
      refine ⟨[Event.spiTransfer, Event.semPend, Event.semPost], ?_, rfl⟩
      rw [slaveCommandHandling_log _ s2 h2]
      simp [SPI_transfer]
    · simp only [SPI_transfer, Option.some.injEq, Prod.mk.injEq] at h
      rw [← h.2]
      exact ⟨[Event.spiTransfer], rfl, rfl⟩
  · intro p1 s1 h
    obtain ⟨_, hs, _⟩ := taskI2Cpass_cases hal p p1 s s1 h
    cases hst : p.state <;> simp only [hst] at hs <;> rw [hs]
    · exact LockBalanced.trans ⟨[Event.frameWrite], rfl, rfl⟩ (caseInit_lock hal _ _)
    · exact caseInit_lock hal p s
    · exact LockBalanced.refl s
    · exact LockBalanced.refl s
    · exact caseStart_lock hal p s
    · exact caseRunning_lock hal p s
    · exact ⟨_, caseRunFailed_log p s, rfl⟩
    · exact LockBalanced.refl s

/-- C30 at concrete inputs: the RunFailed pass of channel 0 after boot adds
acquire, two stores, release; a transaction that carries the command 1 0 1 1
adds the transfer, acquire, release. -/
theorem lock_balance_witness :
    (∃ p1 s1, taskI2Cpass (Hal.allOk []) { stackZero with state := .tsRunFailed } Sys.boot
        = some (p1, s1) ∧ LockBalanced Sys.boot s1 ∧
      s1.log = [Event.semPend, Event.frameWrite, Event.frameWrite, Event.semPost]) ∧
    (∃ tx s1, slaveTaskFxn ⟨1, 0, 1, 1, List.replicate 115 0⟩ Sys.boot = some (tx, s1) ∧
      LockBalanced Sys.boot s1 ∧
      s1.log = [Event.spiTransfer, Event.semPend, Event.semPost]) := by
  have h := lock_balance (Hal.allOk []) { stackZero with state := .tsRunFailed } Sys.boot
    .adcsC2D1 0
  exact ⟨⟨_, _, rfl, h.2.2.2.2.2.2.2 _ _ rfl, rfl⟩, 
    ⟨_, _, rfl, h.2.2.2.2.2.2.1 ⟨1, 0, 1, 1, List.replicate 115 0⟩ _ _ rfl, rfl⟩⟩

/-- C21, evaluated: the pass of power-on reset of channel 0 after boot starts
with a store to the telemetry frame (the header) with the semaphore not held,
and a transaction of the transport task, with or without a command, transmits
the frame with the semaphore not held: neither trace is guarded. The RunFailed
step, which stores the same header, and a read of the AD7746 are guarded. -/
theorem frame_access_outside_lock :
    (∃ p1 s1, taskI2Cpass (Hal.allOk []) (taskI2C 0 stackZero) Sys.boot = some (p1, s1) ∧
      s1.log.head? = some Event.frameWrite ∧ frameGuarded false s1.log = false) ∧
    (∃ tx s1, slaveTaskFxn ⟨0, 0, 0, 0, List.replicate 115 0⟩ Sys.boot = some (tx, s1) ∧
      s1.log = [Event.spiTransfer] ∧ frameGuarded false s1.log = false) ∧
    (∃ tx s1, slaveTaskFxn ⟨1, 0, 1, 1, List.replicate 115 0⟩ Sys.boot = some (tx, s1) ∧
      s1.log = [Event.spiTransfer, Event.semPend, Event.semPost] ∧
      frameGuarded false s1.log = false) ∧
    frameGuarded false (caseRunFailed (taskI2C 0 stackZero) Sys.boot).2.log = true ∧
    frameGuarded false
      (readAD7746 (Hal.allOk [0xC0, 0, 0, 1, 2, 3]) Sys.boot .adcsC2D1 0).sys.log = true := by
  refine ⟨⟨_, _, rfl, ?_, ?_⟩, ⟨_, _, rfl, rfl, rfl⟩, ⟨_, _, rfl, rfl, rfl⟩, ?_, ?_⟩
  · decide
  · decide
  · decide
  · decide

/-- C23, the claim as stated fails: after a transaction that receives the
command 1 1 1 7, the inbound buffer holds 0 1 1 7, not four zeroes. -/
theorem command_frame_not_zeroed :
    ∃ tx s1, slaveTaskFxn ⟨1, 1, 1, 7, List.replicate 115 0⟩ Sys.boot = some (tx, s1) ∧
      s1.spiMessageIn.buf = [0, 1, 1, 7] ++ List.replicate 115 0 ∧
      s1.spiMessageIn.buf ≠ List.replicate 119 0 :=
  ⟨_, _, rfl, by decide, by decide⟩

/-- C23, amended: in one transaction of the transport task the inbound frame
is decoded iff its first byte is not 0. With first byte 0 the transaction
changes nothing but the inbound buffer (which holds the received frame) and
the trace. With first byte not 0 the decoder runs between acquire and release
on the received frame, and afterwards the first byte of the inbound buffer is
0 while all its other bytes keep the received values. -/
theorem slaveTaskFxn_command_consumed (rx : spiMessageIn_t) (s : Sys) :
    (rx.cmd0 = 0 →
      slaveTaskFxn rx s = some (s.spiMessageOut.buf,
        { s with spiMessageIn := rx, log := s.log ++ [Event.spiTransfer] })) ∧
    (rx.cmd0 ≠ 0 →
      slaveTaskFxn rx s =
        (slaveTaskCommand (Semaphore_pend
          { s with spiMessageIn := rx, log := s.log ++ [Event.spiTransfer] })).map fun s1 =>
            (s.spiMessageOut.buf,
              Semaphore_post { s1 with spiMessageIn := { s1.spiMessageIn with cmd0 := 0 } })) ∧
    (rx.cmd0 ≠ 0 → ∀ tx s1, slaveTaskFxn rx s = some (tx, s1) →
      s1.spiMessageIn = { rx with cmd0 := 0 } ∧
      s1.spiMessageIn.buf = 0 :: rx.buf.tail) := by
  have hb : rx.cmd0 ≠ 0 → slaveTaskFxn rx s =
        (slaveTaskCommand (Semaphore_pend
          { s with spiMessageIn := rx, log := s.log ++ [Event.spiTransfer] })).map fun s1 =>
            (s.spiMessageOut.buf,
              Semaphore_post { s1 with spiMessageIn := { s1.spiMessageIn with cmd0 := 0 } }) := by
    intro h
    have hb0 : ((SPI_transfer rx s).2.spiMessageIn.cmd0 != 0) = true := by
      simpa [SPI_transfer] using h
    simp only [slaveTaskFxn, hb0, if_true, slaveCommandHandling, Option.map_map]
    rfl
  refine ⟨?_, hb, ?_⟩
  · intro h
    simp [slaveTaskFxn, SPI_transfer, h]
  · intro h tx s1 hs
    rw [hb h, Option.map_eq_some'] at hs
    obtain ⟨s2, h2, h3⟩ := hs
    have hin := (slaveTaskCommand_frame _ s2 h2).2.2.2
    simp only [Prod.mk.injEq] at h3
    have h4 : s1.spiMessageIn = { rx with cmd0 := 0 } := by
      rw [← h3.2]
      simp [Semaphore_post, hin, Semaphore_pend]
    exact ⟨h4, by rw [h4]; rfl⟩

/-- C23 amended, at concrete inputs: the frame 0 1 1 7 switches nothing, the
frame 1 1 1 7 raises the relay command of channel 3 and leaves 0 1 1 7 in the
inbound buffer. -/
theorem slaveTaskFxn_command_consumed_witness :
    (∃ s1, slaveTaskFxn ⟨0, 1, 1, 7, List.replicate 115 0⟩ Sys.boot
        = some (Sys.boot.spiMessageOut.buf, s1) ∧ s1.switchcmd3 = false) ∧
    (∃ tx s1, slaveTaskFxn ⟨1, 1, 1, 7, List.replicate 115 0⟩ Sys.boot = some (tx, s1) ∧
      s1.switchcmd3 = true ∧
      s1.spiMessageIn.buf = 0 :: [1, 1, 7] ++ List.replicate 115 0) := by
  have h0 := (slaveTaskFxn_command_consumed ⟨0, 1, 1, 7, List.replicate 115 0⟩ Sys.boot).1 rfl
  have h1 := (slaveTaskFxn_command_consumed ⟨1, 1, 1, 7, List.replicate 115 0⟩
    Sys.boot).2.2 (by decide) _ _ rfl
  exact ⟨⟨_, h0, rfl⟩, ⟨_, _, rfl, rfl, h1.2⟩⟩

/-- C22, evaluated. A schedule in which channel 0 runs its RunFailed step and
the transport task one transaction, the transfer falling between the two
stores of the step: each task does exactly what the code does, the semaphore
is respected, and the frame is transmitted while channel 0 is part-way
through its update. In states: with channel 0 holding 80 00 00 as raw and as
filtered value, a differential read of C0 00 00 that is preempted by the
transfer after the store of the raw bytes lets the frame go out with raw
C0 00 00 next to filtered 80 00 00, a frame that is neither the one before the
read nor the one after it (filtered 80 6D 48). -/
theorem transport_snapshot_mid_update :
    (∃ sch : Schedule,
      sch = [(0, Event.semPend), (0, Event.frameWrite), (transportTask, Event.spiTransfer),
        (0, Event.frameWrite), (0, Event.semPost)] ∧
      sch.traceOf 0 = (caseRunFailed { stackZero with state := .tsRunFailed } Sys.boot).2.log ∧
      (∃ tx s1, slaveTaskFxn ⟨0, 0, 0, 0, List.replicate 115 0⟩ Sys.boot = some (tx, s1) ∧
        sch.traceOf transportTask = s1.log) ∧
      Schedule.admissible none sch = true ∧
      Schedule.snapshotsClean none sch = false) ∧
    (∃ (hal : Hal) (s0 mid : Sys) (tx : List Nat),
      hal = ⟨fun n => ⟨true, if n = 0 then [0x80, 0, 0, 1, 2, 3] else [0xC0, 0, 0, 1, 2, 3]⟩,
        true⟩ ∧
      s0 = (readAD7746 hal Sys.boot .adcsC2D1 0).sys ∧
      mid = (Semaphore_pend (I2C_transfer hal s0 ⟨AD7746_ADDR, [AD7746_READ], 6⟩).sys).storeSensor
        0 (fun b => { b with diffCapHigh := 0xC0, diffCapMid := 0, diffCapLow := 0 }) ∧
      tx = (SPI_transfer ⟨0, 0, 0, 0, List.replicate 115 0⟩ mid).1 ∧
      mid.log ++ [Event.frameWrite, Event.frameWrite, Event.semPost]
        = (readAD7746 hal s0 .adcsC2D1 0).sys.log ∧
      (s0.spiMessageOut.buf.take 19).drop 5
        = [0, 0, 0x80, 0, 0, 0, 0, 0, 0, 0, 0, 0x80, 0, 0] ∧
      (tx.take 19).drop 5 = [0, 0, 0xC0, 0, 0, 0, 0, 0, 0, 0, 0, 0x80, 0, 0] ∧
      ((readAD7746 hal s0 .adcsC2D1 0).sys.spiMessageOut.buf.take 19).drop 5
        = [0, 0, 0xC0, 0, 0, 0, 0, 0, 0, 0, 0, 0x80, 0x6D, 0x48]) := by
  refine ⟨⟨_, rfl, by decide, ⟨_, _, rfl, by decide⟩, by decide, by decide⟩,
    ⟨_, _, _, _, rfl, rfl, rfl, rfl, ?_, ?_, ?_, ?_⟩⟩
  · decide
  · decide!
  · decide!
  · decide!

/-! ## Lemmas: the range of the filter -/

theorem I2C_transfer_filter (hal : Hal) (s : Sys) (t : I2C_Transaction) :
    (I2C_transfer hal s t).sys.filter = s.filter := rfl

theorem setIntflag_filter (s : Sys) (d : Fin MAX_SENSORS) (v : Bool) :
    (s.setIntflag d v).filter = s.filter := by
  unfold Sys.setIntflag; split <;> rfl

theorem setupPCA9536_filter (hal : Hal) (s : Sys) : (setupPCA9536 hal s).sys.filter = s.filter := by
  simp only [setupPCA9536]; split_ifs <;> simp only [I2C_transfer_filter]

theorem setupAD7746_filter (hal : Hal) (s : Sys) : (setupAD7746 hal s).sys.filter = s.filter := by
  simp only [setupAD7746]; split_ifs <;> simp only [I2C_transfer_filter]

theorem setupHDC1080_filter (hal : Hal) (s : Sys) (b : Bool) :
    (setupHDC1080 hal s b).sys.filter = s.filter := by
  simp only [setupHDC1080]; split_ifs <;> simp only [I2C_transfer_filter]

theorem switchPCA9536_filter (hal : Hal) (s : Sys) (pos : swRelayPositions) :
    (switchPCA9536 hal s pos).sys.filter = s.filter := by
  simp only [switchPCA9536]; split_ifs <;> simp only [I2C_transfer_filter]

theorem triggerAD7746capacitance_filter (hal : Hal) (s : Sys) (c : adConversionTime)
    (cap : adCapSelect) : (triggerAD7746capacitance hal s c cap).sys.filter = s.filter := by
  simp only [triggerAD7746capacitance]; split_ifs <;> simp only [I2C_transfer_filter]

theorem triggerAD7746temperature_filter (hal : Hal) (s : Sys) :
    (triggerAD7746temperature hal s).sys.filter = s.filter := by
  simp only [triggerAD7746temperature]; split_ifs <;> simp only [I2C_transfer_filter]

theorem readHDC1080_filter (hal : Hal) (s : Sys) (d : Fin MAX_SENSORS) :
    (readHDC1080 hal s d).sys.filter = s.filter := by
  simp only [readHDC1080]
  split_ifs <;>
    simp only [I2C_transfer_filter, Semaphore_post, Semaphore_pend, Sys.storeSensor]

theorem runningRelay_filter (hal : Hal) (p : taskParams) (s : Sys) :
    (runningRelay hal p s).filter = s.filter := by
  simp only [runningRelay]
  split_ifs
  · rw [switchPCA9536_filter, (setSwitchcmd_xfers s p.device false).2.2.2]
  · rfl

theorem runningHumidity_filter (hal : Hal) (p : taskParams) (s : Sys) :
    (runningHumidity hal p s).2.filter = s.filter := by
  simp only [runningHumidity]
  split_ifs
  · exact setupHDC1080_filter hal s false
  · exact setupHDC1080_filter hal s false
  · exact readHDC1080_filter hal s _
  · exact readHDC1080_filter hal s _
  · rfl

theorem runningTrigger_filter (hal : Hal) (p : taskParams) (s : Sys) :
    (runningTrigger hal p s).2.filter = s.filter := by
  simp only [runningTrigger]
  split_ifs
  · exact triggerAD7746temperature_filter hal s
  · exact triggerAD7746temperature_filter hal s
  · exact triggerAD7746capacitance_filter hal s _ _
  · exact triggerAD7746capacitance_filter hal s _ _

theorem caseInit_filter (hal : Hal) (p : taskParams) (s : Sys) :
    (caseInit hal p s).2.filter = s.filter := by
  simp only [caseInit]
  split_ifs
  · exact setupPCA9536_filter hal s
  · rw [setupAD7746_filter, setupPCA9536_filter]
  · rw [setupHDC1080_filter, setupAD7746_filter, setupPCA9536_filter]

theorem caseStart_filter (hal : Hal) (p : taskParams) (s : Sys) :
    (caseStart hal p s).2.filter = s.filter := by
  simp only [caseStart]
  rw [setIntflag_filter, triggerAD7746capacitance_filter]

theorem filterInRange_of_filter {s s1 : Sys} (h : s1.filter = s.filter)
    (hs : filterInRange s) : filterInRange s1 := by
  intro d; rw [h]; exact hs d

theorem toFloat_zero : toFloat 0 = 0 := roundBinary_zero 24 (-126)

theorem readAD7746_filterInRange (hal : Hal)
    (hbytes : ∀ n k, (hal.i2cReply n).data.getD k 0 < 256) (s : Sys) (cap : adCapSelect)
    (d : Fin MAX_SENSORS) (hs : filterInRange s) :
    filterInRange (readAD7746 hal s cap d).sys := by
  by_cases hok : (hal.i2cReply s.xfers).ok = true
  · cases cap
    · intro e
      by_cases he : e = d
      · subst he
        rw [readAD7746_filter hal s e hok]
        obtain ⟨_, hfl, h0, h1⟩ := hs e
        obtain ⟨p0, p1⟩ := float_range _ hfl h0 h1
        obtain ⟨c0, c1⟩ := rawToCap_range _ (rawOfReply_lt _ (hbytes s.xfers))
        obtain ⟨f0, f1⟩ := filterUpdate_range _ _ p0 p1 c0 c1
        refine ⟨rfl, filterUpdate_float _ _, ?_, ?_⟩
        · show -4096 / 1000 ≤ filterUpdate _ _
          norm_num at f0 ⊢; linarith
        · show filterUpdate _ _ < 4096 / 1000
          norm_num at f1 ⊢; linarith
      · have : (readAD7746 hal s .adcsC2D1 d).sys.filter e = s.filter e := by
          simp [readAD7746, I2C_transfer, hok, Sys.storeSensor, Semaphore_pend, Semaphore_post,
            Function.update_noteq he]
        rw [this]; exact hs e
    · exact filterInRange_of_filter
        (by simp [readAD7746, I2C_transfer, hok, Sys.storeSensor, Semaphore_pend,
          Semaphore_post]) hs
    · exact filterInRange_of_filter
        (by simp [readAD7746, I2C_transfer, hok, Sys.storeSensor, Semaphore_pend,
          Semaphore_post]) hs
  · exact filterInRange_of_filter
      (by simp [readAD7746, I2C_transfer, hok]) hs

theorem caseRunning_filterInRange (hal : Hal)
    (hbytes : ∀ n k, (hal.i2cReply n).data.getD k 0 < 256) (p : taskParams) (s : Sys)
    (hs : filterInRange s) : filterInRange (caseRunning hal p s).2 := by
  have hr : filterInRange (runningRelay hal p s) :=
    filterInRange_of_filter (runningRelay_filter hal p s) hs
  simp only [caseRunning]
  split_ifs
  · exact hr
  · simp only [runningCompletion]
    refine filterInRange_of_filter (runningTrigger_filter hal _ _) ?_
    refine filterInRange_of_filter (runningHumidity_filter hal _ _) ?_
    apply readAD7746_filterInRange hal hbytes
    exact filterInRange_of_filter (setIntflag_filter _ _ _) hr
  · exact hr

/-! ## Theorems: the range invariant of the filter -/

/-- C29: filter range invariant, on the binary32 arithmetic of the code. If
the filter value of a channel is a binary32 value in [-4.096, 4.096), then
after a successful differential read of three bytes below 256 (any 24-bit raw
value) the new value is again a binary32 value in [-4.096, 4.096), and it lies
between the old value and the reading (the capacitance that the code decodes
from the raw value, which is within 1/4000000 of -4.096 + r * 8.192 / 2^24);
the integer re-encoded from it is below 2^24 and the three filtered bytes of
the block are exactly its big-endian bytes, so no bit is lost. The invariant
(a binary32 value in range, current and previous value equal) holds after boot
and is kept by every pass of a channel task, every transaction of the
transport task and every completion interrupt, hence in every reachable
state. -/
theorem filter_range_invariant (hal : Hal)
    (hbytes : ∀ n k, (hal.i2cReply n).data.getD k 0 < 256) :
    (∀ (s : Sys) (d : Fin MAX_SENSORS), (hal.i2cReply s.xfers).ok = true →
      toFloat (s.filter d).cprev = (s.filter d).cprev →
      -4096 / 1000 ≤ (s.filter d).cprev → (s.filter d).cprev < 4096 / 1000 →
      toFloat ((readAD7746 hal s .adcsC2D1 d).sys.filter d).c
        = ((readAD7746 hal s .adcsC2D1 d).sys.filter d).c ∧
      -4096 / 1000 ≤ ((readAD7746 hal s .adcsC2D1 d).sys.filter d).c ∧
      ((readAD7746 hal s .adcsC2D1 d).sys.filter d).c < 4096 / 1000 ∧
      min (s.filter d).cprev (rawToCap (rawOfReply (hal.i2cReply s.xfers).data))
        ≤ ((readAD7746 hal s .adcsC2D1 d).sys.filter d).c ∧
      ((readAD7746 hal s .adcsC2D1 d).sys.filter d).c
        ≤ max (s.filter d).cprev (rawToCap (rawOfReply (hal.i2cReply s.xfers).data)) ∧
      |rawToCap (rawOfReply (hal.i2cReply s.xfers).data)
        - specDecode (rawOfReply (hal.i2cReply s.xfers).data)| ≤ 1 / 4000000 ∧
      capToRaw ((readAD7746 hal s .adcsC2D1 d).sys.filter d).c < 2 ^ 24 ∧
      ((readAD7746 hal s .adcsC2D1 d).sys.spiMessageOut.sensor d).filtCapHigh * 65536
        + ((readAD7746 hal s .adcsC2D1 d).sys.spiMessageOut.sensor d).filtCapMid * 256
        + ((readAD7746 hal s .adcsC2D1 d).sys.spiMessageOut.sensor d).filtCapLow
        = capToRaw ((readAD7746 hal s .adcsC2D1 d).sys.filter d).c) ∧
    filterInRange Sys.boot ∧
    (∀ p s p1 s1, filterInRange s → taskI2Cpass hal p s = some (p1, s1) → filterInRange s1) ∧
    (∀ rx s tx s1, filterInRange s → slaveTaskFxn rx s = some (tx, s1) → filterInRange s1) ∧
    (∀ s d, filterInRange s → filterInRange (sensCvtDoneItr s d)) := by
  refine ⟨?_, ?_, ?_, ?_, ?_⟩
  · intro s d hok hfl h0 h1
    have hfilt := readAD7746_filter hal s d hok
    have hblock := readAD7746_block hal s d hok
    have hr := rawOfReply_lt _ (hbytes s.xfers)
    obtain ⟨p0, p1⟩ := float_range _ hfl h0 h1
    obtain ⟨c0, c1⟩ := rawToCap_range _ hr
    obtain ⟨f0, f1⟩ := filterUpdate_range _ _ p0 p1 c0 c1
    obtain ⟨b0, b1⟩ := filterUpdate_between (s.filter d).cprev
      (rawToCap (rawOfReply (hal.i2cReply s.xfers).data)) hfl (rawToCap_float _)
    obtain ⟨n0, _⟩ := capToRaw_range _ f0 f1
    have he := rawToCap_err _ hr
    rw [hfilt, hblock]
    refine ⟨filterUpdate_float _ _, ?_, ?_, b0, b1, ?_, n0, bytes_of_24 _ n0⟩
    · show -4096 / 1000 ≤ filterUpdate _ _
      norm_num at f0 ⊢; linarith
    · show filterUpdate _ _ < 4096 / 1000
      norm_num at f1 ⊢; linarith
    · refine le_trans he ?_
      norm_num
  · intro d
    refine ⟨rfl, toFloat_zero, ?_, ?_⟩ <;> norm_num [Sys.boot]
  · intro p s p1 s1 hs h
    obtain ⟨_, hs1, _⟩ := taskI2Cpass_cases hal p p1 s s1 h
    cases hst : p.state <;> simp only [hst] at hs1 <;> rw [hs1]
    · exact filterInRange_of_filter (caseInit_filter hal _ _) (filterInRange_of_filter rfl hs)
    · exact filterInRange_of_filter (caseInit_filter hal _ _) hs
    · exact hs
    · exact hs
    · exact filterInRange_of_filter (caseStart_filter hal _ _) hs
    · exact caseRunning_filterInRange hal hbytes p s hs
    · exact filterInRange_of_filter rfl hs
    · exact hs
  · intro rx s tx s1 hs h
    simp only [slaveTaskFxn] at h
    split_ifs at h
    · simp only [slaveCommandHandling, Option.map_map, Option.map_eq_some'] at h
      obtain ⟨s2, h2, h3⟩ := h
      simp only [Function.comp, Prod.mk.injEq] at h3
      rw [← h3.2]
      have hf := (slaveTaskCommand_frame _ s2 h2).2.2.1
      exact filterInRange_of_filter (s := s)
        (by simp [Semaphore_post, hf, Semaphore_pend, SPI_transfer]) hs
    · simp only [SPI_transfer, Option.some.injEq, Prod.mk.injEq] at h
      rw [← h.2]
      exact filterInRange_of_filter rfl hs
  · intro s d hs
    exact filterInRange_of_filter (setIntflag_filter s d true) hs

/-- C29 at a concrete input: on a bus that answers C0 00 00 to every read,
the first differential read of channel 2 after boot moves the filter from 0 to
a value between 0 and the reading 8589935 / 2^22 (2.048 rounded to binary32),
in range, and the state after a completion pass of the channel in Running
still satisfies the invariant. -/
theorem filter_range_invariant_witness :
    (0 ≤ ((readAD7746 (Hal.allOk [0xC0, 0, 0, 1, 2, 3]) Sys.boot .adcsC2D1 2).sys.filter 2).c ∧
      ((readAD7746 (Hal.allOk [0xC0, 0, 0, 1, 2, 3]) Sys.boot .adcsC2D1 2).sys.filter 2).c
        ≤ 8589935 / 4194304 ∧
      capToRaw ((readAD7746 (Hal.allOk [0xC0, 0, 0, 1, 2, 3]) Sys.boot .adcsC2D1
        2).sys.filter 2).c < 2 ^ 24) ∧
    (∃ p1 s1, taskI2Cpass (Hal.allOk [0xC0, 0, 0, 1, 2, 3])
        { stackZero with state := .tsRunning } { Sys.boot with intflag0 := true }
        = some (p1, s1) ∧ filterInRange s1) := by
  have hbytes : ∀ n k, ((Hal.allOk [0xC0, 0, 0, 1, 2, 3]).i2cReply n).data.getD k 0 < 256 := by
    intro n k
    simp only [Hal.allOk]
    rcases k with _ | _ | _ | _ | _ | _ | k <;> simp
  have h := filter_range_invariant (Hal.allOk [0xC0, 0, 0, 1, 2, 3]) hbytes
  obtain ⟨h1, hboot, h3, _, _⟩ := h
  have hr := h1 Sys.boot 2 rfl (by decide!) (by norm_num [Sys.boot]) (by norm_num [Sys.boot])
  refine ⟨⟨?_, ?_, hr.2.2.2.2.2.2.1⟩,
    ⟨_, _, rfl, h3 { stackZero with state := .tsRunning } { Sys.boot with intflag0 := true }
      _ _ ?_ rfl⟩⟩
  · have := hr.2.2.2.1
    have hm : min (Sys.boot.filter 2).cprev
        (rawToCap (rawOfReply ((Hal.allOk [0xC0, 0, 0, 1, 2, 3]).i2cReply Sys.boot.xfers).data))
        = 0 := by decide!
    rw [hm] at this; exact this
  · have := hr.2.2.2.2.1
    have hm : max (Sys.boot.filter 2).cprev
        (rawToCap (rawOfReply ((Hal.allOk [0xC0, 0, 0, 1, 2, 3]).i2cReply Sys.boot.xfers).data))
        = 8589935 / 4194304 := by decide!
    rw [hm] at this; exact this
  · exact filterInRange_of_filter rfl hboot

end Acsnb
